import Mathlib

/-!
# Operation batches and the interceptor chain of `grpcpp/impl/codegen/call.h`

A shallow embedding of the per-call operation slots, the interceptor hook-point
tracker (`InterceptorBatchMethodsImpl`) and the orchestrator (`CallOpSet`),
followed by theorems about them.

Conventions of the embedding
* A C++ object is a structure; a method is a function returning the updated object.
* A pointer that is only tested against `nullptr` is a `Bool` or an `Option`.
* `GPR_CODEGEN_ASSERT` failing, and dereferencing a null pointer, end the run in
  `Outcome.fatal`, which carries the state at the moment of the abort.
* Interceptors are user code. Their behaviour is a script: the list of the
  resumption calls made by the successive interceptor invocations.
* Calls into the transport are recorded in a ghost trace.
-/

namespace grpc

/-! ## Collaborator types declared in headers outside this file -/

/-- Octets held by a byte buffer. -/
abbrev Bytes := List Nat

/-- Modelled from the spec: the ordered multi-valued key/value collection
(`std::multimap<grpc::string, grpc::string>`), read as the sequence of pairs its
iteration visits. -/
abbrev Metadata := List (String × String)

/-- Modelled from the spec: one key/value pair of the flat array handed to the
transport (`grpc_metadata`, declared in `grpc_types.h`). -/
structure grpc_metadata where
  key : String
  value : String
deriving DecidableEq, Repr

/-- Modelled from the spec: the reserved metadata key under which the binary
error-detail blob travels (`kBinaryErrorDetailsKey`, declared in `metadata_map.h`). -/
def kBinaryErrorDetailsKey : String := "grpc-status-details-bin"

/-- Modelled from the spec: a status is a numeric code, a human-readable message
and an optional binary error-detail blob (`Status`, declared in `status.h`). -/
structure Status where
  error_code : Nat
  error_message : String
  error_details : String
deriving DecidableEq, Repr

/-- Modelled from the spec: the byte buffer of `byte_buffer.h`; `none` is the
null buffer. -/
structure ByteBuffer where
  buffer_ : Option Bytes := none
deriving DecidableEq, Repr

namespace ByteBuffer

/-- Modelled from the spec: `ByteBuffer::Valid`, the buffer is not null. -/
def Valid (b : ByteBuffer) : Bool := b.buffer_.isSome

/-- Modelled from the spec: `ByteBuffer::Clear`, destroy the buffer and null it. -/
def Clear (_b : ByteBuffer) : ByteBuffer := { buffer_ := none }

/-- Modelled from the spec: `ByteBuffer::Release`, forget the buffer without
destroying it. -/
def Release (_b : ByteBuffer) : ByteBuffer := { buffer_ := none }

/-- Modelled from the spec: `ByteBuffer::Duplicate`, replace the buffer by a copy
of itself. -/
def Duplicate (b : ByteBuffer) : ByteBuffer := { buffer_ := b.buffer_ }

end ByteBuffer

/-- Modelled from the spec: the fixed enumeration of interception points
(`experimental::InterceptionHookPoints`, declared in `interceptor.h`): the nine
points the spec lists and `PRE_RECV_STATUS`, which this file arms as well. -/
inductive InterceptionHookPoints
  | PRE_SEND_INITIAL_METADATA
  | PRE_SEND_MESSAGE
  | PRE_SEND_STATUS
  | PRE_SEND_CLOSE
  | PRE_RECV_INITIAL_METADATA
  | PRE_RECV_MESSAGE
  | PRE_RECV_STATUS
  | POST_RECV_INITIAL_METADATA
  | POST_RECV_MESSAGE
  | POST_RECV_STATUS
deriving DecidableEq, Repr

/-- Modelled from the spec: `static_cast<int>` of a hook point, its position in
the enumeration. -/
def InterceptionHookPoints.toNat : InterceptionHookPoints → Nat
  | .PRE_SEND_INITIAL_METADATA => 0
  | .PRE_SEND_MESSAGE => 1
  | .PRE_SEND_STATUS => 2
  | .PRE_SEND_CLOSE => 3
  | .PRE_RECV_INITIAL_METADATA => 4
  | .PRE_RECV_MESSAGE => 5
  | .PRE_RECV_STATUS => 6
  | .POST_RECV_INITIAL_METADATA => 7
  | .POST_RECV_MESSAGE => 8
  | .POST_RECV_STATUS => 9

/-- Modelled from the spec: `NUM_INTERCEPTION_HOOKS`, the number of hook points. -/
def NUM_INTERCEPTION_HOOKS : Nat := 10

/-- Modelled from the spec: `GRPC_WRITE_BUFFER_HINT` of `grpc_types.h`. -/
def GRPC_WRITE_BUFFER_HINT : Nat := 0x1

/-- Modelled from the spec: `GRPC_WRITE_NO_COMPRESS` of `grpc_types.h`. -/
def GRPC_WRITE_NO_COMPRESS : Nat := 0x2

/-- Modelled from the spec: `GRPC_WRITE_THROUGH` of `grpc_types.h`. -/
def GRPC_WRITE_THROUGH : Nat := 0x4

/-- Modelled from the spec: one transport operation descriptor (`grpc_op`,
declared in `grpc_types.h`), one constructor per operation kind, carrying the
fields this file writes. A field the code leaves unwritten is `none`. -/
inductive grpc_op
  | GRPC_OP_SEND_INITIAL_METADATA (flags : Nat) (count : Nat)
      (metadata : Option (List grpc_metadata)) (maybe_compression_level : Option Nat)
  | GRPC_OP_SEND_MESSAGE (flags : Nat) (send_message : Option Bytes)
  | GRPC_OP_RECV_MESSAGE (flags : Nat)
  | GRPC_OP_SEND_CLOSE_FROM_CLIENT (flags : Nat)
  | GRPC_OP_SEND_STATUS_FROM_SERVER (flags : Nat) (trailing_metadata_count : Nat)
      (trailing_metadata : Option (List grpc_metadata)) (status : Nat)
      (status_details : Option String)
  | GRPC_OP_RECV_INITIAL_METADATA (flags : Nat)
  | GRPC_OP_RECV_STATUS_ON_CLIENT (flags : Nat)
deriving DecidableEq, Repr

/-- The collaborators whose code is outside this file, taken as parameters:
the serializer and the transport's verdict on a submitted batch. -/
structure Env where
  /-- The status of `SerializationTraits<R>::Deserialize` is ok; the first argument
  names the message type `R`. -/
  Deserialize_ok : Nat → Bytes → Bool
  /-- The result of `SerializationTraits<M>::Serialize` on a message: is the status
  ok, the buffer written (`none` when it writes none), and `own_buf`. -/
  Serialize : Nat → Bool × Option Bytes × Bool
  /-- The call `grpc_call_start_batch` returns `GRPC_CALL_OK` for this batch. -/
  start_batch_ok : List grpc_op → Bool

/-! ## FillMetadataArray -/

/-- The function `FillMetadataArray`: the returned array (`none` for `nullptr`) and
the value stored in `*metadata_count`. -/
def FillMetadataArray (metadata : Metadata) (optional_error_details : String) :
    Option (List grpc_metadata) × Nat :=
  let metadata_count := metadata.length + (if optional_error_details = "" then 0 else 1)
  if metadata_count = 0 then
    (none, metadata_count)
  else
    let metadata_array : List grpc_metadata :=
      metadata.map (fun kv => { key := kv.1, value := kv.2 })
    let metadata_array :=
      if optional_error_details ≠ "" then
        metadata_array ++ [{ key := kBinaryErrorDetailsKey, value := optional_error_details }]
      else metadata_array
    (some metadata_array, metadata_count)

/-! ## WriteOptions -/

/-- The class `WriteOptions`: a 32-bit flag set and the last-message bit. -/
structure WriteOptions where
  flags_ : Nat := 0
  last_message_ : Bool := false
deriving DecidableEq, Repr

namespace WriteOptions

def SetBit (w : WriteOptions) (mask : Nat) : WriteOptions :=
  { w with flags_ := (w.flags_ ||| mask) % 2 ^ 32 }

def ClearBit (w : WriteOptions) (mask : Nat) : WriteOptions :=
  { w with flags_ := w.flags_ &&& ((2 ^ 32 - 1) ^^^ (mask % 2 ^ 32)) }

def GetBit (w : WriteOptions) (mask : Nat) : Bool := (w.flags_ &&& mask) != 0

def Clear (w : WriteOptions) : WriteOptions := { w with flags_ := 0 }

def flags (w : WriteOptions) : Nat := w.flags_

def set_no_compression (w : WriteOptions) : WriteOptions := w.SetBit GRPC_WRITE_NO_COMPRESS

def clear_no_compression (w : WriteOptions) : WriteOptions := w.ClearBit GRPC_WRITE_NO_COMPRESS

def get_no_compression (w : WriteOptions) : Bool := w.GetBit GRPC_WRITE_NO_COMPRESS

def set_buffer_hint (w : WriteOptions) : WriteOptions := w.SetBit GRPC_WRITE_BUFFER_HINT

def clear_buffer_hint (w : WriteOptions) : WriteOptions := w.ClearBit GRPC_WRITE_BUFFER_HINT

def get_buffer_hint (w : WriteOptions) : Bool := w.GetBit GRPC_WRITE_BUFFER_HINT

def set_corked (w : WriteOptions) : WriteOptions := w.SetBit GRPC_WRITE_BUFFER_HINT

def clear_corked (w : WriteOptions) : WriteOptions := w.ClearBit GRPC_WRITE_BUFFER_HINT

def is_corked (w : WriteOptions) : Bool := w.GetBit GRPC_WRITE_BUFFER_HINT

def set_last_message (w : WriteOptions) : WriteOptions := { w with last_message_ := true }

def clear_last_message (w : WriteOptions) : WriteOptions := { w with last_message_ := false }

def set_write_through (w : WriteOptions) : WriteOptions := w.SetBit GRPC_WRITE_THROUGH

def is_write_through (w : WriteOptions) : Bool := w.GetBit GRPC_WRITE_THROUGH

def is_last_message (w : WriteOptions) : Bool := w.last_message_

/-- The copy constructor: both members are copied. -/
def copy (other : WriteOptions) : WriteOptions :=
  { flags_ := other.flags_, last_message_ := other.last_message_ }

/-- The assignment operator `operator=`: only `flags_` is assigned. -/
def assign (w rhs : WriteOptions) : WriteOptions := { w with flags_ := rhs.flags_ }

end WriteOptions

/-! ## The hook-point tracker: data and accessors -/

/-- The data members of `InterceptorBatchMethodsImpl`. The pointers `call_` and
`ops_` are kept as "is set" bits: the objects they point to are the call and the
op set of the enclosing `World`. The accessor views (`send_message_` and the
like) are kept as "is bound" bits, `recv_message_` as the destination handle. -/
structure InterceptorBatchMethodsImpl where
  hooks_ : List Bool := List.replicate NUM_INTERCEPTION_HOOKS false
  curr_iteration_ : Int := 0
  reverse_ : Bool := false
  ran_hijacking_interceptor_ : Bool := false
  call_ : Bool := false
  ops_ : Bool := false
  callback_ : Option Nat := none
  send_message_ : Bool := false
  send_initial_metadata_ : Bool := false
  code_ : Bool := false
  error_details_ : Bool := false
  error_message_ : Bool := false
  send_trailing_metadata_ : Bool := false
  recv_message_ : Option Nat := none
  recv_initial_metadata_ : Bool := false
  recv_status_ : Bool := false
  recv_trailing_metadata_ : Bool := false
deriving DecidableEq, Repr

namespace InterceptorBatchMethodsImpl

def QueryInterceptionHookPoint (im : InterceptorBatchMethodsImpl)
    (type : InterceptionHookPoints) : Bool :=
  im.hooks_.getD type.toNat false

def AddInterceptionHookPoint (im : InterceptorBatchMethodsImpl)
    (type : InterceptionHookPoints) : InterceptorBatchMethodsImpl :=
  { im with hooks_ := im.hooks_.set type.toNat true }

def ClearHookPoints (im : InterceptorBatchMethodsImpl) : InterceptorBatchMethodsImpl :=
  { im with hooks_ := List.replicate NUM_INTERCEPTION_HOOKS false }

def SetSendMessage (im : InterceptorBatchMethodsImpl) : InterceptorBatchMethodsImpl :=
  { im with send_message_ := true }

def SetSendInitialMetadata (im : InterceptorBatchMethodsImpl) : InterceptorBatchMethodsImpl :=
  { im with send_initial_metadata_ := true }

def SetSendStatus (im : InterceptorBatchMethodsImpl) : InterceptorBatchMethodsImpl :=
  { im with code_ := true, error_details_ := true, error_message_ := true }

def SetSendTrailingMetadata (im : InterceptorBatchMethodsImpl) : InterceptorBatchMethodsImpl :=
  { im with send_trailing_metadata_ := true }

def SetRecvMessage (im : InterceptorBatchMethodsImpl) (message : Option Nat) :
    InterceptorBatchMethodsImpl :=
  { im with recv_message_ := message }

def SetRecvInitialMetadata (im : InterceptorBatchMethodsImpl) (map : Bool) :
    InterceptorBatchMethodsImpl :=
  { im with recv_initial_metadata_ := map }

def SetRecvStatus (im : InterceptorBatchMethodsImpl) (status : Bool) :
    InterceptorBatchMethodsImpl :=
  { im with recv_status_ := status }

def SetRecvTrailingMetadata (im : InterceptorBatchMethodsImpl) (map : Bool) :
    InterceptorBatchMethodsImpl :=
  { im with recv_trailing_metadata_ := map }

/-- The method `SetReverse`: prepares for the post-receive pass. -/
def SetReverse (im : InterceptorBatchMethodsImpl) : InterceptorBatchMethodsImpl :=
  ClearHookPoints { im with reverse_ := true, ran_hijacking_interceptor_ := false }

def SetCall (im : InterceptorBatchMethodsImpl) : InterceptorBatchMethodsImpl :=
  { im with call_ := true }

def SetCallOpSetInterface (im : InterceptorBatchMethodsImpl) : InterceptorBatchMethodsImpl :=
  { im with ops_ := true }

end InterceptorBatchMethodsImpl

/-! ## Operation slots -/

/-- The class template `CallNoOp`: it has no data member. -/
structure CallNoOp where
deriving DecidableEq, Repr

namespace CallNoOp

def AddOp (s : CallNoOp) (ops : List grpc_op) : CallNoOp × List grpc_op := (s, ops)

def FinishOp (s : CallNoOp) (status : Bool) : CallNoOp × Bool := (s, status)

def SetInterceptionHookPoint (s : CallNoOp) (interceptor_methods : InterceptorBatchMethodsImpl) :
    CallNoOp × InterceptorBatchMethodsImpl := (s, interceptor_methods)

def SetFinishInterceptionHookPoint (s : CallNoOp)
    (interceptor_methods : InterceptorBatchMethodsImpl) :
    CallNoOp × InterceptorBatchMethodsImpl := (s, interceptor_methods)

def SetHijackingState (s : CallNoOp) (interceptor_methods : InterceptorBatchMethodsImpl) :
    CallNoOp × InterceptorBatchMethodsImpl := (s, interceptor_methods)

end CallNoOp

/-- The anonymous struct `maybe_compression_level_`. -/
structure MaybeCompressionLevel where
  is_set : Bool := false
  level : Nat := 0
deriving DecidableEq, Repr

/-- The class `CallOpSendInitialMetadata`. The member `metadata_map_` is the map the
pointer refers to; `initial_metadata_` is the array built by `AddOp`. Members the
constructor leaves unset get a default here and are arbitrary in the theorems. -/
structure CallOpSendInitialMetadata where
  hijacked_ : Bool := false
  send_ : Bool := false
  flags_ : Nat := 0
  initial_metadata_count_ : Nat := 0
  metadata_map_ : Metadata := []
  initial_metadata_ : Option (List grpc_metadata) := none
  maybe_compression_level_ : MaybeCompressionLevel := {}
deriving DecidableEq, Repr

namespace CallOpSendInitialMetadata

def SendInitialMetadata (s : CallOpSendInitialMetadata) (metadata : Metadata) (flags : Nat) :
    CallOpSendInitialMetadata :=
  { s with
    maybe_compression_level_ := { s.maybe_compression_level_ with is_set := false }
    send_ := true
    flags_ := flags
    metadata_map_ := metadata }

def set_compression_level (s : CallOpSendInitialMetadata) (level : Nat) :
    CallOpSendInitialMetadata :=
  { s with maybe_compression_level_ := { is_set := true, level := level } }

def AddOp (s : CallOpSendInitialMetadata) (ops : List grpc_op) :
    CallOpSendInitialMetadata × List grpc_op :=
  if !s.send_ || s.hijacked_ then (s, ops)
  else
    let filled := FillMetadataArray s.metadata_map_ ""
    let s := { s with initial_metadata_ := filled.1, initial_metadata_count_ := filled.2 }
    let op := grpc_op.GRPC_OP_SEND_INITIAL_METADATA s.flags_ s.initial_metadata_count_
      s.initial_metadata_
      (if s.maybe_compression_level_.is_set then some s.maybe_compression_level_.level else none)
    (s, ops ++ [op])

/-- The method `FinishOp`: `gpr_free` releases the array; the pointer member keeps
its value. -/
def FinishOp (s : CallOpSendInitialMetadata) (status : Bool) :
    CallOpSendInitialMetadata × Bool :=
  if !s.send_ || s.hijacked_ then (s, status)
  else ({ s with send_ := false }, status)

def SetInterceptionHookPoint (s : CallOpSendInitialMetadata)
    (interceptor_methods : InterceptorBatchMethodsImpl) :
    CallOpSendInitialMetadata × InterceptorBatchMethodsImpl :=
  if !s.send_ then (s, interceptor_methods)
  else
    (s, (interceptor_methods.AddInterceptionHookPoint
      .PRE_SEND_INITIAL_METADATA).SetSendInitialMetadata)

def SetFinishInterceptionHookPoint (s : CallOpSendInitialMetadata)
    (interceptor_methods : InterceptorBatchMethodsImpl) :
    CallOpSendInitialMetadata × InterceptorBatchMethodsImpl := (s, interceptor_methods)

def SetHijackingState (s : CallOpSendInitialMetadata)
    (interceptor_methods : InterceptorBatchMethodsImpl) :
    CallOpSendInitialMetadata × InterceptorBatchMethodsImpl :=
  ({ s with hijacked_ := true }, interceptor_methods)

end CallOpSendInitialMetadata

/-- The class `CallOpSendMessage`. -/
structure CallOpSendMessage where
  hijacked_ : Bool := false
  send_buf_ : ByteBuffer := {}
  write_options_ : WriteOptions := {}
deriving DecidableEq, Repr

namespace CallOpSendMessage

/-- The method template `SendMessage(message, options)`: the slot afterwards and
whether the returned status is ok. A serializer that writes no buffer leaves
`send_buf_` as it was. -/
def SendMessage (env : Env) (s : CallOpSendMessage) (message : Nat) (options : WriteOptions) :
    CallOpSendMessage × Bool :=
  let s := { s with write_options_ := s.write_options_.assign options }
  let r := env.Serialize message
  let s :=
    match r.2.1 with
    | some buf => { s with send_buf_ := { buffer_ := some buf } }
    | none => s
  let own_buf := r.2.2
  let s := if !own_buf then { s with send_buf_ := s.send_buf_.Duplicate } else s
  (s, r.1)

/-- The method template `SendMessage(message)`: default write options. -/
def SendMessageDefault (env : Env) (s : CallOpSendMessage) (message : Nat) :
    CallOpSendMessage × Bool :=
  SendMessage env s message {}

def AddOp (s : CallOpSendMessage) (ops : List grpc_op) : CallOpSendMessage × List grpc_op :=
  if !s.send_buf_.Valid || s.hijacked_ then (s, ops)
  else
    let op := grpc_op.GRPC_OP_SEND_MESSAGE s.write_options_.flags s.send_buf_.buffer_
    ({ s with write_options_ := s.write_options_.Clear }, ops ++ [op])

def FinishOp (s : CallOpSendMessage) (status : Bool) : CallOpSendMessage × Bool :=
  ({ s with send_buf_ := s.send_buf_.Clear }, status)

def SetInterceptionHookPoint (s : CallOpSendMessage)
    (interceptor_methods : InterceptorBatchMethodsImpl) :
    CallOpSendMessage × InterceptorBatchMethodsImpl :=
  if !s.send_buf_.Valid then (s, interceptor_methods)
  else (s, (interceptor_methods.AddInterceptionHookPoint .PRE_SEND_MESSAGE).SetSendMessage)

def SetFinishInterceptionHookPoint (s : CallOpSendMessage)
    (interceptor_methods : InterceptorBatchMethodsImpl) :
    CallOpSendMessage × InterceptorBatchMethodsImpl := (s, interceptor_methods)

def SetHijackingState (s : CallOpSendMessage)
    (interceptor_methods : InterceptorBatchMethodsImpl) :
    CallOpSendMessage × InterceptorBatchMethodsImpl :=
  ({ s with hijacked_ := true }, interceptor_methods)

end CallOpSendMessage

/-- The class template `CallOpRecvMessage<R>`. The field `R` names the message
type; `message_` is the destination pointer (`none` for `nullptr`). -/
structure CallOpRecvMessage where
  R : Nat := 0
  got_message : Bool := false
  message_ : Option Nat := none
  recv_buf_ : ByteBuffer := {}
  allow_not_getting_message_ : Bool := false
  hijacked_ : Bool := false
deriving DecidableEq, Repr

namespace CallOpRecvMessage

def RecvMessage (s : CallOpRecvMessage) (message : Option Nat) : CallOpRecvMessage :=
  { s with message_ := message }

def AllowNoMessage (s : CallOpRecvMessage) : CallOpRecvMessage :=
  { s with allow_not_getting_message_ := true }

def AddOp (s : CallOpRecvMessage) (ops : List grpc_op) : CallOpRecvMessage × List grpc_op :=
  if s.message_ == none || s.hijacked_ then (s, ops)
  else (s, ops ++ [grpc_op.GRPC_OP_RECV_MESSAGE 0])

def FinishOp (env : Env) (s : CallOpRecvMessage) (status : Bool) : CallOpRecvMessage × Bool :=
  if s.message_ == none || s.hijacked_ then (s, status)
  else
    let r : CallOpRecvMessage × Bool :=
      match s.recv_buf_.buffer_ with
      | some buf =>
        if status then
          let ok := env.Deserialize_ok s.R buf
          ({ s with got_message := ok, recv_buf_ := s.recv_buf_.Release }, ok)
        else
          ({ s with got_message := false, recv_buf_ := s.recv_buf_.Clear }, status)
      | none =>
        let s := { s with got_message := false }
        if !s.allow_not_getting_message_ then (s, false) else (s, status)
    ({ r.1 with message_ := none }, r.2)

def SetInterceptionHookPoint (s : CallOpRecvMessage)
    (interceptor_methods : InterceptorBatchMethodsImpl) :
    CallOpRecvMessage × InterceptorBatchMethodsImpl :=
  (s, interceptor_methods.SetRecvMessage s.message_)

def SetFinishInterceptionHookPoint (s : CallOpRecvMessage)
    (interceptor_methods : InterceptorBatchMethodsImpl) :
    CallOpRecvMessage × InterceptorBatchMethodsImpl :=
  if !s.got_message then (s, interceptor_methods)
  else (s, interceptor_methods.AddInterceptionHookPoint .POST_RECV_MESSAGE)

def SetHijackingState (s : CallOpRecvMessage)
    (interceptor_methods : InterceptorBatchMethodsImpl) :
    CallOpRecvMessage × InterceptorBatchMethodsImpl :=
  let s := { s with hijacked_ := true }
  if s.message_ == none then (s, interceptor_methods)
  else
    ({ s with got_message := true },
      interceptor_methods.AddInterceptionHookPoint .PRE_RECV_MESSAGE)

end CallOpRecvMessage

/-- The class `CallOpGenericRecvMessage`. The member `deserialize_` holds the name
of the message type its `DeserializeFuncType<R>` decodes (`none` for an empty
`unique_ptr`). -/
structure CallOpGenericRecvMessage where
  got_message : Bool := false
  message_ : Option Nat := none
  hijacked_ : Bool := false
  deserialize_ : Option Nat := none
  recv_buf_ : ByteBuffer := {}
  allow_not_getting_message_ : Bool := false
deriving DecidableEq, Repr

namespace CallOpGenericRecvMessage

def RecvMessage (s : CallOpGenericRecvMessage) (R : Nat) (message : Option Nat) :
    CallOpGenericRecvMessage :=
  { s with deserialize_ := some R, message_ := message }

def AllowNoMessage (s : CallOpGenericRecvMessage) : CallOpGenericRecvMessage :=
  { s with allow_not_getting_message_ := true }

def AddOp (s : CallOpGenericRecvMessage) (ops : List grpc_op) :
    CallOpGenericRecvMessage × List grpc_op :=
  if s.deserialize_ == none || s.hijacked_ then (s, ops)
  else (s, ops ++ [grpc_op.GRPC_OP_RECV_MESSAGE 0])

def FinishOp (env : Env) (s : CallOpGenericRecvMessage) (status : Bool) :
    CallOpGenericRecvMessage × Bool :=
  match s.deserialize_ with
  | none => (s, status)
  | some R =>
    if s.hijacked_ then (s, status)
    else
      let r : CallOpGenericRecvMessage × Bool :=
        match s.recv_buf_.buffer_ with
        | some buf =>
          if status then
            ({ s with got_message := true, recv_buf_ := s.recv_buf_.Release },
              env.Deserialize_ok R buf)
          else
            ({ s with got_message := false, recv_buf_ := s.recv_buf_.Clear }, status)
        | none =>
          let s := { s with got_message := false }
          if !s.allow_not_getting_message_ then (s, false) else (s, status)
      ({ r.1 with deserialize_ := none }, r.2)

def SetInterceptionHookPoint (s : CallOpGenericRecvMessage)
    (interceptor_methods : InterceptorBatchMethodsImpl) :
    CallOpGenericRecvMessage × InterceptorBatchMethodsImpl :=
  (s, interceptor_methods.SetRecvMessage s.message_)

def SetFinishInterceptionHookPoint (s : CallOpGenericRecvMessage)
    (interceptor_methods : InterceptorBatchMethodsImpl) :
    CallOpGenericRecvMessage × InterceptorBatchMethodsImpl :=
  if !s.got_message then (s, interceptor_methods)
  else (s, interceptor_methods.AddInterceptionHookPoint .POST_RECV_MESSAGE)

def SetHijackingState (s : CallOpGenericRecvMessage)
    (interceptor_methods : InterceptorBatchMethodsImpl) :
    CallOpGenericRecvMessage × InterceptorBatchMethodsImpl :=
  let s := { s with hijacked_ := true }
  if s.deserialize_ == none then (s, interceptor_methods)
  else (s, interceptor_methods.AddInterceptionHookPoint .PRE_RECV_MESSAGE)

end CallOpGenericRecvMessage

/-- The class `CallOpClientSendClose`. -/
structure CallOpClientSendClose where
  hijacked_ : Bool := false
  send_ : Bool := false
deriving DecidableEq, Repr

namespace CallOpClientSendClose

def ClientSendClose (s : CallOpClientSendClose) : CallOpClientSendClose :=
  { s with send_ := true }

def AddOp (s : CallOpClientSendClose) (ops : List grpc_op) :
    CallOpClientSendClose × List grpc_op :=
  if !s.send_ || s.hijacked_ then (s, ops)
  else (s, ops ++ [grpc_op.GRPC_OP_SEND_CLOSE_FROM_CLIENT 0])

def FinishOp (s : CallOpClientSendClose) (status : Bool) : CallOpClientSendClose × Bool :=
  ({ s with send_ := false }, status)

def SetInterceptionHookPoint (s : CallOpClientSendClose)
    (interceptor_methods : InterceptorBatchMethodsImpl) :
    CallOpClientSendClose × InterceptorBatchMethodsImpl :=
  if !s.send_ then (s, interceptor_methods)
  else (s, interceptor_methods.AddInterceptionHookPoint .PRE_SEND_CLOSE)

def SetFinishInterceptionHookPoint (s : CallOpClientSendClose)
    (interceptor_methods : InterceptorBatchMethodsImpl) :
    CallOpClientSendClose × InterceptorBatchMethodsImpl := (s, interceptor_methods)

def SetHijackingState (s : CallOpClientSendClose)
    (interceptor_methods : InterceptorBatchMethodsImpl) :
    CallOpClientSendClose × InterceptorBatchMethodsImpl :=
  ({ s with hijacked_ := true }, interceptor_methods)

end CallOpClientSendClose

/-- The class `CallOpServerSendStatus`. The member `metadata_map_` is the map the
pointer refers to; `trailing_metadata_` is the array built by `AddOp`. -/
structure CallOpServerSendStatus where
  hijacked_ : Bool := false
  send_status_available_ : Bool := false
  send_status_code_ : Nat := 0
  send_error_details_ : String := ""
  send_error_message_ : String := ""
  trailing_metadata_count_ : Nat := 0
  metadata_map_ : Metadata := []
  trailing_metadata_ : Option (List grpc_metadata) := none
  error_message_slice_ : String := ""
deriving DecidableEq, Repr

namespace CallOpServerSendStatus

def ServerSendStatus (s : CallOpServerSendStatus) (trailing_metadata : Metadata)
    (status : Status) : CallOpServerSendStatus :=
  { s with
    send_error_details_ := status.error_details
    metadata_map_ := trailing_metadata
    send_status_available_ := true
    send_status_code_ := status.error_code
    send_error_message_ := status.error_message }

def AddOp (s : CallOpServerSendStatus) (ops : List grpc_op) :
    CallOpServerSendStatus × List grpc_op :=
  if !s.send_status_available_ || s.hijacked_ then (s, ops)
  else
    let filled := FillMetadataArray s.metadata_map_ s.send_error_details_
    let s := { s with
      trailing_metadata_ := filled.1
      trailing_metadata_count_ := filled.2
      error_message_slice_ := s.send_error_message_ }
    let op := grpc_op.GRPC_OP_SEND_STATUS_FROM_SERVER 0 s.trailing_metadata_count_
      s.trailing_metadata_ s.send_status_code_
      (if s.send_error_message_ = "" then none else some s.error_message_slice_)
    (s, ops ++ [op])

/-- The method `FinishOp`: `gpr_free` releases the array; the pointer member keeps
its value. -/
def FinishOp (s : CallOpServerSendStatus) (status : Bool) : CallOpServerSendStatus × Bool :=
  if !s.send_status_available_ || s.hijacked_ then (s, status)
  else ({ s with send_status_available_ := false }, status)

def SetInterceptionHookPoint (s : CallOpServerSendStatus)
    (interceptor_methods : InterceptorBatchMethodsImpl) :
    CallOpServerSendStatus × InterceptorBatchMethodsImpl :=
  if !s.send_status_available_ then (s, interceptor_methods)
  else
    (s, ((interceptor_methods.AddInterceptionHookPoint
      .PRE_SEND_STATUS).SetSendTrailingMetadata).SetSendStatus)

def SetFinishInterceptionHookPoint (s : CallOpServerSendStatus)
    (interceptor_methods : InterceptorBatchMethodsImpl) :
    CallOpServerSendStatus × InterceptorBatchMethodsImpl := (s, interceptor_methods)

def SetHijackingState (s : CallOpServerSendStatus)
    (interceptor_methods : InterceptorBatchMethodsImpl) :
    CallOpServerSendStatus × InterceptorBatchMethodsImpl :=
  ({ s with hijacked_ := true }, interceptor_methods)

end CallOpServerSendStatus

/-- The class `CallOpRecvInitialMetadata`. The member `metadata_map_` is `none` for
`nullptr`, otherwise the received-metadata map of the client context. -/
structure CallOpRecvInitialMetadata where
  hijacked_ : Bool := false
  metadata_map_ : Option Metadata := none
deriving DecidableEq, Repr

namespace CallOpRecvInitialMetadata

/-- The method `RecvInitialMetadata(context)`; the argument is the context's
`recv_initial_metadata_` map. -/
def RecvInitialMetadata (s : CallOpRecvInitialMetadata) (recv_initial_metadata : Metadata) :
    CallOpRecvInitialMetadata :=
  { s with metadata_map_ := some recv_initial_metadata }

def AddOp (s : CallOpRecvInitialMetadata) (ops : List grpc_op) :
    CallOpRecvInitialMetadata × List grpc_op :=
  if s.metadata_map_ == none || s.hijacked_ then (s, ops)
  else (s, ops ++ [grpc_op.GRPC_OP_RECV_INITIAL_METADATA 0])

def FinishOp (s : CallOpRecvInitialMetadata) (status : Bool) :
    CallOpRecvInitialMetadata × Bool :=
  if s.metadata_map_ == none || s.hijacked_ then (s, status) else (s, status)

def SetInterceptionHookPoint (s : CallOpRecvInitialMetadata)
    (interceptor_methods : InterceptorBatchMethodsImpl) :
    CallOpRecvInitialMetadata × InterceptorBatchMethodsImpl :=
  (s, interceptor_methods.SetRecvInitialMetadata s.metadata_map_.isSome)

def SetFinishInterceptionHookPoint (s : CallOpRecvInitialMetadata)
    (interceptor_methods : InterceptorBatchMethodsImpl) :
    CallOpRecvInitialMetadata × InterceptorBatchMethodsImpl :=
  if s.metadata_map_ == none then (s, interceptor_methods)
  else
    ({ s with metadata_map_ := none },
      interceptor_methods.AddInterceptionHookPoint .POST_RECV_INITIAL_METADATA)

def SetHijackingState (s : CallOpRecvInitialMetadata)
    (interceptor_methods : InterceptorBatchMethodsImpl) :
    CallOpRecvInitialMetadata × InterceptorBatchMethodsImpl :=
  let s := { s with hijacked_ := true }
  if s.metadata_map_ == none then (s, interceptor_methods)
  else (s, interceptor_methods.AddInterceptionHookPoint .PRE_RECV_INITIAL_METADATA)

end CallOpRecvInitialMetadata

/-- Modelled from the spec: `MetadataMap::GetBinaryErrorDetails` of
`metadata_map.h`, the value of the entry under the reserved binary error-details
key, empty when there is none. -/
def GetBinaryErrorDetails (map : Metadata) : String :=
  match map.find? (fun kv => kv.1 = kBinaryErrorDetailsKey) with
  | some kv => kv.2
  | none => ""

/-- The class `CallOpClientRecvStatus`. The member `recv_status_` tells whether the
pointer is set, `recv_status_target` is the `Status` object it points to;
`metadata_map_` is the trailing-metadata map of the client context and
`context_debug_error_string` the context's debug string. -/
structure CallOpClientRecvStatus where
  hijacked_ : Bool := false
  context_debug_error_string : String := ""
  metadata_map_ : Metadata := []
  recv_status_ : Bool := false
  recv_status_target : Status := { error_code := 0, error_message := "", error_details := "" }
  debug_error_string_ : Option String := none
  status_code_ : Nat := 0
  error_message_ : String := ""
deriving DecidableEq, Repr

namespace CallOpClientRecvStatus

/-- The method `ClientRecvStatus(context, status)`; the arguments are the context's
trailing-metadata map and debug string and the `Status` object to fill. -/
def ClientRecvStatus (s : CallOpClientRecvStatus) (trailing_metadata : Metadata)
    (context_debug_error_string : String) (status : Status) : CallOpClientRecvStatus :=
  { s with
    context_debug_error_string := context_debug_error_string
    metadata_map_ := trailing_metadata
    recv_status_ := true
    recv_status_target := status
    error_message_ := "" }

def AddOp (s : CallOpClientRecvStatus) (ops : List grpc_op) :
    CallOpClientRecvStatus × List grpc_op :=
  if !s.recv_status_ || s.hijacked_ then (s, ops)
  else (s, ops ++ [grpc_op.GRPC_OP_RECV_STATUS_ON_CLIENT 0])

def FinishOp (s : CallOpClientRecvStatus) (status : Bool) : CallOpClientRecvStatus × Bool :=
  if !s.recv_status_ || s.hijacked_ then (s, status)
  else
    let binary_error_details := GetBinaryErrorDetails s.metadata_map_
    ({ s with
        recv_status_target :=
          { error_code := s.status_code_
            error_message := if s.error_message_ = "" then "" else s.error_message_
            error_details := binary_error_details }
        context_debug_error_string :=
          match s.debug_error_string_ with
          | some d => d
          | none => "" },
      status)

def SetInterceptionHookPoint (s : CallOpClientRecvStatus)
    (interceptor_methods : InterceptorBatchMethodsImpl) :
    CallOpClientRecvStatus × InterceptorBatchMethodsImpl :=
  (s, (interceptor_methods.SetRecvStatus s.recv_status_).SetRecvTrailingMetadata true)

def SetFinishInterceptionHookPoint (s : CallOpClientRecvStatus)
    (interceptor_methods : InterceptorBatchMethodsImpl) :
    CallOpClientRecvStatus × InterceptorBatchMethodsImpl :=
  if !s.recv_status_ then (s, interceptor_methods)
  else
    ({ s with recv_status_ := false },
      interceptor_methods.AddInterceptionHookPoint .POST_RECV_STATUS)

def SetHijackingState (s : CallOpClientRecvStatus)
    (interceptor_methods : InterceptorBatchMethodsImpl) :
    CallOpClientRecvStatus × InterceptorBatchMethodsImpl :=
  let s := { s with hijacked_ := true }
  if !s.recv_status_ then (s, interceptor_methods)
  else (s, interceptor_methods.AddInterceptionHookPoint .PRE_RECV_STATUS)

end CallOpClientRecvStatus

/-- One template argument of `CallOpSet` together with the state of that base
class: the tagged variant over the slot kinds. -/
inductive Slot
  | NoOp (s : CallNoOp)
  | SendInitialMetadata (s : CallOpSendInitialMetadata)
  | SendMessage (s : CallOpSendMessage)
  | RecvMessage (s : CallOpRecvMessage)
  | GenericRecvMessage (s : CallOpGenericRecvMessage)
  | ClientSendClose (s : CallOpClientSendClose)
  | ServerSendStatus (s : CallOpServerSendStatus)
  | RecvInitialMetadata (s : CallOpRecvInitialMetadata)
  | ClientRecvStatus (s : CallOpClientRecvStatus)
deriving DecidableEq, Repr

namespace Slot

/-- The call `this->Op::AddOp(ops, &nops)`, resolved on the slot kind. -/
def AddOp : Slot → List grpc_op → Slot × List grpc_op
  | .NoOp s, ops => (.NoOp (s.AddOp ops).1, (s.AddOp ops).2)
  | .SendInitialMetadata s, ops => (.SendInitialMetadata (s.AddOp ops).1, (s.AddOp ops).2)
  | .SendMessage s, ops => (.SendMessage (s.AddOp ops).1, (s.AddOp ops).2)
  | .RecvMessage s, ops => (.RecvMessage (s.AddOp ops).1, (s.AddOp ops).2)
  | .GenericRecvMessage s, ops => (.GenericRecvMessage (s.AddOp ops).1, (s.AddOp ops).2)
  | .ClientSendClose s, ops => (.ClientSendClose (s.AddOp ops).1, (s.AddOp ops).2)
  | .ServerSendStatus s, ops => (.ServerSendStatus (s.AddOp ops).1, (s.AddOp ops).2)
  | .RecvInitialMetadata s, ops => (.RecvInitialMetadata (s.AddOp ops).1, (s.AddOp ops).2)
  | .ClientRecvStatus s, ops => (.ClientRecvStatus (s.AddOp ops).1, (s.AddOp ops).2)

/-- The call `this->Op::FinishOp(status)`, resolved on the slot kind. -/
def FinishOp (env : Env) : Slot → Bool → Slot × Bool
  | .NoOp s, st => (.NoOp (s.FinishOp st).1, (s.FinishOp st).2)
  | .SendInitialMetadata s, st =>
    (.SendInitialMetadata (s.FinishOp st).1, (s.FinishOp st).2)
  | .SendMessage s, st => (.SendMessage (s.FinishOp st).1, (s.FinishOp st).2)
  | .RecvMessage s, st => (.RecvMessage (s.FinishOp env st).1, (s.FinishOp env st).2)
  | .GenericRecvMessage s, st =>
    (.GenericRecvMessage (s.FinishOp env st).1, (s.FinishOp env st).2)
  | .ClientSendClose s, st => (.ClientSendClose (s.FinishOp st).1, (s.FinishOp st).2)
  | .ServerSendStatus s, st => (.ServerSendStatus (s.FinishOp st).1, (s.FinishOp st).2)
  | .RecvInitialMetadata s, st =>
    (.RecvInitialMetadata (s.FinishOp st).1, (s.FinishOp st).2)
  | .ClientRecvStatus s, st => (.ClientRecvStatus (s.FinishOp st).1, (s.FinishOp st).2)

/-- The call `this->Op::SetInterceptionHookPoint(&interceptor_methods_)`. -/
def SetInterceptionHookPoint :
    Slot → InterceptorBatchMethodsImpl → Slot × InterceptorBatchMethodsImpl
  | .NoOp s, im =>
    (.NoOp (s.SetInterceptionHookPoint im).1, (s.SetInterceptionHookPoint im).2)
  | .SendInitialMetadata s, im =>
    (.SendInitialMetadata (s.SetInterceptionHookPoint im).1,
      (s.SetInterceptionHookPoint im).2)
  | .SendMessage s, im =>
    (.SendMessage (s.SetInterceptionHookPoint im).1, (s.SetInterceptionHookPoint im).2)
  | .RecvMessage s, im =>
    (.RecvMessage (s.SetInterceptionHookPoint im).1, (s.SetInterceptionHookPoint im).2)
  | .GenericRecvMessage s, im =>
    (.GenericRecvMessage (s.SetInterceptionHookPoint im).1,
      (s.SetInterceptionHookPoint im).2)
  | .ClientSendClose s, im =>
    (.ClientSendClose (s.SetInterceptionHookPoint im).1, (s.SetInterceptionHookPoint im).2)
  | .ServerSendStatus s, im =>
    (.ServerSendStatus (s.SetInterceptionHookPoint im).1,
      (s.SetInterceptionHookPoint im).2)
  | .RecvInitialMetadata s, im =>
    (.RecvInitialMetadata (s.SetInterceptionHookPoint im).1,
      (s.SetInterceptionHookPoint im).2)
  | .ClientRecvStatus s, im =>
    (.ClientRecvStatus (s.SetInterceptionHookPoint im).1,
      (s.SetInterceptionHookPoint im).2)

/-- The call `this->Op::SetFinishInterceptionHookPoint(&interceptor_methods_)`. -/
def SetFinishInterceptionHookPoint :
    Slot → InterceptorBatchMethodsImpl → Slot × InterceptorBatchMethodsImpl
  | .NoOp s, im =>
    (.NoOp (s.SetFinishInterceptionHookPoint im).1,
      (s.SetFinishInterceptionHookPoint im).2)
  | .SendInitialMetadata s, im =>
    (.SendInitialMetadata (s.SetFinishInterceptionHookPoint im).1,
      (s.SetFinishInterceptionHookPoint im).2)
  | .SendMessage s, im =>
    (.SendMessage (s.SetFinishInterceptionHookPoint im).1,
      (s.SetFinishInterceptionHookPoint im).2)
  | .RecvMessage s, im =>
    (.RecvMessage (s.SetFinishInterceptionHookPoint im).1,
      (s.SetFinishInterceptionHookPoint im).2)
  | .GenericRecvMessage s, im =>
    (.GenericRecvMessage (s.SetFinishInterceptionHookPoint im).1,
      (s.SetFinishInterceptionHookPoint im).2)
  | .ClientSendClose s, im =>
    (.ClientSendClose (s.SetFinishInterceptionHookPoint im).1,
      (s.SetFinishInterceptionHookPoint im).2)
  | .ServerSendStatus s, im =>
    (.ServerSendStatus (s.SetFinishInterceptionHookPoint im).1,
      (s.SetFinishInterceptionHookPoint im).2)
  | .RecvInitialMetadata s, im =>
    (.RecvInitialMetadata (s.SetFinishInterceptionHookPoint im).1,
      (s.SetFinishInterceptionHookPoint im).2)
  | .ClientRecvStatus s, im =>
    (.ClientRecvStatus (s.SetFinishInterceptionHookPoint im).1,
      (s.SetFinishInterceptionHookPoint im).2)

/-- The call `this->Op::SetHijackingState(&interceptor_methods_)`. -/
def SetHijackingState :
    Slot → InterceptorBatchMethodsImpl → Slot × InterceptorBatchMethodsImpl
  | .NoOp s, im => (.NoOp (s.SetHijackingState im).1, (s.SetHijackingState im).2)
  | .SendInitialMetadata s, im =>
    (.SendInitialMetadata (s.SetHijackingState im).1, (s.SetHijackingState im).2)
  | .SendMessage s, im =>
    (.SendMessage (s.SetHijackingState im).1, (s.SetHijackingState im).2)
  | .RecvMessage s, im =>
    (.RecvMessage (s.SetHijackingState im).1, (s.SetHijackingState im).2)
  | .GenericRecvMessage s, im =>
    (.GenericRecvMessage (s.SetHijackingState im).1, (s.SetHijackingState im).2)
  | .ClientSendClose s, im =>
    (.ClientSendClose (s.SetHijackingState im).1, (s.SetHijackingState im).2)
  | .ServerSendStatus s, im =>
    (.ServerSendStatus (s.SetHijackingState im).1, (s.SetHijackingState im).2)
  | .RecvInitialMetadata s, im =>
    (.RecvInitialMetadata (s.SetHijackingState im).1, (s.SetHijackingState im).2)
  | .ClientRecvStatus s, im =>
    (.ClientRecvStatus (s.SetHijackingState im).1, (s.SetHijackingState im).2)

/-- The value of the slot's `hijacked_` member; `CallNoOp` has no such member and
yields `none`. -/
def hijacked_ : Slot → Option Bool
  | .NoOp _ => none
  | .SendInitialMetadata s => some s.hijacked_
  | .SendMessage s => some s.hijacked_
  | .RecvMessage s => some s.hijacked_
  | .GenericRecvMessage s => some s.hijacked_
  | .ClientSendClose s => some s.hijacked_
  | .ServerSendStatus s => some s.hijacked_
  | .RecvInitialMetadata s => some s.hijacked_
  | .ClientRecvStatus s => some s.hijacked_

end Slot

/-! ## The call, the op set and the world around them -/

/-- Modelled from the spec: the interceptor registry of a client call
(`experimental::ClientRpcInfo`, declared in `client_interceptor.h`): the length of
the ordered interceptor list and the hijack state. -/
structure ClientRpcInfo where
  interceptors_ : Nat := 0
  hijacked_ : Bool := false
  hijacked_interceptor_ : Int := 0
deriving DecidableEq, Repr

/-- Modelled from the spec: the interceptor registry of a server call
(`experimental::ServerRpcInfo`, declared in `server_interceptor.h`): the length of
the ordered interceptor list. -/
structure ServerRpcInfo where
  interceptors_ : Nat := 0
deriving DecidableEq, Repr

/-- Modelled from the spec: the call wrapper (`internal::Call`, declared in
`call_wrapper.h`): the call handle and the two registries it gives access to,
`none` for a null registry pointer. -/
structure Call where
  call : Nat := 0
  client_rpc_info : Option ClientRpcInfo := none
  server_rpc_info : Option ServerRpcInfo := none
deriving DecidableEq, Repr

/-- The data of `CallOpSet<Op1, ..., Op6>`: the six base-class slots and the
members. Tags are opaque handles. -/
structure CallOpSet where
  op1 : Slot := .NoOp {}
  op2 : Slot := .NoOp {}
  op3 : Slot := .NoOp {}
  op4 : Slot := .NoOp {}
  op5 : Slot := .NoOp {}
  op6 : Slot := .NoOp {}
  cq_tag_ : Nat := 0
  return_tag_ : Nat := 0
  call_ : Call := {}
  done_intercepting_ : Bool := false
  interceptor_methods_ : InterceptorBatchMethodsImpl := {}
deriving DecidableEq, Repr

/-- What the ghost trace records: interceptor invocations, the calls into the
core library, the two continuation entry points and the server continuation
callback. -/
inductive Event
  | Intercept (pos : Int)
  | ContinueFillOpsAfterInterception
  | ContinueFinalizeResultAfterInterception
  | grpc_call_start_batch (ops : List grpc_op) (tag : Nat)
  | grpc_call_ref (call : Nat)
  | grpc_call_unref (call : Nat)
  | callback (f : Nat)
deriving DecidableEq, Repr

/-- An op set together with the ghost trace of what it did to its collaborators. -/
structure World where
  cs : CallOpSet := {}
  trace : List Event := []
deriving DecidableEq, Repr

/-- What one interceptor invocation does before it returns: resume the chain,
hijack, or return without resuming. -/
inductive InterceptorAction
  | Proceed
  | Hijack
  | Return
deriving DecidableEq, Repr

/-- How a run ends: normally, with a value, the part of the interceptor script not
yet consumed and the state; or in a fatal abort, with the state at the abort. -/
inductive Outcome (α : Type)
  | ok (val : α) (rest : List InterceptorAction) (w : World)
  | fatal (w : World)
deriving DecidableEq, Repr

/-- Replace the value of a normal outcome. -/
def Outcome.withVal {α β : Type} (b : β) : Outcome α → Outcome β
  | .ok _ rest w => .ok b rest w
  | .fatal w => .fatal w

/-- Is the outcome a fatal abort. -/
def Outcome.isFatal {α : Type} : Outcome α → Bool
  | .ok _ _ _ => false
  | .fatal _ => true

/-- The state an outcome carries. -/
def Outcome.world {α : Type} : Outcome α → World
  | .ok _ _ w => w
  | .fatal w => w

namespace World

/-- Append an event to the ghost trace. -/
def log (w : World) (e : Event) : World := { w with trace := w.trace ++ [e] }

/-- Replace the tracker of the op set. -/
def setIM (w : World) (im : InterceptorBatchMethodsImpl) : World :=
  { w with cs := { w.cs with interceptor_methods_ := im } }

/-- Replace the client registry reached through the call. -/
def setClientRpcInfo (w : World) (rpc_info : ClientRpcInfo) : World :=
  { w with cs := { w.cs with call_ := { w.cs.call_ with client_rpc_info := some rpc_info } } }

end World

namespace CallOpSet

def set_output_tag (cs : CallOpSet) (return_tag : Nat) : CallOpSet :=
  { cs with return_tag_ := return_tag }

def cq_tag (cs : CallOpSet) : Nat := cs.cq_tag_

def set_cq_tag (cs : CallOpSet) (cq_tag : Nat) : CallOpSet := { cs with cq_tag_ := cq_tag }

/-- The method `CallOpSet::SetHijackingState`. -/
def SetHijackingState (cs : CallOpSet) : CallOpSet :=
  let r1 := cs.op1.SetHijackingState cs.interceptor_methods_
  let r2 := cs.op2.SetHijackingState r1.2
  let r3 := cs.op3.SetHijackingState r2.2
  let r4 := cs.op4.SetHijackingState r3.2
  let r5 := cs.op5.SetHijackingState r4.2
  let r6 := cs.op6.SetHijackingState r5.2
  { cs with
    op1 := r1.1, op2 := r2.1, op3 := r3.1, op4 := r4.1, op5 := r5.1, op6 := r6.1
    interceptor_methods_ := r6.2 }

/-- The six `AddOp` calls of `ContinueFillOpsAfterInterception`: the op set
afterwards and the array `ops[0 .. nops)`. -/
def AddOps (cs : CallOpSet) : CallOpSet × List grpc_op :=
  let a1 := cs.op1.AddOp []
  let a2 := cs.op2.AddOp a1.2
  let a3 := cs.op3.AddOp a2.2
  let a4 := cs.op4.AddOp a3.2
  let a5 := cs.op5.AddOp a4.2
  let a6 := cs.op6.AddOp a5.2
  ({ cs with op1 := a1.1, op2 := a2.1, op3 := a3.1, op4 := a4.1, op5 := a5.1, op6 := a6.1 },
    a6.2)

/-- The six `FinishOp` calls of `FinalizeResult`: the op set and `*status`
afterwards. -/
def FinishOps (env : Env) (cs : CallOpSet) (status : Bool) : CallOpSet × Bool :=
  let f1 := cs.op1.FinishOp env status
  let f2 := cs.op2.FinishOp env f1.2
  let f3 := cs.op3.FinishOp env f2.2
  let f4 := cs.op4.FinishOp env f3.2
  let f5 := cs.op5.FinishOp env f4.2
  let f6 := cs.op6.FinishOp env f5.2
  ({ cs with op1 := f1.1, op2 := f2.1, op3 := f3.1, op4 := f4.1, op5 := f5.1, op6 := f6.1 },
    f6.2)

/-- The six `SetInterceptionHookPoint` calls of `CallOpSet::RunInterceptors`. -/
def SetInterceptionHookPoints (cs : CallOpSet) : CallOpSet :=
  let r1 := cs.op1.SetInterceptionHookPoint cs.interceptor_methods_
  let r2 := cs.op2.SetInterceptionHookPoint r1.2
  let r3 := cs.op3.SetInterceptionHookPoint r2.2
  let r4 := cs.op4.SetInterceptionHookPoint r3.2
  let r5 := cs.op5.SetInterceptionHookPoint r4.2
  let r6 := cs.op6.SetInterceptionHookPoint r5.2
  { cs with
    op1 := r1.1, op2 := r2.1, op3 := r3.1, op4 := r4.1, op5 := r5.1, op6 := r6.1
    interceptor_methods_ := r6.2 }

/-- The six `SetFinishInterceptionHookPoint` calls of `RunInterceptorsPostRecv`. -/
def SetFinishInterceptionHookPoints (cs : CallOpSet) : CallOpSet :=
  let r1 := cs.op1.SetFinishInterceptionHookPoint cs.interceptor_methods_
  let r2 := cs.op2.SetFinishInterceptionHookPoint r1.2
  let r3 := cs.op3.SetFinishInterceptionHookPoint r2.2
  let r4 := cs.op4.SetFinishInterceptionHookPoint r3.2
  let r5 := cs.op5.SetFinishInterceptionHookPoint r4.2
  let r6 := cs.op6.SetFinishInterceptionHookPoint r5.2
  { cs with
    op1 := r1.1, op2 := r2.1, op3 := r3.1, op4 := r4.1, op5 := r5.1, op6 := r6.1
    interceptor_methods_ := r6.2 }

/-- The method `ContinueFillOpsAfterInterception`: build the array from the six
slots and submit it under `cq_tag()`; a batch the transport does not accept fails
the assertion. -/
def ContinueFillOpsAfterInterception (env : Env) (rest : List InterceptorAction)
    (w : World) : Outcome Unit :=
  let w := w.log .ContinueFillOpsAfterInterception
  let a := AddOps w.cs
  let w := { w with cs := a.1 }
  if env.start_batch_ok a.2 then
    .ok () rest (w.log (.grpc_call_start_batch a.2 w.cs.cq_tag))
  else .fatal w

/-- The method `ContinueFinalizeResultAfterInterception`: set `done_intercepting_`
and submit an empty batch under `cq_tag()`. -/
def ContinueFinalizeResultAfterInterception (env : Env) (rest : List InterceptorAction)
    (w : World) : Outcome Unit :=
  let w := w.log .ContinueFinalizeResultAfterInterception
  let w := { w with cs := { w.cs with done_intercepting_ := true } }
  if env.start_batch_ok [] then
    .ok () rest (w.log (.grpc_call_start_batch [] w.cs.cq_tag))
  else .fatal w

end CallOpSet

/-! ## The interceptor chain engine

The methods below belong to `InterceptorBatchMethodsImpl`; they reach the op set
through `ops_` and the registries through `call_`, so they act on the `World`.
A method that re-enters interceptor code takes the continuation `run`, which is
`RunInterceptor` on the rest of the script. The counter `curr_iteration_` is an
`int`; it stays far from the ends of its range and is an unbounded integer here. -/

namespace InterceptorBatchMethodsImpl

/-- The private method `ProceedClient`. -/
def ProceedClient (env : Env) (rest : List InterceptorAction)
    (run : Int → World → Outcome Unit) (w : World) : Outcome Unit :=
  match w.cs.call_.client_rpc_info with
  | none => .fatal w
  | some rpc_info =>
    let im := w.cs.interceptor_methods_
    if rpc_info.hijacked_ && !im.reverse_ &&
        im.curr_iteration_ == rpc_info.hijacked_interceptor_ &&
        !im.ran_hijacking_interceptor_ then
      let w := w.setIM im.ClearHookPoints
      if !im.ops_ then .fatal w
      else
        let w := { w with cs := w.cs.SetHijackingState }
        let w := w.setIM { w.cs.interceptor_methods_ with ran_hijacking_interceptor_ := true }
        run w.cs.interceptor_methods_.curr_iteration_ w
    else if !im.reverse_ then
      let curr := im.curr_iteration_ + 1
      let w := w.setIM { im with curr_iteration_ := curr }
      if curr < (rpc_info.interceptors_ : Int) then
        if rpc_info.hijacked_ && curr > rpc_info.hijacked_interceptor_ then
          if !im.ops_ then .fatal w
          else CallOpSet.ContinueFillOpsAfterInterception env rest w
        else run curr w
      else
        if !im.ops_ then .fatal w
        else CallOpSet.ContinueFillOpsAfterInterception env rest w
    else
      let curr := im.curr_iteration_ - 1
      let w := w.setIM { im with curr_iteration_ := curr }
      if curr ≥ 0 then run curr w
      else
        if !im.ops_ then .fatal w
        else CallOpSet.ContinueFinalizeResultAfterInterception env rest w

/-- The tail of `ProceedServer`, reached when all interceptors are done:
`if (ops_) ops_->ContinueFinalizeResultAfterInterception();` then
`GPR_CODEGEN_ASSERT(callback_); callback_();`. -/
def ProceedServerDone (env : Env) (rest : List InterceptorAction) (w : World) :
    Outcome Unit :=
  let afterOps : Outcome Unit :=
    if w.cs.interceptor_methods_.ops_ then
      CallOpSet.ContinueFinalizeResultAfterInterception env rest w
    else .ok () rest w
  match afterOps with
  | .fatal w => .fatal w
  | .ok _ rest w =>
    match w.cs.interceptor_methods_.callback_ with
    | none => .fatal w
    | some f => .ok () rest (w.log (.callback f))

/-- The private method `ProceedServer`. -/
def ProceedServer (env : Env) (rest : List InterceptorAction)
    (run : Int → World → Outcome Unit) (w : World) : Outcome Unit :=
  match w.cs.call_.server_rpc_info with
  | none => .fatal w
  | some rpc_info =>
    let im := w.cs.interceptor_methods_
    if !im.reverse_ then
      let curr := im.curr_iteration_ + 1
      let w := w.setIM { im with curr_iteration_ := curr }
      if curr < (rpc_info.interceptors_ : Int) then run curr w
      else ProceedServerDone env rest w
    else
      let curr := im.curr_iteration_ - 1
      let w := w.setIM { im with curr_iteration_ := curr }
      if curr ≥ 0 then run curr w
      else ProceedServerDone env rest w

/-- The method `Proceed`. -/
def Proceed (env : Env) (rest : List InterceptorAction)
    (run : Int → World → Outcome Unit) (w : World) : Outcome Unit :=
  if !w.cs.interceptor_methods_.call_ then .fatal w
  else if w.cs.call_.client_rpc_info != none then ProceedClient env rest run w
  else if w.cs.call_.server_rpc_info == none then .fatal w
  else ProceedServer env rest run w

/-- The method `Hijack`. The assertion is
`!reverse_ && ops_ != nullptr && call_->client_rpc_info() != nullptr`. -/
def Hijack (run : Int → World → Outcome Unit) (w : World) : Outcome Unit :=
  let im := w.cs.interceptor_methods_
  if im.reverse_ then .fatal w
  else if !im.ops_ then .fatal w
  else if !im.call_ then .fatal w
  else
    match w.cs.call_.client_rpc_info with
    | none => .fatal w
    | some rpc_info =>
      let w := w.setClientRpcInfo
        { rpc_info with hijacked_ := true, hijacked_interceptor_ := im.curr_iteration_ }
      let w := w.setIM w.cs.interceptor_methods_.ClearHookPoints
      let w := { w with cs := w.cs.SetHijackingState }
      let w := w.setIM { w.cs.interceptor_methods_ with ran_hijacking_interceptor_ := true }
      run w.cs.interceptor_methods_.curr_iteration_ w

/-- Modelled from the spec: `RunInterceptor(this, pos)` of the registry (declared in
`client_interceptor.h` and `server_interceptor.h`) invokes the interceptor at index
`pos`. The invocation is recorded; the interceptor then performs the next action
of the script, calling back into the tracker. An exhausted script stands for an
interceptor that returns without resuming. -/
def RunInterceptor (env : Env) : List InterceptorAction → Int → World → Outcome Unit
  | [], pos, w => .ok () [] (w.log (.Intercept pos))
  | .Proceed :: rest, pos, w =>
    Proceed env rest (RunInterceptor env rest) (w.log (.Intercept pos))
  | .Hijack :: rest, pos, w => Hijack (RunInterceptor env rest) (w.log (.Intercept pos))
  | .Return :: rest, pos, w => .ok () rest (w.log (.Intercept pos))

/-- The private method `RunClientInterceptors`. -/
def RunClientInterceptors (env : Env) (script : List InterceptorAction) (w : World) :
    Outcome Unit :=
  match w.cs.call_.client_rpc_info with
  | none => .fatal w
  | some rpc_info =>
    let im := w.cs.interceptor_methods_
    let curr : Int :=
      if !im.reverse_ then 0
      else if rpc_info.hijacked_ then rpc_info.hijacked_interceptor_
      else (rpc_info.interceptors_ : Int) - 1
    RunInterceptor env script curr (w.setIM { im with curr_iteration_ := curr })

/-- The method `RunInterceptors()`: the value is `true` when no interceptors are
run. The statements after the first `if`/`else`, which both branches leave by
`return`, are never executed and have no counterpart here. -/
def RunInterceptors (env : Env) (script : List InterceptorAction) (w : World) :
    Outcome Bool :=
  if !w.cs.interceptor_methods_.call_ then .fatal w
  else
    match w.cs.call_.client_rpc_info with
    | none => .ok true script w
    | some client_rpc_info =>
      if client_rpc_info.interceptors_ == 0 then .ok true script w
      else (RunClientInterceptors env script w).withVal false

end InterceptorBatchMethodsImpl

/-! ## The orchestrator -/

/-- What `FinalizeResult` hands back: its return value, `*tag` (`none` when it
is not written) and `*status`. -/
structure FinalizeReturn where
  ret : Bool
  tag : Option Nat
  status : Bool
deriving DecidableEq, Repr

namespace CallOpSet

/-- The private method `CallOpSet::RunInterceptors`. -/
def RunInterceptors (env : Env) (script : List InterceptorAction) (w : World) :
    Outcome Bool :=
  let w := { w with cs := w.cs.SetInterceptionHookPoints }
  let w := w.setIM w.cs.interceptor_methods_.SetCallOpSetInterface
  let w := w.setIM w.cs.interceptor_methods_.SetCall
  InterceptorBatchMethodsImpl.RunInterceptors env script w

/-- The private method `CallOpSet::RunInterceptorsPostRecv`. -/
def RunInterceptorsPostRecv (env : Env) (script : List InterceptorAction) (w : World) :
    Outcome Bool :=
  let w := w.setIM w.cs.interceptor_methods_.SetReverse
  let w := { w with cs := w.cs.SetFinishInterceptionHookPoints }
  InterceptorBatchMethodsImpl.RunInterceptors env script w

/-- The method `FillOps(call)`. -/
def FillOps (env : Env) (script : List InterceptorAction) (call : Call) (w : World) :
    Outcome Unit :=
  let w := { w with cs := { w.cs with done_intercepting_ := false } }
  let w := w.log (.grpc_call_ref call.call)
  let w := { w with cs := { w.cs with call_ := call } }
  match RunInterceptors env script w with
  | .fatal w => .fatal w
  | .ok true rest w => ContinueFillOpsAfterInterception env rest w
  | .ok false rest w => .ok () rest w

/-- The method `FinalizeResult(tag, status)`; the argument is the incoming
`*status`. -/
def FinalizeResult (env : Env) (script : List InterceptorAction) (status : Bool)
    (w : World) : Outcome FinalizeReturn :=
  if w.cs.done_intercepting_ then
    .ok { ret := true, tag := some w.cs.return_tag_, status := status } script
      (w.log (.grpc_call_unref w.cs.call_.call))
  else
    let f := FinishOps env w.cs status
    let w := { w with cs := f.1 }
    match RunInterceptorsPostRecv env script w with
    | .fatal w => .fatal w
    | .ok true rest w =>
      .ok { ret := true, tag := some w.cs.return_tag_, status := f.2 } rest
        (w.log (.grpc_call_unref w.cs.call_.call))
    | .ok false rest w => .ok { ret := false, tag := none, status := f.2 } rest w

end CallOpSet

/-! ## Vocabulary of the statements -/

/-- The slot is one of the two receive-message kinds. -/
def Slot.isRecvMessageKind : Slot → Bool
  | .RecvMessage _ => true
  | .GenericRecvMessage _ => true
  | _ => false

/-- The hook point a slot arms when it is switched to hijacked mode: a receive
slot with a pending request arms its `PRE_RECV_*` point, any other slot none. -/
def Slot.hijackHook : Slot → Option InterceptionHookPoints
  | .RecvMessage s => if s.message_ == none then none else some .PRE_RECV_MESSAGE
  | .GenericRecvMessage s => if s.deserialize_ == none then none else some .PRE_RECV_MESSAGE
  | .RecvInitialMetadata s =>
    if s.metadata_map_ == none then none else some .PRE_RECV_INITIAL_METADATA
  | .ClientRecvStatus s => if s.recv_status_ then some .PRE_RECV_STATUS else none
  | _ => none

/-- The slot is in hijacked mode: its `hijacked_` member, when it has one, is set. -/
def Slot.isHijacked (s : Slot) : Prop := s.hijacked_ ≠ some false

/-- Two tracker states agree on everything that steers the chain: the counter,
the direction, the re-entry guard, the three pointers. They may differ in the
hook flags and the accessor views. -/
def InterceptorBatchMethodsImpl.sameControl (a b : InterceptorBatchMethodsImpl) : Prop :=
  a.curr_iteration_ = b.curr_iteration_ ∧ a.reverse_ = b.reverse_ ∧
  a.ran_hijacking_interceptor_ = b.ran_hijacking_interceptor_ ∧
  a.call_ = b.call_ ∧ a.ops_ = b.ops_ ∧ a.callback_ = b.callback_

/-- The state `w` with the chain counter at `curr` and the ghost trace `tr`. -/
def World.atIndex (w : World) (curr : Int) (tr : List Event) : World :=
  { cs := { w.cs with
      interceptor_methods_ := { w.cs.interceptor_methods_ with curr_iteration_ := curr } }
    trace := tr }

/-- The state `w` after the transport has written into the six slots while a batch
was outstanding: the slots are those of `received`, everything else is kept. -/
def World.withSlotsOf (w : World) (received : CallOpSet) : World :=
  { w with cs := { w.cs with
      op1 := received.op1, op2 := received.op2, op3 := received.op3
      op4 := received.op4, op5 := received.op5, op6 := received.op6 } }

/-- The interceptor invocations at the indices `0, 1, ..., n - 1`, in that order. -/
def interceptsUp (n : Nat) : List Event :=
  (List.range n).map (fun (i : Nat) => Event.Intercept (i : Int))

/-- The interceptor invocations at the indices `n - 1, ..., 1, 0`, in that order. -/
def interceptsDown (n : Nat) : List Event :=
  (List.range n).reverse.map (fun (i : Nat) => Event.Intercept (i : Int))

/-- A concrete environment for evaluating the code: decoding succeeds or fails as
`decode_ok` says, serialization yields one owned octet, and the transport accepts
a batch or not as `accept` says. -/
def Env.sample (decode_ok accept : Bool) : Env :=
  { Deserialize_ok := fun _ _ => decode_ok
    Serialize := fun _ => (true, some [0], true)
    start_batch_ok := fun _ => accept }

/-- The event is a batch submission. -/
def Event.isBatch : Event → Bool
  | .grpc_call_start_batch _ _ => true
  | _ => false

/-- The number of batches the transport has accepted so far. -/
def World.batches (w : World) : Nat := w.trace.countP Event.isBatch

/-- A concrete client call: handle `1` and the given registry. -/
def Call.sample (rpc : ClientRpcInfo) : Call :=
  { call := 1, client_rpc_info := some rpc }

/-- A concrete op set for evaluating the code: a unary client batch (send initial
metadata, send message, receive initial metadata, receive message, send close,
receive status) on `Call.sample rpc`, with the given tracker state. -/
def World.sample (rpc : ClientRpcInfo) (im : InterceptorBatchMethodsImpl) : World :=
  { cs :=
      { op1 := .SendInitialMetadata { send_ := true, metadata_map_ := [("k1", "v1")] }
        op2 := .SendMessage { send_buf_ := { buffer_ := some [7] } }
        op3 := .RecvInitialMetadata { metadata_map_ := some [] }
        op4 := .RecvMessage { message_ := some 1 }
        op5 := .ClientSendClose { send_ := true }
        op6 := .ClientRecvStatus { recv_status_ := true }
        cq_tag_ := 10
        return_tag_ := 20
        call_ := Call.sample rpc
        interceptor_methods_ := im } }

/-! ## Construction, copying and assignment -/

/-- The default constructor of `CallOpSendInitialMetadata`, applied to the raw
storage `raw`: the members it does not initialize keep what the storage held. -/
def CallOpSendInitialMetadata.construct (raw : CallOpSendInitialMetadata) :
    CallOpSendInitialMetadata :=
  { raw with
    hijacked_ := false
    send_ := false
    maybe_compression_level_ := { raw.maybe_compression_level_ with is_set := false } }

/-- The default constructor of `CallOpSendMessage`: a null send buffer and
default write options. -/
def CallOpSendMessage.construct (_raw : CallOpSendMessage) : CallOpSendMessage :=
  { hijacked_ := false, send_buf_ := {}, write_options_ := {} }

/-- The default constructor of `CallOpRecvMessage<R>`. -/
def CallOpRecvMessage.construct (raw : CallOpRecvMessage) : CallOpRecvMessage :=
  { R := raw.R, got_message := false, message_ := none, recv_buf_ := {}
    allow_not_getting_message_ := false, hijacked_ := false }

/-- The default constructor of `CallOpGenericRecvMessage`; `message_` is not
initialized. -/
def CallOpGenericRecvMessage.construct (raw : CallOpGenericRecvMessage) :
    CallOpGenericRecvMessage :=
  { got_message := false, message_ := raw.message_, hijacked_ := false, deserialize_ := none
    recv_buf_ := {}, allow_not_getting_message_ := false }

/-- The default constructor of `CallOpClientSendClose`. -/
def CallOpClientSendClose.construct (_raw : CallOpClientSendClose) : CallOpClientSendClose :=
  { hijacked_ := false, send_ := false }

/-- The default constructor of `CallOpServerSendStatus`: the two strings are
empty; code, count, pointers and slice are not initialized. -/
def CallOpServerSendStatus.construct (raw : CallOpServerSendStatus) : CallOpServerSendStatus :=
  { raw with
    hijacked_ := false
    send_status_available_ := false
    send_error_details_ := ""
    send_error_message_ := "" }

/-- The default constructor of `CallOpRecvInitialMetadata`. -/
def CallOpRecvInitialMetadata.construct (_raw : CallOpRecvInitialMetadata) :
    CallOpRecvInitialMetadata :=
  { hijacked_ := false, metadata_map_ := none }

/-- The default constructor of `CallOpClientRecvStatus`: the two pointers are
null; the other members are not initialized. -/
def CallOpClientRecvStatus.construct (raw : CallOpClientRecvStatus) : CallOpClientRecvStatus :=
  { raw with hijacked_ := false, recv_status_ := false, debug_error_string_ := none }

/-- The default constructor of a base-class slot, applied to its raw storage. -/
def Slot.construct : Slot → Slot
  | .NoOp s => .NoOp s
  | .SendInitialMetadata s => .SendInitialMetadata s.construct
  | .SendMessage s => .SendMessage s.construct
  | .RecvMessage s => .RecvMessage s.construct
  | .GenericRecvMessage s => .GenericRecvMessage s.construct
  | .ClientSendClose s => .ClientSendClose s.construct
  | .ServerSendStatus s => .ServerSendStatus s.construct
  | .RecvInitialMetadata s => .RecvInitialMetadata s.construct
  | .ClientRecvStatus s => .ClientRecvStatus s.construct

namespace CallOpSet

/-- The default constructor `CallOpSet()`, for the object at address `this` in
the raw storage `raw`: both tags are `this`; the bases, the call wrapper and the
tracker are default-constructed. -/
def construct (this : Nat) (raw : CallOpSet) : CallOpSet :=
  { op1 := raw.op1.construct, op2 := raw.op2.construct, op3 := raw.op3.construct
    op4 := raw.op4.construct, op5 := raw.op5.construct, op6 := raw.op6.construct
    cq_tag_ := this
    return_tag_ := this
    call_ := {}
    done_intercepting_ := false
    interceptor_methods_ := {} }

/-- The copy constructor `CallOpSet(const CallOpSet& other)`, for the object at
address `this` in the raw storage `raw`. The member initializer list names no
base class, so the six bases are default-constructed, not copied. -/
def copy_construct (this : Nat) (raw other : CallOpSet) : CallOpSet :=
  { op1 := raw.op1.construct, op2 := raw.op2.construct, op3 := raw.op3.construct
    op4 := raw.op4.construct, op5 := raw.op5.construct, op6 := raw.op6.construct
    cq_tag_ := this
    return_tag_ := this
    call_ := other.call_
    done_intercepting_ := false
    interceptor_methods_ := {} }

/-- The assignment `operator=(const CallOpSet& other)` on the object `self` at
address `this`. The bases are not assigned. -/
def assign (this : Nat) (self other : CallOpSet) : CallOpSet :=
  { self with
    cq_tag_ := this
    return_tag_ := this
    call_ := other.call_
    done_intercepting_ := false
    interceptor_methods_ := {} }

end CallOpSet

/-! ## The standard multimap -/

/-- The member `insert` of `std::multimap<grpc::string, grpc::string>` (C++
standard library), on the iteration sequence: the keys stay in ascending order
and the new pair goes to the upper bound of its key, after the pairs whose key is
not greater. -/
def multimap_insert (kv : String × String) : Metadata → Metadata
  | [] => [kv]
  | e :: m => if e.1 ≤ kv.1 then e :: multimap_insert kv m else kv :: e :: m

/-- The multimap obtained from the empty one by the given insertions, in order. -/
def multimap_of (insertions : List (String × String)) : Metadata :=
  insertions.foldl (fun m kv => multimap_insert kv m) []

/-! ## More vocabulary of the statements -/

/-- The entries of a flat metadata array as key/value pairs, none for a null
array. -/
def entries (array : Option (List grpc_metadata)) : Metadata :=
  (array.getD []).map (fun e => (e.key, e.value))

/-- Modelled from the spec: the transport (the core library, not in this file)
delivering to the receiving side the terminal status that a server sent with the
given op: the status code, the status details (an empty
slice when absent) and the trailing metadata, exactly as sent. Any other op
delivers nothing. -/
def CallOpClientRecvStatus.deliver (s : CallOpClientRecvStatus) :
    grpc_op → CallOpClientRecvStatus
  | .GRPC_OP_SEND_STATUS_FROM_SERVER _ _ trailing_metadata status status_details =>
    { s with
      status_code_ := status
      error_message_ := status_details.getD ""
      metadata_map_ := entries trailing_metadata }
  | _ => s

/-- The event with the transport-level tag of a batch submission blanked. -/
def Event.untag : Event → Event
  | .grpc_call_start_batch ops _ => .grpc_call_start_batch ops 0
  | e => e

/-- The state with the transport-level tag blanked, in `cq_tag_` and in the
batch submissions of the trace; everything else is kept. -/
def World.untag (w : World) : World :=
  { cs := { w.cs with cq_tag_ := 0 }, trace := w.trace.map Event.untag }

/-- The outcome with the transport-level tag blanked in its state; the value and
the unconsumed script are kept. -/
def Outcome.untag {α : Type} : Outcome α → Outcome α
  | .ok val rest w => .ok val rest w.untag
  | .fatal w => .fatal w.untag

/-- A concrete server call: handle `2` and the given registry. -/
def Call.sampleServer (rpc : ServerRpcInfo) : Call :=
  { call := 2, server_rpc_info := some rpc }

/-- A concrete op set on a server call, for evaluating the code: a server
response batch (send initial metadata, send message, send status) on
`Call.sampleServer rpc`, with the given tracker state. -/
def World.sampleServer (rpc : ServerRpcInfo) (im : InterceptorBatchMethodsImpl) : World :=
  { cs :=
      { op1 := .SendInitialMetadata { send_ := true, metadata_map_ := [("k1", "v1")] }
        op2 := .SendMessage { send_buf_ := { buffer_ := some [7] } }
        op3 := .ServerSendStatus { send_status_available_ := true, send_status_code_ := 0 }
        cq_tag_ := 10
        return_tag_ := 20
        call_ := Call.sampleServer rpc
        interceptor_methods_ := im } }

/-- Collaborators for evaluating the code when serialization fails: the
serializer reports failure and writes no buffer; decoding succeeds and the
transport accepts every batch. -/
def Env.sampleSerializeFails : Env :=
  { Deserialize_ok := fun _ _ => true
    Serialize := fun _ => (false, none, true)
    start_batch_ok := fun _ => true }

/-! ## Vocabulary of the later statements -/

/-- What one event does to the reference count of the call handle `c`. -/
def Event.refDelta (c : Nat) : Event → Int
  | .grpc_call_ref d => if d = c then 1 else 0
  | .grpc_call_unref d => if d = c then -1 else 0
  | _ => 0

/-- The reference count of the call handle `c`, relative to what it was when the
trace began: references taken minus references dropped. -/
def World.refcount (w : World) (c : Nat) : Int := (w.trace.map (Event.refDelta c)).sum

/-- The value a `FinalizeResult` call returned; a call that aborted returned
nothing and counts as `false`. -/
def Outcome.returnedTrue : Outcome FinalizeReturn → Bool
  | .ok r _ _ => r.ret
  | .fatal _ => false

/-- The slot carries pending work: the condition under which `AddOp` of the slot
kind goes on, the hijack test aside. `CallNoOp` never does. -/
def Slot.hasPendingWork : Slot → Bool
  | .NoOp _ => false
  | .SendInitialMetadata s => s.send_
  | .SendMessage s => s.send_buf_.Valid
  | .RecvMessage s => s.message_.isSome
  | .GenericRecvMessage s => s.deserialize_.isSome
  | .ClientSendClose s => s.send_
  | .ServerSendStatus s => s.send_status_available_
  | .RecvInitialMetadata s => s.metadata_map_.isSome
  | .ClientRecvStatus s => s.recv_status_

/-- The op is of the kind the slot contributes. -/
def Slot.ownsOp : Slot → grpc_op → Bool
  | .SendInitialMetadata _, .GRPC_OP_SEND_INITIAL_METADATA _ _ _ _ => true
  | .SendMessage _, .GRPC_OP_SEND_MESSAGE _ _ => true
  | .RecvMessage _, .GRPC_OP_RECV_MESSAGE _ => true
  | .GenericRecvMessage _, .GRPC_OP_RECV_MESSAGE _ => true
  | .ClientSendClose _, .GRPC_OP_SEND_CLOSE_FROM_CLIENT _ => true
  | .ServerSendStatus _, .GRPC_OP_SEND_STATUS_FROM_SERVER _ _ _ _ _ => true
  | .RecvInitialMetadata _, .GRPC_OP_RECV_INITIAL_METADATA _ => true
  | .ClientRecvStatus _, .GRPC_OP_RECV_STATUS_ON_CLIENT _ => true
  | _, _ => false

/-- The hook point a slot arms before the forward pass: a send slot with pending
work arms its `PRE_SEND_*` point, any other slot none. -/
def Slot.fillHook : Slot → Option InterceptionHookPoints
  | .SendInitialMetadata s => if s.send_ then some .PRE_SEND_INITIAL_METADATA else none
  | .SendMessage s => if s.send_buf_.Valid then some .PRE_SEND_MESSAGE else none
  | .ClientSendClose s => if s.send_ then some .PRE_SEND_CLOSE else none
  | .ServerSendStatus s => if s.send_status_available_ then some .PRE_SEND_STATUS else none
  | _ => none

/-- The hook point a slot arms before the reverse pass: a receive-message slot
that got a message arms `POST_RECV_MESSAGE`, the other two receive kinds arm
their `POST_RECV_*` point when their destination pointer is set, any other slot
none. -/
def Slot.finishHook : Slot → Option InterceptionHookPoints
  | .RecvMessage s => if s.got_message then some .POST_RECV_MESSAGE else none
  | .GenericRecvMessage s => if s.got_message then some .POST_RECV_MESSAGE else none
  | .RecvInitialMetadata s =>
    if s.metadata_map_ == none then none else some .POST_RECV_INITIAL_METADATA
  | .ClientRecvStatus s => if s.recv_status_ then some .POST_RECV_STATUS else none
  | _ => none

/-- Between `a` and `b` the call handle of the op set is the same and no
reference to any call handle was taken or dropped. -/
def World.sameRefs (a b : World) : Prop :=
  b.cs.call_.call = a.cs.call_.call ∧ ∀ c, b.refcount c = a.refcount c

/-- A typed and a generic receive-message slot in the same situation: the same
`got_message`, receive buffer, allow-no-message and hijacked members, a pending
destination in both or in neither, and the generic slot decoding the typed
slot's message type. -/
def sameSituation (t : CallOpRecvMessage) (g : CallOpGenericRecvMessage) : Prop :=
  t.got_message = g.got_message ∧ t.recv_buf_ = g.recv_buf_ ∧
  t.allow_not_getting_message_ = g.allow_not_getting_message_ ∧
  t.hijacked_ = g.hijacked_ ∧
  (t.message_.isSome = g.deserialize_.isSome) ∧
  (∀ R, g.deserialize_ = some R → R = t.R)

/-! ## The calls a slot can receive -/

/-- One call on a slot: one of the five methods the op set invokes on every base
class, or a configuration call of a slot class, with its arguments. -/
inductive SlotCall
  | AddOp (ops : List grpc_op)
  | FinishOp (status : Bool)
  | SetInterceptionHookPoint (interceptor_methods : InterceptorBatchMethodsImpl)
  | SetFinishInterceptionHookPoint (interceptor_methods : InterceptorBatchMethodsImpl)
  | SetHijackingState (interceptor_methods : InterceptorBatchMethodsImpl)
  | SendInitialMetadata (metadata : Metadata) (flags : Nat)
  | set_compression_level (level : Nat)
  | SendMessage (message : Nat) (options : WriteOptions)
  | SendMessageDefault (message : Nat)
  | RecvMessage (R : Nat) (message : Option Nat)
  | AllowNoMessage
  | ClientSendClose
  | ServerSendStatus (trailing_metadata : Metadata) (status : Status)
  | RecvInitialMetadata (recv_initial_metadata : Metadata)
  | ClientRecvStatus (trailing_metadata : Metadata) (context_debug_error_string : String)
      (status : Status)

/-- The slot after a call. A configuration call exists only in its own slot
class; on a slot of another kind there is nothing to call and the slot is left
as it is. -/
def Slot.perform (env : Env) : Slot → SlotCall → Slot
  | slot, .AddOp ops => (slot.AddOp ops).1
  | slot, .FinishOp status => (slot.FinishOp env status).1
  | slot, .SetInterceptionHookPoint im => (slot.SetInterceptionHookPoint im).1
  | slot, .SetFinishInterceptionHookPoint im => (slot.SetFinishInterceptionHookPoint im).1
  | slot, .SetHijackingState im => (slot.SetHijackingState im).1
  | .SendInitialMetadata s, .SendInitialMetadata metadata flags =>
    .SendInitialMetadata (s.SendInitialMetadata metadata flags)
  | .SendInitialMetadata s, .set_compression_level level =>
    .SendInitialMetadata (s.set_compression_level level)
  | .SendMessage s, .SendMessage message options =>
    .SendMessage (CallOpSendMessage.SendMessage env s message options).1
  | .SendMessage s, .SendMessageDefault message =>
    .SendMessage (CallOpSendMessage.SendMessageDefault env s message).1
  | .RecvMessage s, .RecvMessage _ message => .RecvMessage (s.RecvMessage message)
  | .RecvMessage s, .AllowNoMessage => .RecvMessage s.AllowNoMessage
  | .GenericRecvMessage s, .RecvMessage R message =>
    .GenericRecvMessage (s.RecvMessage R message)
  | .GenericRecvMessage s, .AllowNoMessage => .GenericRecvMessage s.AllowNoMessage
  | .ClientSendClose s, .ClientSendClose => .ClientSendClose s.ClientSendClose
  | .ServerSendStatus s, .ServerSendStatus trailing_metadata status =>
    .ServerSendStatus (s.ServerSendStatus trailing_metadata status)
  | .RecvInitialMetadata s, .RecvInitialMetadata recv_initial_metadata =>
    .RecvInitialMetadata (s.RecvInitialMetadata recv_initial_metadata)
  | .ClientRecvStatus s, .ClientRecvStatus trailing_metadata dbg status =>
    .ClientRecvStatus (s.ClientRecvStatus trailing_metadata dbg status)
  | slot, _ => slot

/-- The slot after a sequence of calls, in order. -/
def Slot.performAll (env : Env) (slot : Slot) (calls : List SlotCall) : Slot :=
  calls.foldl (Slot.perform env) slot

/-- The write options a send-message slot stores; no other slot kind stores
any. -/
def Slot.write_options_ : Slot → Option WriteOptions
  | .SendMessage s => some s.write_options_
  | _ => none

/-! ## An op set in its second attempt -/

/-- A concrete op set that has been through one complete attempt, for evaluating
the code on a second attempt: `World.sample` with one registered interceptor after
`FillOps`, with the interceptor proceeding, and the two completions that follow
(the interceptor proceeding again in the reverse pass); the caller has then handed
in a new message and closed the sending side again, through `SendMessage` and
`ClientSendClose`. -/
def World.sampleReused : World :=
  let env := Env.sample true true
  let filled := (CallOpSet.FillOps env [.Proceed] (Call.sample { interceptors_ := 1 })
    (World.sample { interceptors_ := 1 } {})).world
  let first := (CallOpSet.FinalizeResult env [.Proceed] true filled).world
  let second := (CallOpSet.FinalizeResult env [] true first).world
  { second with cs := { second.cs with
      op2 := second.cs.op2.perform env (.SendMessageDefault 7)
      op5 := second.cs.op5.perform env .ClientSendClose } }

/-! ## Theorems

First the lemmas shared by the claims, then the claims in order. -/

open InterceptorBatchMethodsImpl

/-! ### Shared lemmas -/

theorem sameControl_refl (a : InterceptorBatchMethodsImpl) : a.sameControl a :=
  ⟨rfl, rfl, rfl, rfl, rfl, rfl⟩

theorem sameControl_trans {a b c : InterceptorBatchMethodsImpl}
    (h1 : a.sameControl b) (h2 : b.sameControl c) : a.sameControl c := by
  obtain ⟨a1, a2, a3, a4, a5, a6⟩ := h1
  obtain ⟨b1, b2, b3, b4, b5, b6⟩ := h2
  exact ⟨a1.trans b1, a2.trans b2, a3.trans b3, a4.trans b4, a5.trans b5, a6.trans b6⟩

theorem Slot.SetInterceptionHookPoint_control (slot : Slot) (im : InterceptorBatchMethodsImpl) :
    (slot.SetInterceptionHookPoint im).2.sameControl im := by
  cases slot <;>
    simp only [Slot.SetInterceptionHookPoint, CallNoOp.SetInterceptionHookPoint,
      CallOpSendInitialMetadata.SetInterceptionHookPoint,
      CallOpSendMessage.SetInterceptionHookPoint, CallOpRecvMessage.SetInterceptionHookPoint,
      CallOpGenericRecvMessage.SetInterceptionHookPoint,
      CallOpClientSendClose.SetInterceptionHookPoint,
      CallOpServerSendStatus.SetInterceptionHookPoint,
      CallOpRecvInitialMetadata.SetInterceptionHookPoint,
      CallOpClientRecvStatus.SetInterceptionHookPoint] <;>
    (try split) <;> exact ⟨rfl, rfl, rfl, rfl, rfl, rfl⟩

theorem Slot.SetFinishInterceptionHookPoint_control (slot : Slot)
    (im : InterceptorBatchMethodsImpl) :
    (slot.SetFinishInterceptionHookPoint im).2.sameControl im := by
  cases slot <;>
    simp only [Slot.SetFinishInterceptionHookPoint, CallNoOp.SetFinishInterceptionHookPoint,
      CallOpSendInitialMetadata.SetFinishInterceptionHookPoint,
      CallOpSendMessage.SetFinishInterceptionHookPoint,
      CallOpRecvMessage.SetFinishInterceptionHookPoint,
      CallOpGenericRecvMessage.SetFinishInterceptionHookPoint,
      CallOpClientSendClose.SetFinishInterceptionHookPoint,
      CallOpServerSendStatus.SetFinishInterceptionHookPoint,
      CallOpRecvInitialMetadata.SetFinishInterceptionHookPoint,
      CallOpClientRecvStatus.SetFinishInterceptionHookPoint] <;>
    (try split) <;> exact ⟨rfl, rfl, rfl, rfl, rfl, rfl⟩

theorem Slot.SetHijackingState_control (slot : Slot) (im : InterceptorBatchMethodsImpl) :
    (slot.SetHijackingState im).2.sameControl im := by
  cases slot <;>
    simp only [Slot.SetHijackingState, CallNoOp.SetHijackingState,
      CallOpSendInitialMetadata.SetHijackingState, CallOpSendMessage.SetHijackingState,
      CallOpRecvMessage.SetHijackingState, CallOpGenericRecvMessage.SetHijackingState,
      CallOpClientSendClose.SetHijackingState, CallOpServerSendStatus.SetHijackingState,
      CallOpRecvInitialMetadata.SetHijackingState, CallOpClientRecvStatus.SetHijackingState] <;>
    (try split) <;> exact ⟨rfl, rfl, rfl, rfl, rfl, rfl⟩

theorem CallOpSet.SetInterceptionHookPoints_control (cs : CallOpSet) :
    cs.SetInterceptionHookPoints.interceptor_methods_.sameControl cs.interceptor_methods_ := by
  simp only [CallOpSet.SetInterceptionHookPoints]
  exact sameControl_trans (Slot.SetInterceptionHookPoint_control _ _) <|
    sameControl_trans (Slot.SetInterceptionHookPoint_control _ _) <|
    sameControl_trans (Slot.SetInterceptionHookPoint_control _ _) <|
    sameControl_trans (Slot.SetInterceptionHookPoint_control _ _) <|
    sameControl_trans (Slot.SetInterceptionHookPoint_control _ _)
      (Slot.SetInterceptionHookPoint_control _ _)

theorem CallOpSet.SetFinishInterceptionHookPoints_control (cs : CallOpSet) :
    cs.SetFinishInterceptionHookPoints.interceptor_methods_.sameControl
      cs.interceptor_methods_ := by
  simp only [CallOpSet.SetFinishInterceptionHookPoints]
  exact sameControl_trans (Slot.SetFinishInterceptionHookPoint_control _ _) <|
    sameControl_trans (Slot.SetFinishInterceptionHookPoint_control _ _) <|
    sameControl_trans (Slot.SetFinishInterceptionHookPoint_control _ _) <|
    sameControl_trans (Slot.SetFinishInterceptionHookPoint_control _ _) <|
    sameControl_trans (Slot.SetFinishInterceptionHookPoint_control _ _)
      (Slot.SetFinishInterceptionHookPoint_control _ _)

theorem CallOpSet.hijacking_keeps_control (cs : CallOpSet) :
    cs.SetHijackingState.interceptor_methods_.sameControl cs.interceptor_methods_ := by
  simp only [CallOpSet.SetHijackingState]
  exact sameControl_trans (Slot.SetHijackingState_control _ _) <|
    sameControl_trans (Slot.SetHijackingState_control _ _) <|
    sameControl_trans (Slot.SetHijackingState_control _ _) <|
    sameControl_trans (Slot.SetHijackingState_control _ _) <|
    sameControl_trans (Slot.SetHijackingState_control _ _)
      (Slot.SetHijackingState_control _ _)

@[simp] theorem World.atIndex_log (w : World) (c : Int) (tr : List Event) (e : Event) :
    (w.atIndex c tr).log e = w.atIndex c (tr ++ [e]) := rfl

@[simp] theorem World.atIndex_call (w : World) (c : Int) (tr : List Event) :
    (w.atIndex c tr).cs.call_ = w.cs.call_ := rfl

theorem World.atIndex_self (w : World) :
    w.atIndex w.cs.interceptor_methods_.curr_iteration_ w.trace = w := rfl

theorem interceptsUp_succ (n : Nat) :
    interceptsUp (n + 1) = interceptsUp n ++ [Event.Intercept (n : Int)] := by
  simp [interceptsUp, List.range_succ]

theorem interceptsDown_succ (n : Nat) :
    interceptsDown (n + 1) = Event.Intercept (n : Int) :: interceptsDown n := by
  simp [interceptsDown, List.range_succ]

theorem interceptsDown_eq (n : Nat) :
    interceptsDown (n + 1) =
      (List.range' 1 n).reverse.map (fun (j : Nat) => Event.Intercept (j : Int)) ++
        [Event.Intercept 0] := by
  simp [interceptsDown, List.range_eq_range', List.range'_succ]

theorem World.batches_of_trace (w : World) (tr es : List Event) (h : w.trace = tr ++ es) :
    w.batches = tr.countP Event.isBatch + es.countP Event.isBatch := by
  simp [World.batches, h, List.countP_append]

theorem interceptsUp_batches (n : Nat) : (interceptsUp n).countP Event.isBatch = 0 := by
  simp [interceptsUp, List.countP_eq_zero, Event.isBatch]

theorem interceptsDown_batches (n : Nat) : (interceptsDown n).countP Event.isBatch = 0 := by
  simp [interceptsDown, List.countP_eq_zero, Event.isBatch]

theorem batches_after_fill (w0 w1 : World) (mid : List Event) (c : Nat) (ops : List grpc_op)
    (tag : Nat) (hmid : mid.countP Event.isBatch = 0)
    (h : w1.trace = w0.trace ++ [.grpc_call_ref c] ++ mid ++
      [.ContinueFillOpsAfterInterception, .grpc_call_start_batch ops tag]) :
    w1.batches = w0.batches + 1 := by
  simp [World.batches, h, List.countP_append, hmid, Event.isBatch, List.countP_cons]

theorem batches_after_finalize (w1 w2 : World) (mid : List Event) (tag : Nat)
    (hmid : mid.countP Event.isBatch = 0)
    (h : w2.trace = w1.trace ++ mid ++
      [.ContinueFinalizeResultAfterInterception, .grpc_call_start_batch [] tag]) :
    w2.batches = w1.batches + 1 := by
  simp [World.batches, h, List.countP_append, hmid, Event.isBatch, List.countP_cons]

theorem Slot.FinishOp_false (env : Env) (slot : Slot) :
    (slot.FinishOp env false).2 = false := by
  cases slot with
  | RecvMessage s =>
    simp only [Slot.FinishOp, CallOpRecvMessage.FinishOp]
    split
    · rfl
    · cases s.recv_buf_.buffer_ <;> simp
  | GenericRecvMessage s =>
    simp only [Slot.FinishOp, CallOpGenericRecvMessage.FinishOp]
    cases s.deserialize_ with
    | none => rfl
    | some R =>
      simp only
      split
      · rfl
      · cases s.recv_buf_.buffer_ <;> simp
  | SendInitialMetadata s => simp only [Slot.FinishOp, CallOpSendInitialMetadata.FinishOp]; split <;> rfl
  | ServerSendStatus s => simp only [Slot.FinishOp, CallOpServerSendStatus.FinishOp]; split <;> rfl
  | RecvInitialMetadata s => simp only [Slot.FinishOp, CallOpRecvInitialMetadata.FinishOp]; split <;> rfl
  | ClientRecvStatus s => simp only [Slot.FinishOp, CallOpClientRecvStatus.FinishOp]; split <;> rfl
  | _ => rfl

theorem Slot.FinishOp_frame (env : Env) (slot : Slot) (st : Bool)
    (h : slot.isRecvMessageKind = false) : (slot.FinishOp env st).2 = st := by
  cases slot with
  | RecvMessage s => simp [Slot.isRecvMessageKind] at h
  | GenericRecvMessage s => simp [Slot.isRecvMessageKind] at h
  | SendInitialMetadata s => simp only [Slot.FinishOp, CallOpSendInitialMetadata.FinishOp]; split <;> rfl
  | ServerSendStatus s => simp only [Slot.FinishOp, CallOpServerSendStatus.FinishOp]; split <;> rfl
  | RecvInitialMetadata s => simp only [Slot.FinishOp, CallOpRecvInitialMetadata.FinishOp]; split <;> rfl
  | ClientRecvStatus s => simp only [Slot.FinishOp, CallOpClientRecvStatus.FinishOp]; split <;> rfl
  | _ => rfl

theorem CallOpSet.FinishOps_false (env : Env) (cs : CallOpSet) :
    (CallOpSet.FinishOps env cs false).2 = false := by
  simp only [CallOpSet.FinishOps, Slot.FinishOp_false]

/-- The six `FinishOp` calls never raise the status: the status they leave implies
the incoming one; only the two receive-message kinds can change it; and every
`FinalizeResult` call entered with status `false` leaves `*status` false. -/
theorem FinishOps_status_monotone (env : Env) (cs : CallOpSet) (status : Bool) :
    ((CallOpSet.FinishOps env cs status).2 = true → status = true) ∧
    (∀ (slot : Slot) (st : Bool),
      ((slot.FinishOp env st).2 = true → st = true) ∧
      (slot.isRecvMessageKind = false → (slot.FinishOp env st).2 = st)) ∧
    (∀ (script rest : List InterceptorAction) (w w' : World) (r : FinalizeReturn),
      CallOpSet.FinalizeResult env script false w = .ok r rest w' → r.status = false) := by
  refine ⟨?_, ?_, ?_⟩
  · cases status
    · simp [CallOpSet.FinishOps_false]
    · simp
  · intro slot st
    refine ⟨?_, Slot.FinishOp_frame env slot st⟩
    cases st
    · simp [Slot.FinishOp_false]
    · simp
  · intro script rest w w' r h
    unfold CallOpSet.FinalizeResult at h
    split at h
    · cases h; rfl
    · simp only at h
      split at h
      · cases h
      · cases h; exact CallOpSet.FinishOps_false env _
      · cases h; exact CallOpSet.FinishOps_false env _

theorem ContinueFillOps_accepted (env : Env) (hacc : ∀ ops, env.start_batch_ok ops = true)
    (rest : List InterceptorAction) (w : World) :
    CallOpSet.ContinueFillOpsAfterInterception env rest w =
      .ok () rest
        { cs := (CallOpSet.AddOps w.cs).1
          trace := w.trace ++ [Event.ContinueFillOpsAfterInterception,
            Event.grpc_call_start_batch (CallOpSet.AddOps w.cs).2 w.cs.cq_tag_] } := by
  simp [CallOpSet.ContinueFillOpsAfterInterception, hacc, World.log, CallOpSet.cq_tag,
    CallOpSet.AddOps]

theorem ContinueFinalizeResult_accepted (env : Env)
    (hacc : ∀ ops, env.start_batch_ok ops = true)
    (rest : List InterceptorAction) (w : World) :
    CallOpSet.ContinueFinalizeResultAfterInterception env rest w =
      .ok () rest
        { cs := { w.cs with done_intercepting_ := true }
          trace := w.trace ++ [Event.ContinueFinalizeResultAfterInterception,
            Event.grpc_call_start_batch [] w.cs.cq_tag_] } := by
  simp [CallOpSet.ContinueFinalizeResultAfterInterception, hacc, World.log, CallOpSet.cq_tag]

/-- One forward resumption on a client call that is not hijacked. -/
theorem Proceed_client_forward (env : Env) (rest : List InterceptorAction)
    (run : Int → World → Outcome Unit) (w : World) (rpc : ClientRpcInfo) (c : Int)
    (tr : List Event)
    (hc : w.cs.call_.client_rpc_info = some rpc) (hnh : rpc.hijacked_ = false)
    (hfw : w.cs.interceptor_methods_.reverse_ = false)
    (hcall : w.cs.interceptor_methods_.call_ = true)
    (hops : w.cs.interceptor_methods_.ops_ = true) :
    Proceed env rest run (w.atIndex c tr) =
      if c + 1 < (rpc.interceptors_ : Int) then run (c + 1) (w.atIndex (c + 1) tr)
      else CallOpSet.ContinueFillOpsAfterInterception env rest (w.atIndex (c + 1) tr) := by
  simp [Proceed, ProceedClient, World.atIndex, hc, hnh, hfw, hcall, hops, World.setIM]

/-- One reverse resumption on a client call. -/
theorem Proceed_client_reverse (env : Env) (rest : List InterceptorAction)
    (run : Int → World → Outcome Unit) (w : World) (rpc : ClientRpcInfo) (c : Int)
    (tr : List Event)
    (hc : w.cs.call_.client_rpc_info = some rpc)
    (hrv : w.cs.interceptor_methods_.reverse_ = true)
    (hcall : w.cs.interceptor_methods_.call_ = true)
    (hops : w.cs.interceptor_methods_.ops_ = true) :
    Proceed env rest run (w.atIndex c tr) =
      if c - 1 ≥ 0 then run (c - 1) (w.atIndex (c - 1) tr)
      else CallOpSet.ContinueFinalizeResultAfterInterception env rest (w.atIndex (c - 1) tr) := by
  simp [Proceed, ProceedClient, World.atIndex, hc, hrv, hcall, hops, World.setIM]

theorem forward_walk (env : Env) (w : World) (rpc : ClientRpcInfo)
    (hc : w.cs.call_.client_rpc_info = some rpc) (hnh : rpc.hijacked_ = false)
    (hfw : w.cs.interceptor_methods_.reverse_ = false)
    (hcall : w.cs.interceptor_methods_.call_ = true)
    (hops : w.cs.interceptor_methods_.ops_ = true) :
    ∀ (k i : Nat) (tr : List Event) (s : List InterceptorAction),
      i + k < rpc.interceptors_ →
      RunInterceptor env (List.replicate k .Proceed ++ s) (i : Int) (w.atIndex i tr) =
        RunInterceptor env s ((i + k : Nat) : Int)
          (w.atIndex ((i + k : Nat) : Int)
            (tr ++ (List.range' i k).map (fun (j : Nat) => Event.Intercept (j : Int)))) := by
  intro k
  induction k with
  | zero => intro i tr s _; simp
  | succ k ih =>
    intro i tr s hlt
    have hstep : ((i : Int) + 1 < (rpc.interceptors_ : Int)) := by omega
    rw [List.replicate_succ, List.cons_append, RunInterceptor, World.atIndex_log,
      Proceed_client_forward env _ _ w rpc _ _ hc hnh hfw hcall hops, if_pos hstep]
    have := ih (i + 1) (tr ++ [Event.Intercept i]) s (by omega)
    simp only [Nat.cast_add, Nat.cast_one] at this
    rw [this]
    simp [List.range'_succ, Nat.add_assoc, Nat.add_comm 1 k, add_assoc, add_comm (1:Int)]

theorem reverse_walk (env : Env) (w : World) (rpc : ClientRpcInfo)
    (hc : w.cs.call_.client_rpc_info = some rpc)
    (hrv : w.cs.interceptor_methods_.reverse_ = true)
    (hcall : w.cs.interceptor_methods_.call_ = true)
    (hops : w.cs.interceptor_methods_.ops_ = true) :
    ∀ (k i : Nat) (tr : List Event) (s : List InterceptorAction),
      RunInterceptor env (List.replicate k .Proceed ++ s) ((i + k : Nat) : Int)
          (w.atIndex ((i + k : Nat) : Int) tr) =
        RunInterceptor env s (i : Int)
          (w.atIndex (i : Int)
            (tr ++ (List.range' (i + 1) k).reverse.map (fun (j : Nat) => Event.Intercept (j : Int)))) := by
  intro k
  induction k with
  | zero => intro i tr s; simp
  | succ k ih =>
    intro i tr s
    have hstep : (((i + (k + 1) : Nat) : Int) - 1 ≥ 0) := by omega
    rw [List.replicate_succ, List.cons_append, RunInterceptor, World.atIndex_log,
      Proceed_client_reverse env _ _ w rpc _ _ hc hrv hcall hops, if_pos hstep]
    have e : ((i + (k + 1) : Nat) : Int) - 1 = ((i + k : Nat) : Int) := by omega
    rw [e, ih i _ s]
    simp [List.range'_concat, Nat.add_assoc, Nat.add_comm 1 k]

/-- With a client registry that has interceptors, `RunInterceptors` enters the
chain at the start index of the current direction and yields `false`. -/
theorem RunInterceptors_client (env : Env) (script : List InterceptorAction) (w : World)
    (rpc : ClientRpcInfo)
    (hc : w.cs.call_.client_rpc_info = some rpc) (hN : 1 ≤ rpc.interceptors_)
    (hcall : w.cs.interceptor_methods_.call_ = true) :
    RunInterceptors env script w =
      (RunInterceptor env script
        (if !w.cs.interceptor_methods_.reverse_ then 0
          else if rpc.hijacked_ then rpc.hijacked_interceptor_
          else (rpc.interceptors_ : Int) - 1)
        (w.atIndex
          (if !w.cs.interceptor_methods_.reverse_ then 0
            else if rpc.hijacked_ then rpc.hijacked_interceptor_
            else (rpc.interceptors_ : Int) - 1) w.trace)).withVal false := by
  have hne : ¬ rpc.interceptors_ = 0 := by omega
  unfold RunInterceptors
  simp only [hcall, hc, hne, Bool.not_true, Bool.false_eq_true, ↓reduceIte, beq_iff_eq]
  unfold RunClientInterceptors
  simp only [hc]
  rfl

/-- Without client interceptors the tracker runs nothing. -/
theorem RunInterceptors_none (env : Env) (script : List InterceptorAction) (w : World)
    (hcall : w.cs.interceptor_methods_.call_ = true)
    (hnone : ∀ rpc, w.cs.call_.client_rpc_info = some rpc → rpc.interceptors_ = 0) :
    RunInterceptors env script w = .ok true script w := by
  unfold RunInterceptors
  simp only [hcall, Bool.not_true, Bool.false_eq_true, ↓reduceIte]
  cases hc : w.cs.call_.client_rpc_info with
  | none => rfl
  | some rpc => simp [hnone rpc hc]

/-- The forward pass over a client registry that is not hijacked, every interceptor
resuming: the indices `0 .. N-1` in order, then the hand-off to batch submission. -/
theorem RunInterceptors_forward_all (env : Env) (w : World) (rpc : ClientRpcInfo)
    (extra : List InterceptorAction)
    (hc : w.cs.call_.client_rpc_info = some rpc) (hN : 1 ≤ rpc.interceptors_)
    (hnh : rpc.hijacked_ = false)
    (hfw : w.cs.interceptor_methods_.reverse_ = false)
    (hcall : w.cs.interceptor_methods_.call_ = true)
    (hops : w.cs.interceptor_methods_.ops_ = true) :
    RunInterceptors env (List.replicate rpc.interceptors_ .Proceed ++ extra) w =
      (CallOpSet.ContinueFillOpsAfterInterception env extra
        (w.atIndex (rpc.interceptors_ : Int)
          (w.trace ++ interceptsUp rpc.interceptors_))).withVal false := by
  obtain ⟨n, hn⟩ : ∃ n, rpc.interceptors_ = n + 1 := ⟨rpc.interceptors_ - 1, by omega⟩
  rw [RunInterceptors_client env _ w rpc hc hN hcall]
  simp only [hfw, Bool.not_false, ↓reduceIte]
  have hw := forward_walk env w rpc hc hnh hfw hcall hops n 0 w.trace
    (.Proceed :: extra) (by omega)
  simp only [Nat.cast_zero, Nat.zero_add] at hw
  have hsplit : List.replicate rpc.interceptors_ InterceptorAction.Proceed ++ extra =
      List.replicate n .Proceed ++ (.Proceed :: extra) := by
    rw [hn, List.replicate_succ']; simp
  have hstep : ¬ ((n : Int) + 1 < (rpc.interceptors_ : Int)) := by omega
  rw [hsplit, hw, RunInterceptor, World.atIndex_log,
    Proceed_client_forward env _ _ w rpc _ _ hc hnh hfw hcall hops, if_neg hstep]
  have e1 : (n : Int) + 1 = (rpc.interceptors_ : Int) := by omega
  rw [e1, hn, interceptsUp_succ]
  simp [interceptsUp, List.range_eq_range']

/-- The reverse pass over a client registry, every interceptor resuming: from the
start index down to `0`, then the hand-off to finalization. -/
theorem RunInterceptors_reverse_all (env : Env) (w : World) (rpc : ClientRpcInfo)
    (start : Nat) (extra : List InterceptorAction)
    (hc : w.cs.call_.client_rpc_info = some rpc) (hN : 1 ≤ rpc.interceptors_)
    (hstart : (if rpc.hijacked_ then rpc.hijacked_interceptor_
      else (rpc.interceptors_ : Int) - 1) = (start : Int))
    (hrv : w.cs.interceptor_methods_.reverse_ = true)
    (hcall : w.cs.interceptor_methods_.call_ = true)
    (hops : w.cs.interceptor_methods_.ops_ = true) :
    RunInterceptors env (List.replicate (start + 1) .Proceed ++ extra) w =
      (CallOpSet.ContinueFinalizeResultAfterInterception env extra
        (w.atIndex (-1) (w.trace ++ interceptsDown (start + 1)))).withVal false := by
  rw [RunInterceptors_client env _ w rpc hc hN hcall]
  simp only [hrv, Bool.not_true, Bool.false_eq_true, ↓reduceIte]
  rw [hstart]
  have hw := reverse_walk env w rpc hc hrv hcall hops start 0 w.trace (.Proceed :: extra)
  simp only [Nat.zero_add, Nat.cast_zero] at hw
  have hsplit : List.replicate (start + 1) InterceptorAction.Proceed ++ extra =
      List.replicate start .Proceed ++ (.Proceed :: extra) := by
    rw [List.replicate_succ']; simp
  rw [hsplit, hw, RunInterceptor, World.atIndex_log,
    Proceed_client_reverse env _ _ w rpc _ _ hc hrv hcall hops]
  simp [interceptsDown_eq]

theorem Slot.SetHijackingState_isHijacked (slot : Slot) (im : InterceptorBatchMethodsImpl) :
    (slot.SetHijackingState im).1.isHijacked := by
  cases slot <;>
    simp only [Slot.SetHijackingState, CallNoOp.SetHijackingState,
      CallOpSendInitialMetadata.SetHijackingState, CallOpSendMessage.SetHijackingState,
      CallOpRecvMessage.SetHijackingState, CallOpGenericRecvMessage.SetHijackingState,
      CallOpClientSendClose.SetHijackingState, CallOpServerSendStatus.SetHijackingState,
      CallOpRecvInitialMetadata.SetHijackingState, CallOpClientRecvStatus.SetHijackingState,
      Slot.isHijacked] <;>
    (try split) <;> simp [Slot.hijacked_]

theorem Slot.SetHijackingState_tracker (slot : Slot) (im : InterceptorBatchMethodsImpl) :
    (slot.SetHijackingState im).2 =
      match slot.hijackHook with
      | none => im
      | some hp => im.AddInterceptionHookPoint hp := by
  cases slot <;>
    simp only [Slot.SetHijackingState, CallNoOp.SetHijackingState,
      CallOpSendInitialMetadata.SetHijackingState, CallOpSendMessage.SetHijackingState,
      CallOpRecvMessage.SetHijackingState, CallOpGenericRecvMessage.SetHijackingState,
      CallOpClientSendClose.SetHijackingState, CallOpServerSendStatus.SetHijackingState,
      CallOpRecvInitialMetadata.SetHijackingState, CallOpClientRecvStatus.SetHijackingState,
      Slot.hijackHook] <;>
    (try split) <;> simp_all

theorem Slot.hijackHook_pre_recv (slot : Slot) (hp : InterceptionHookPoints)
    (h : slot.hijackHook = some hp) :
    hp = .PRE_RECV_INITIAL_METADATA ∨ hp = .PRE_RECV_MESSAGE ∨ hp = .PRE_RECV_STATUS := by
  cases slot <;> simp only [Slot.hijackHook] at h <;> (try split at h) <;> simp_all

theorem Query_AddInterceptionHookPoint (im : InterceptorBatchMethodsImpl)
    (h hp : InterceptionHookPoints) (hlen : im.hooks_.length = NUM_INTERCEPTION_HOOKS) :
    (im.AddInterceptionHookPoint h).QueryInterceptionHookPoint hp = true ↔
      (im.QueryInterceptionHookPoint hp = true ∨ h = hp) := by
  simp only [NUM_INTERCEPTION_HOOKS] at hlen
  cases h <;> cases hp <;>
    simp [QueryInterceptionHookPoint, AddInterceptionHookPoint, InterceptionHookPoints.toNat,
      List.getD_eq_getElem?_getD, List.getElem?_set, hlen]

theorem Slot.SetHijackingState_hooks (slot : Slot) (im : InterceptorBatchMethodsImpl)
    (hlen : im.hooks_.length = NUM_INTERCEPTION_HOOKS) :
    (slot.SetHijackingState im).2.hooks_.length = NUM_INTERCEPTION_HOOKS ∧
    ∀ hp, (slot.SetHijackingState im).2.QueryInterceptionHookPoint hp = true ↔
      (im.QueryInterceptionHookPoint hp = true ∨ slot.hijackHook = some hp) := by
  rw [Slot.SetHijackingState_tracker]
  cases hh : slot.hijackHook with
  | none => simp [hlen]
  | some h =>
    refine ⟨by simpa [AddInterceptionHookPoint] using hlen, fun hp => ?_⟩
    simp [Query_AddInterceptionHookPoint im h hp hlen]

theorem Query_ClearHookPoints (im : InterceptorBatchMethodsImpl) (hp : InterceptionHookPoints) :
    im.ClearHookPoints.QueryInterceptionHookPoint hp = false := by
  cases hp <;> rfl

theorem CallOpSet.hijacking_marks_slots (cs : CallOpSet) :
    cs.SetHijackingState.op1.isHijacked ∧ cs.SetHijackingState.op2.isHijacked ∧
    cs.SetHijackingState.op3.isHijacked ∧ cs.SetHijackingState.op4.isHijacked ∧
    cs.SetHijackingState.op5.isHijacked ∧ cs.SetHijackingState.op6.isHijacked :=
  ⟨Slot.SetHijackingState_isHijacked _ _, Slot.SetHijackingState_isHijacked _ _,
    Slot.SetHijackingState_isHijacked _ _, Slot.SetHijackingState_isHijacked _ _,
    Slot.SetHijackingState_isHijacked _ _, Slot.SetHijackingState_isHijacked _ _⟩

theorem CallOpSet.hijacking_hooks_armed (cs : CallOpSet)
    (hlen : cs.interceptor_methods_.hooks_.length = NUM_INTERCEPTION_HOOKS)
    (hclear : ∀ hp, cs.interceptor_methods_.QueryInterceptionHookPoint hp = false) :
    ∀ hp, cs.SetHijackingState.interceptor_methods_.QueryInterceptionHookPoint hp = true ↔
      (cs.op1.hijackHook = some hp ∨ cs.op2.hijackHook = some hp ∨
        cs.op3.hijackHook = some hp ∨ cs.op4.hijackHook = some hp ∨
        cs.op5.hijackHook = some hp ∨ cs.op6.hijackHook = some hp) := by
  intro hp
  have h1 := Slot.SetHijackingState_hooks cs.op1 cs.interceptor_methods_ hlen
  have h2 := Slot.SetHijackingState_hooks cs.op2 _ h1.1
  have h3 := Slot.SetHijackingState_hooks cs.op3 _ h2.1
  have h4 := Slot.SetHijackingState_hooks cs.op4 _ h3.1
  have h5 := Slot.SetHijackingState_hooks cs.op5 _ h4.1
  have h6 := Slot.SetHijackingState_hooks cs.op6 _ h5.1
  show (cs.op6.SetHijackingState _).2.QueryInterceptionHookPoint hp = true ↔ _
  rw [h6.2 hp, h5.2 hp, h4.2 hp, h3.2 hp, h2.2 hp, h1.2 hp, hclear hp]
  simp only [Bool.false_eq_true, false_or, or_assoc]

/-- What an accepted `Hijack` does, for every continuation: the state in which the
current interceptor is invoked again. -/
theorem Hijack_accepted (w : World) (rpc : ClientRpcInfo)
    (hfw : w.cs.interceptor_methods_.reverse_ = false)
    (hops : w.cs.interceptor_methods_.ops_ = true)
    (hcall : w.cs.interceptor_methods_.call_ = true)
    (hc : w.cs.call_.client_rpc_info = some rpc) :
    ∃ w' : World,
      (∀ run, Hijack run w = run w.cs.interceptor_methods_.curr_iteration_ w') ∧
      w'.cs.call_ = { w.cs.call_ with client_rpc_info := some { rpc with
        hijacked_ := true
        hijacked_interceptor_ := w.cs.interceptor_methods_.curr_iteration_ } } ∧
      w'.cs.interceptor_methods_.sameControl
        { w.cs.interceptor_methods_ with ran_hijacking_interceptor_ := true } ∧
      w'.trace = w.trace ∧ w'.cs.done_intercepting_ = w.cs.done_intercepting_ ∧
      w'.cs.cq_tag_ = w.cs.cq_tag_ ∧ w'.cs.return_tag_ = w.cs.return_tag_ ∧
      (w'.cs.op1.isHijacked ∧ w'.cs.op2.isHijacked ∧ w'.cs.op3.isHijacked ∧
        w'.cs.op4.isHijacked ∧ w'.cs.op5.isHijacked ∧ w'.cs.op6.isHijacked) ∧
      (∀ hp, w'.cs.interceptor_methods_.QueryInterceptionHookPoint hp = true ↔
        (w.cs.op1.hijackHook = some hp ∨ w.cs.op2.hijackHook = some hp ∨
          w.cs.op3.hijackHook = some hp ∨ w.cs.op4.hijackHook = some hp ∨
          w.cs.op5.hijackHook = some hp ∨ w.cs.op6.hijackHook = some hp)) := by
  let w1 := w.setClientRpcInfo { rpc with
    hijacked_ := true, hijacked_interceptor_ := w.cs.interceptor_methods_.curr_iteration_ }
  let w2 := w1.setIM w1.cs.interceptor_methods_.ClearHookPoints
  let w3 : World := { w2 with cs := w2.cs.SetHijackingState }
  let w4 := w3.setIM { w3.cs.interceptor_methods_ with ran_hijacking_interceptor_ := true }
  have hctl : w3.cs.interceptor_methods_.sameControl w.cs.interceptor_methods_ :=
    CallOpSet.hijacking_keeps_control w2.cs
  refine ⟨w4, ?_, rfl, ?_, rfl, rfl, rfl, rfl, CallOpSet.hijacking_marks_slots w2.cs, ?_⟩
  · intro run
    unfold Hijack
    simp only [hfw, hops, hcall, hc, Bool.false_eq_true, ↓reduceIte, Bool.not_true]
    have : w4.cs.interceptor_methods_.curr_iteration_ =
        w.cs.interceptor_methods_.curr_iteration_ := hctl.1
    exact congrArg (fun c => run c w4) this
  · obtain ⟨c1, c2, c3, c4, c5, c6⟩ := hctl
    exact ⟨c1, c2, rfl, c4, c5, c6⟩
  · exact CallOpSet.hijacking_hooks_armed w2.cs rfl (fun hp => Query_ClearHookPoints _ hp)

/-- After a hijack has been applied (the re-entry guard is set) the resumption of
the interceptor at the hijack index leaves the chain. -/
theorem Proceed_client_after_hijack (env : Env) (rest : List InterceptorAction)
    (run : Int → World → Outcome Unit) (w : World) (rpc : ClientRpcInfo) (tr : List Event)
    (hc : w.cs.call_.client_rpc_info = some rpc) (hh : rpc.hijacked_ = true)
    (hfw : w.cs.interceptor_methods_.reverse_ = false)
    (hran : w.cs.interceptor_methods_.ran_hijacking_interceptor_ = true)
    (hcall : w.cs.interceptor_methods_.call_ = true)
    (hops : w.cs.interceptor_methods_.ops_ = true) :
    Proceed env rest run (w.atIndex rpc.hijacked_interceptor_ tr) =
      CallOpSet.ContinueFillOpsAfterInterception env rest
        (w.atIndex (rpc.hijacked_interceptor_ + 1) tr) := by
  simp [Proceed, ProceedClient, World.atIndex, hc, hh, hfw, hran, hcall, hops, World.setIM]

/-- The forward pass in which the interceptor at index `h` hijacks and, invoked
again, proceeds: the indices `0 .. h`, index `h` once more, then the hand-off to
batch submission with the registry recording the hijack. -/
theorem RunInterceptors_forward_hijack (env : Env) (w : World) (rpc : ClientRpcInfo)
    (h : Nat) (extra : List InterceptorAction)
    (hc : w.cs.call_.client_rpc_info = some rpc) (hh : h < rpc.interceptors_)
    (hnh : rpc.hijacked_ = false)
    (hfw : w.cs.interceptor_methods_.reverse_ = false)
    (hcall : w.cs.interceptor_methods_.call_ = true)
    (hops : w.cs.interceptor_methods_.ops_ = true) :
    ∃ W : World,
      RunInterceptors env (List.replicate h .Proceed ++ .Hijack :: .Proceed :: extra) w =
        (CallOpSet.ContinueFillOpsAfterInterception env extra W).withVal false ∧
      W.cs.call_ = { w.cs.call_ with client_rpc_info := (some
        { interceptors_ := rpc.interceptors_, hijacked_ := true,
          hijacked_interceptor_ := (h : Int) }) } ∧
      W.trace = w.trace ++ interceptsUp h ++ [.Intercept h, .Intercept h] ∧
      W.cs.interceptor_methods_.call_ = true ∧ W.cs.interceptor_methods_.ops_ = true ∧
      W.cs.done_intercepting_ = w.cs.done_intercepting_ ∧
      W.cs.cq_tag_ = w.cs.cq_tag_ ∧ W.cs.return_tag_ = w.cs.return_tag_ := by
  have hN : 1 ≤ rpc.interceptors_ := by omega
  have hw := forward_walk env w rpc hc hnh hfw hcall hops h 0 w.trace
    (.Hijack :: .Proceed :: extra) (by omega)
  simp only [Nat.cast_zero, Nat.zero_add] at hw
  have hups : (List.range' 0 h).map (fun (j : Nat) => Event.Intercept (j : Int)) =
      interceptsUp h := by
    simp [interceptsUp, List.range_eq_range']
  rw [hups] at hw
  obtain ⟨w', hrun, hcall', hctl, htr, hdone, hcq, hret, -, -⟩ :=
    Hijack_accepted (w.atIndex (h : Int) (w.trace ++ interceptsUp h ++ [.Intercept h])) rpc
      hfw hops hcall hc
  obtain ⟨c1, c2, c3, c4, c5, -⟩ := hctl
  have hcur : w'.cs.interceptor_methods_.curr_iteration_ = (h : Int) := c1
  let rpc' : ClientRpcInfo :=
    { interceptors_ := rpc.interceptors_, hijacked_ := true, hijacked_interceptor_ := (h : Int) }
  have hc' : w'.cs.call_.client_rpc_info = some rpc' := by rw [hcall']; rfl
  have hlog : w'.log (.Intercept h) =
      w'.atIndex rpc'.hijacked_interceptor_ (w'.trace ++ [.Intercept h]) := by
    show _ = w'.atIndex (h : Int) _
    rw [← hcur]; rfl
  refine ⟨w'.atIndex ((h : Int) + 1) (w'.trace ++ [.Intercept h]), ?_, ?_, ?_, ?_, ?_, ?_, ?_, ?_⟩
  · rw [RunInterceptors_client env _ w rpc hc hN hcall]
    simp only [hfw, Bool.not_false, ↓reduceIte]
    rw [hw, RunInterceptor, World.atIndex_log, hrun (RunInterceptor env (.Proceed :: extra))]
    show (RunInterceptor env (.Proceed :: extra) (h : Int) w').withVal false = _
    rw [RunInterceptor, hlog,
      Proceed_client_after_hijack env _ _ w' rpc' _ hc' rfl (c2.trans hfw) c3 (c4.trans hcall)
        (c5.trans hops)]
  · exact hcall'
  · show w'.trace ++ [.Intercept h] = _
    rw [htr]; simp [World.atIndex]
  · exact c4.trans hcall
  · exact c5.trans hops
  · exact hdone
  · exact hcq
  · exact hret

/-- The entry of `FillOps` up to the point where the tracker decides whether
interceptors run. -/
theorem FillOps_prelude (env : Env) (script : List InterceptorAction) (call : Call)
    (w0 : World) :
    ∃ W : World,
      CallOpSet.FillOps env script call w0 =
        (match RunInterceptors env script W with
          | .fatal w => .fatal w
          | .ok true rest w => CallOpSet.ContinueFillOpsAfterInterception env rest w
          | .ok false rest w => .ok () rest w) ∧
      W.cs.call_ = call ∧ W.trace = w0.trace ++ [.grpc_call_ref call.call] ∧
      W.cs.interceptor_methods_.call_ = true ∧ W.cs.interceptor_methods_.ops_ = true ∧
      W.cs.interceptor_methods_.reverse_ = w0.cs.interceptor_methods_.reverse_ ∧
      W.cs.done_intercepting_ = false ∧
      W.cs.cq_tag_ = w0.cs.cq_tag_ ∧ W.cs.return_tag_ = w0.cs.return_tag_ := by
  let wa : World := { w0 with cs := { w0.cs with done_intercepting_ := false } }
  let wb : World := wa.log (.grpc_call_ref call.call)
  let wc : World := { wb with cs := { wb.cs with call_ := call } }
  have hctl := CallOpSet.SetInterceptionHookPoints_control wc.cs
  obtain ⟨-, c2, -, -, -, -⟩ := hctl
  exact ⟨_, rfl, rfl, rfl, rfl, rfl, c2, rfl, rfl, rfl⟩

/-- The part of `FinalizeResult` taken when interception is not yet done, up to
the point where the tracker decides whether interceptors run. -/
theorem FinalizeResult_prelude (env : Env) (script : List InterceptorAction) (status : Bool)
    (w : World) (hdone : w.cs.done_intercepting_ = false) :
    ∃ W : World,
      CallOpSet.FinalizeResult env script status w =
        (match RunInterceptors env script W with
          | .fatal w' => .fatal w'
          | .ok true rest w' =>
            .ok { ret := true, tag := some w'.cs.return_tag_,
                  status := (CallOpSet.FinishOps env w.cs status).2 } rest
              (w'.log (.grpc_call_unref w'.cs.call_.call))
          | .ok false rest w' =>
            .ok { ret := false, tag := none,
                  status := (CallOpSet.FinishOps env w.cs status).2 } rest w') ∧
      W.cs.call_ = w.cs.call_ ∧ W.trace = w.trace ∧
      W.cs.interceptor_methods_.call_ = w.cs.interceptor_methods_.call_ ∧
      W.cs.interceptor_methods_.ops_ = w.cs.interceptor_methods_.ops_ ∧
      W.cs.interceptor_methods_.reverse_ = true ∧
      W.cs.done_intercepting_ = false ∧
      W.cs.cq_tag_ = w.cs.cq_tag_ ∧ W.cs.return_tag_ = w.cs.return_tag_ := by
  let wa : World := { w with cs := (CallOpSet.FinishOps env w.cs status).1 }
  let wb : World := wa.setIM wa.cs.interceptor_methods_.SetReverse
  obtain ⟨-, c2, -, c4, c5, -⟩ := CallOpSet.SetFinishInterceptionHookPoints_control wb.cs
  refine ⟨{ wb with cs := wb.cs.SetFinishInterceptionHookPoints }, ?_, rfl, rfl, c4, c5, c2,
    hdone, rfl, rfl⟩
  unfold CallOpSet.FinalizeResult
  simp only [hdone, Bool.false_eq_true, ↓reduceIte]
  rfl

/-- A completion that arrives after interception is done: the tag is handed back,
the reference dropped, nothing else touched. -/
theorem FinalizeResult_done (env : Env) (script : List InterceptorAction) (status : Bool)
    (w : World) (hdone : w.cs.done_intercepting_ = true) :
    CallOpSet.FinalizeResult env script status w =
      .ok { ret := true, tag := some w.cs.return_tag_, status := status } script
        (w.log (.grpc_call_unref w.cs.call_.call)) := by
  unfold CallOpSet.FinalizeResult
  simp only [hdone, ↓reduceIte]

/-- `FillOps` on a call without client interceptors: one batch, at once. -/
theorem FillOps_no_interceptors (env : Env) (hacc : ∀ ops, env.start_batch_ok ops = true)
    (script : List InterceptorAction) (call : Call) (w0 : World)
    (hnone : ∀ rpc, call.client_rpc_info = some rpc → rpc.interceptors_ = 0) :
    ∃ (w1 : World) (ops : List grpc_op),
      CallOpSet.FillOps env script call w0 = .ok () script w1 ∧
      w1.trace = w0.trace ++ [.grpc_call_ref call.call, .ContinueFillOpsAfterInterception,
        .grpc_call_start_batch ops w0.cs.cq_tag_] ∧
      w1.cs.call_ = call ∧ w1.cs.done_intercepting_ = false ∧
      w1.cs.interceptor_methods_.call_ = true ∧ w1.cs.interceptor_methods_.ops_ = true ∧
      w1.cs.cq_tag_ = w0.cs.cq_tag_ ∧ w1.cs.return_tag_ = w0.cs.return_tag_ := by
  obtain ⟨W, hF, hcallW, htr, hc1, hc2, -, hdone, hcq, hret⟩ :=
    FillOps_prelude env script call w0
  rw [RunInterceptors_none env script W hc1 (by rw [hcallW]; exact hnone)] at hF
  simp only [ContinueFillOps_accepted env hacc] at hF
  refine ⟨_, (CallOpSet.AddOps W.cs).2, hF, ?_, hcallW, hdone, hc1, hc2, hcq, hret⟩
  simp [htr, hcq]

/-- `FillOps` on a client call whose `N ≥ 1` interceptors all proceed. -/
theorem FillOps_all_proceed (env : Env) (hacc : ∀ ops, env.start_batch_ok ops = true)
    (extra : List InterceptorAction) (call : Call) (w0 : World) (rpc : ClientRpcInfo)
    (hc : call.client_rpc_info = some rpc) (hN : 1 ≤ rpc.interceptors_)
    (hnh : rpc.hijacked_ = false)
    (hfresh : w0.cs.interceptor_methods_.reverse_ = false) :
    ∃ (w1 : World) (ops : List grpc_op),
      CallOpSet.FillOps env (List.replicate rpc.interceptors_ .Proceed ++ extra) call w0 =
        .ok () extra w1 ∧
      w1.trace = w0.trace ++ [.grpc_call_ref call.call] ++ interceptsUp rpc.interceptors_ ++
        [.ContinueFillOpsAfterInterception, .grpc_call_start_batch ops w0.cs.cq_tag_] ∧
      w1.cs.call_ = call ∧ w1.cs.done_intercepting_ = false ∧
      w1.cs.interceptor_methods_.call_ = true ∧ w1.cs.interceptor_methods_.ops_ = true ∧
      w1.cs.cq_tag_ = w0.cs.cq_tag_ ∧ w1.cs.return_tag_ = w0.cs.return_tag_ := by
  obtain ⟨W, hF, hcallW, htr, hc1, hc2, hrev, hdone, hcq, hret⟩ :=
    FillOps_prelude env (List.replicate rpc.interceptors_ .Proceed ++ extra) call w0
  rw [RunInterceptors_forward_all env W rpc extra (by rw [hcallW]; exact hc) hN hnh
    (hrev.trans hfresh) hc1 hc2, ContinueFillOps_accepted env hacc] at hF
  simp only [Outcome.withVal] at hF
  refine ⟨_, (CallOpSet.AddOps (W.atIndex (rpc.interceptors_ : Int)
    (W.trace ++ interceptsUp rpc.interceptors_)).cs).2, hF, ?_, hcallW, hdone, hc1, hc2, hcq,
    hret⟩
  simp [htr, World.atIndex, hcq]

/-- `FillOps` on a client call whose interceptor at index `h` hijacks and then
proceeds. -/
theorem FillOps_hijack (env : Env) (hacc : ∀ ops, env.start_batch_ok ops = true)
    (extra : List InterceptorAction) (call : Call) (w0 : World) (rpc : ClientRpcInfo)
    (h : Nat)
    (hc : call.client_rpc_info = some rpc) (hh : h < rpc.interceptors_)
    (hnh : rpc.hijacked_ = false)
    (hfresh : w0.cs.interceptor_methods_.reverse_ = false) :
    ∃ (w1 : World) (ops : List grpc_op),
      CallOpSet.FillOps env (List.replicate h .Proceed ++ .Hijack :: .Proceed :: extra)
        call w0 = .ok () extra w1 ∧
      w1.trace = w0.trace ++ [.grpc_call_ref call.call] ++ interceptsUp h ++
        [.Intercept h, .Intercept h,
          .ContinueFillOpsAfterInterception, .grpc_call_start_batch ops w0.cs.cq_tag_] ∧
      w1.cs.call_ = { call with client_rpc_info := (some
        { interceptors_ := rpc.interceptors_, hijacked_ := true,
          hijacked_interceptor_ := (h : Int) }) } ∧
      w1.cs.done_intercepting_ = false ∧
      w1.cs.interceptor_methods_.call_ = true ∧ w1.cs.interceptor_methods_.ops_ = true ∧
      w1.cs.cq_tag_ = w0.cs.cq_tag_ ∧ w1.cs.return_tag_ = w0.cs.return_tag_ := by
  obtain ⟨W, hF, hcallW, htr, hc1, hc2, hrev, hdone, hcq, hret⟩ :=
    FillOps_prelude env (List.replicate h .Proceed ++ .Hijack :: .Proceed :: extra) call w0
  obtain ⟨V, hV, hVcall, hVtr, hV1, hV2, hVdone, hVcq, hVret⟩ :=
    RunInterceptors_forward_hijack env W rpc h extra (by rw [hcallW]; exact hc) hh hnh
      (hrev.trans hfresh) hc1 hc2
  rw [hV, ContinueFillOps_accepted env hacc] at hF
  simp only [Outcome.withVal] at hF
  refine ⟨_, (CallOpSet.AddOps V.cs).2, hF, ?_, ?_, hVdone.trans hdone, hV1, hV2,
    hVcq.trans hcq, hVret.trans hret⟩
  · simp [hVtr, htr, hVcq, hcq]
  · show V.cs.call_ = _
    rw [hVcall, hcallW]

/-- A completion on a call without client interceptors: the slots are finished
and the tag is handed back at once. -/
theorem FinalizeResult_no_interceptors (env : Env) (script : List InterceptorAction)
    (status : Bool) (w : World)
    (hdone : w.cs.done_intercepting_ = false)
    (hcall : w.cs.interceptor_methods_.call_ = true)
    (hnone : ∀ rpc, w.cs.call_.client_rpc_info = some rpc → rpc.interceptors_ = 0) :
    ∃ w2 : World,
      CallOpSet.FinalizeResult env script status w =
        .ok { ret := true, tag := some w.cs.return_tag_,
              status := (CallOpSet.FinishOps env w.cs status).2 } script w2 ∧
      w2.trace = w.trace ++ [.grpc_call_unref w.cs.call_.call] := by
  obtain ⟨W, hF, hcallW, htr, hc1, -, -, -, -, hret⟩ :=
    FinalizeResult_prelude env script status w hdone
  rw [RunInterceptors_none env script W (hc1.trans hcall) (by rw [hcallW]; exact hnone)] at hF
  simp only [hret, hcallW] at hF
  exact ⟨_, hF, by simp [World.log, htr]⟩

/-- A completion on a client call with interceptors, all of which proceed in the
reverse pass: the first `FinalizeResult` hands nothing back, marks interception
done and submits one empty batch. -/
theorem FinalizeResult_intercepted (env : Env) (hacc : ∀ ops, env.start_batch_ok ops = true)
    (extra : List InterceptorAction) (status : Bool) (w : World) (rpc : ClientRpcInfo)
    (start : Nat)
    (hdone : w.cs.done_intercepting_ = false)
    (hc : w.cs.call_.client_rpc_info = some rpc) (hN : 1 ≤ rpc.interceptors_)
    (hstart : (if rpc.hijacked_ then rpc.hijacked_interceptor_
      else (rpc.interceptors_ : Int) - 1) = (start : Int))
    (hcall : w.cs.interceptor_methods_.call_ = true)
    (hops : w.cs.interceptor_methods_.ops_ = true) :
    ∃ w2 : World,
      CallOpSet.FinalizeResult env (List.replicate (start + 1) .Proceed ++ extra) status w =
        .ok { ret := false, tag := none,
              status := (CallOpSet.FinishOps env w.cs status).2 } extra w2 ∧
      w2.trace = w.trace ++ interceptsDown (start + 1) ++
        [.ContinueFinalizeResultAfterInterception, .grpc_call_start_batch [] w.cs.cq_tag_] ∧
      w2.cs.done_intercepting_ = true ∧ w2.cs.call_ = w.cs.call_ ∧
      w2.cs.return_tag_ = w.cs.return_tag_ := by
  obtain ⟨W, hF, hcallW, htr, hc1, hc2, hrev, -, hcq, hret⟩ :=
    FinalizeResult_prelude env (List.replicate (start + 1) .Proceed ++ extra) status w hdone
  rw [RunInterceptors_reverse_all env W rpc start extra (by rw [hcallW]; exact hc) hN hstart
    hrev (hc1.trans hcall) (hc2.trans hops), ContinueFinalizeResult_accepted env hacc] at hF
  simp only [Outcome.withVal] at hF
  refine ⟨_, hF, ?_, rfl, hcallW, hret⟩
  simp [World.atIndex, htr, hcq]

/-! ### The standard multimap keeps key order -/

theorem multimap_insert_sorted (kv : String × String) (m : Metadata)
    (h : m.Pairwise (fun a b => a.1 ≤ b.1)) :
    (multimap_insert kv m).Pairwise (fun a b => a.1 ≤ b.1) := by
  induction m with
  | nil => simp [multimap_insert]
  | cons e m ih =>
    rw [List.pairwise_cons] at h
    unfold multimap_insert
    split
    · rename_i hle
      rw [List.pairwise_cons]
      refine ⟨?_, ih h.2⟩
      intro b hb
      have : b = kv ∨ b ∈ m := by
        clear ih h
        induction m with
        | nil => simp [multimap_insert] at hb; exact Or.inl hb
        | cons x m ihm =>
          unfold multimap_insert at hb
          split at hb
          · rcases List.mem_cons.1 hb with h1 | h1
            · exact Or.inr (h1 ▸ List.mem_cons_self _ _)
            · rcases ihm h1 with h2 | h2
              · exact Or.inl h2
              · exact Or.inr (List.mem_cons_of_mem _ h2)
          · rcases List.mem_cons.1 hb with h1 | h1
            · exact Or.inl h1
            · exact Or.inr h1
      rcases this with h1 | h1
      · rw [h1]; exact hle
      · exact h.1 b h1
    · rename_i hnle
      have hlt : kv.1 ≤ e.1 := le_of_lt (not_le.1 hnle)
      rw [List.pairwise_cons]
      refine ⟨?_, List.pairwise_cons.2 h⟩
      intro b hb
      rcases List.mem_cons.1 hb with h1 | h1
      · rw [h1]; exact hlt
      · exact le_trans hlt (h.1 b h1)

theorem multimap_of_sorted (ins : List (String × String)) :
    (multimap_of ins).Pairwise (fun a b => a.1 ≤ b.1) := by
  unfold multimap_of
  induction ins using List.reverseRecOn with
  | nil => simp
  | append_singleton l a ih =>
    rw [List.foldl_append]
    exact multimap_insert_sorted a _ ih

theorem multimap_insert_filter (kv : String × String) (k : String) (m : Metadata)
    (h : m.Pairwise (fun a b => a.1 ≤ b.1)) :
    (multimap_insert kv m).filter (fun e => decide (e.1 = k)) =
      m.filter (fun e => decide (e.1 = k)) ++ [kv].filter (fun e => decide (e.1 = k)) := by
  induction m with
  | nil => simp [multimap_insert]
  | cons e m ih =>
    rw [List.pairwise_cons] at h
    unfold multimap_insert
    split
    · simp only [List.filter_cons, ih h.2]
      split <;> simp
    · rename_i hnle
      by_cases hk : kv.1 = k
      · have hnone : ∀ b ∈ e :: m, ¬ b.1 = k := by
          intro b hb hbk
          rcases List.mem_cons.1 hb with h1 | h1
          · exact hnle (by rw [← h1, hbk, hk])
          · exact hnle (by rw [hk, ← hbk]; exact h.1 b h1)
        have hf : (e :: m).filter (fun e => decide (e.1 = k)) = [] := by
          rw [List.filter_eq_nil_iff]
          intro b hb
          simpa using hnone b hb
        rw [List.filter_cons, hf]
        simp [hk]
      · simp [List.filter_cons, hk]

theorem multimap_of_filter (ins : List (String × String)) (k : String) :
    (multimap_of ins).filter (fun e => decide (e.1 = k)) =
      ins.filter (fun e => decide (e.1 = k)) := by
  induction ins using List.reverseRecOn with
  | nil => rfl
  | append_singleton l a ih =>
    have hs := multimap_of_sorted l
    unfold multimap_of at ih hs ⊢
    rw [List.foldl_append, List.filter_append]
    simp only [List.foldl_cons, List.foldl_nil]
    rw [multimap_insert_filter a k _ hs, ih]

theorem multimap_insert_last (kv : String × String) (m : Metadata)
    (h : ∀ e ∈ m, e.1 ≤ kv.1) : multimap_insert kv m = m ++ [kv] := by
  induction m with
  | nil => rfl
  | cons e m ih =>
    unfold multimap_insert
    rw [if_pos (h e (List.mem_cons_self _ _)),
      ih (fun x hx => h x (List.mem_cons_of_mem _ hx))]
    rfl

theorem multimap_of_ascending (ins : List (String × String))
    (h : ins.Pairwise (fun a b => a.1 ≤ b.1)) : multimap_of ins = ins := by
  induction ins using List.reverseRecOn with
  | nil => rfl
  | append_singleton l a ih =>
    rw [List.pairwise_append] at h
    have hl := ih h.1
    unfold multimap_of at hl ⊢
    rw [List.foldl_append]
    simp only [List.foldl_cons, List.foldl_nil]
    rw [hl]
    exact multimap_insert_last a l (fun e he => h.2.2 e he a (List.mem_singleton_self a))

theorem entries_FillMetadataArray (m : Metadata) :
    entries (FillMetadataArray m "").1 = m := by
  cases m with
  | nil => rfl
  | cons e m =>
    simp [entries, FillMetadataArray, List.map_map, Function.comp_def]

/-! ### The binary error details come back -/

theorem GetBinaryErrorDetails_appended (md : Metadata) (d : String)
    (hmd : ∀ kv ∈ md, kv.1 ≠ kBinaryErrorDetailsKey) :
    GetBinaryErrorDetails (entries (FillMetadataArray md d).1) = d := by
  have hfind : md.find? (fun kv => decide (kv.1 = kBinaryErrorDetailsKey)) = none := by
    rw [List.find?_eq_none]
    intro kv hkv
    simpa using hmd kv hkv
  have hent : entries (FillMetadataArray md d).1 =
      md ++ (if d = "" then [] else [(kBinaryErrorDetailsKey, d)]) := by
    by_cases hd : d = "" <;> by_cases hm : md = [] <;>
      simp [entries, FillMetadataArray, hd, hm, List.map_map, Function.comp_def]
  rw [hent]
  unfold GetBinaryErrorDetails
  rw [List.find?_append, hfind]
  by_cases hd : d = ""
  · simp [hd]
  · simp [hd]

/-! ### The transport-level tag steers nothing -/

theorem Event.untag_idem (e : Event) : e.untag.untag = e.untag := by
  cases e <;> rfl

theorem World.untag_stable (w : World) : w.untag.untag = w.untag := by
  simp [World.untag, List.map_map, Function.comp_def, Event.untag_idem]

theorem World.untag_log (w : World) (e : Event) : (w.log e).untag = (w.untag.log e).untag := by
  simp [World.untag, World.log, List.map_map, Function.comp_def, Event.untag_idem]

theorem World.untag_congr (a b : World)
    (hcs : ({ a.cs with cq_tag_ := 0 } : CallOpSet) = { b.cs with cq_tag_ := 0 })
    (htr : a.trace.map Event.untag = b.trace.map Event.untag) : a.untag = b.untag := by
  unfold World.untag
  rw [hcs, htr]

theorem Outcome.untag_withVal {α β : Type} (b : β) (o : Outcome α) :
    (o.withVal b).untag = o.untag.withVal b := by
  cases o <;> rfl

theorem ContinueFillOps_untag (env : Env) (rest : List InterceptorAction) (w : World) :
    (CallOpSet.ContinueFillOpsAfterInterception env rest w).untag =
      (CallOpSet.ContinueFillOpsAfterInterception env rest w.untag).untag := by
  unfold CallOpSet.ContinueFillOpsAfterInterception
  simp only [CallOpSet.AddOps, World.untag, World.log, CallOpSet.cq_tag]
  have e : ∀ ops t, (Event.grpc_call_start_batch ops t).untag = .grpc_call_start_batch ops 0 :=
    fun _ _ => rfl
  split <;>
    simp [Outcome.untag, World.untag, List.map_map, Function.comp_def, Event.untag_idem, e]

theorem ContinueFinalizeResult_untag (env : Env) (rest : List InterceptorAction) (w : World) :
    (CallOpSet.ContinueFinalizeResultAfterInterception env rest w).untag =
      (CallOpSet.ContinueFinalizeResultAfterInterception env rest w.untag).untag := by
  unfold CallOpSet.ContinueFinalizeResultAfterInterception
  simp only [World.untag, World.log, CallOpSet.cq_tag]
  have e : ∀ ops t, (Event.grpc_call_start_batch ops t).untag = .grpc_call_start_batch ops 0 :=
    fun _ _ => rfl
  split <;>
    simp [Outcome.untag, World.untag, List.map_map, Function.comp_def, Event.untag_idem, e]

theorem ProceedClient_untag (env : Env) (rest : List InterceptorAction)
    (run : Int → World → Outcome Unit)
    (hrun : ∀ c w, (run c w).untag = (run c w.untag).untag) (w : World) :
    (ProceedClient env rest run w).untag = (ProceedClient env rest run w.untag).untag := by
  unfold ProceedClient
  have e1 : w.untag.cs.call_ = w.cs.call_ := rfl
  have e2 : w.untag.cs.interceptor_methods_ = w.cs.interceptor_methods_ := rfl
  rw [e1, e2]
  cases w.cs.call_.client_rpc_info with
  | none => simp [Outcome.untag, World.untag_stable]
  | some rpc_info =>
    simp only
    split
    · split
      · simp [Outcome.untag, World.untag, World.setIM, List.map_map, Function.comp_def,
          Event.untag_idem]
      · exact hrun _ _
    · split
      · split
        · split
          · split
            · simp [Outcome.untag, World.untag, World.setIM, List.map_map, Function.comp_def,
                Event.untag_idem]
            · exact ContinueFillOps_untag env rest _
          · exact hrun _ _
        · split
          · simp [Outcome.untag, World.untag, World.setIM, List.map_map, Function.comp_def,
              Event.untag_idem]
          · exact ContinueFillOps_untag env rest _
      · split
        · exact hrun _ _
        · split
          · simp [Outcome.untag, World.untag, World.setIM, List.map_map, Function.comp_def,
              Event.untag_idem]
          · exact ContinueFinalizeResult_untag env rest _

theorem ProceedServerDone_untag (env : Env) (rest : List InterceptorAction) (w : World) :
    (ProceedServerDone env rest w).untag = (ProceedServerDone env rest w.untag).untag := by
  unfold ProceedServerDone
  have e2 : w.untag.cs.interceptor_methods_ = w.cs.interceptor_methods_ := rfl
  rw [e2]
  have key : ∀ o : Outcome Unit, ∀ o2 : Outcome Unit, o.untag = o2.untag →
      (match o with
        | .fatal w => Outcome.fatal w
        | .ok _ rest w =>
          match w.cs.interceptor_methods_.callback_ with
          | none => .fatal w
          | some f => .ok () rest (w.log (.callback f))).untag =
      (match o2 with
        | .fatal w => Outcome.fatal w
        | .ok _ rest w =>
          match w.cs.interceptor_methods_.callback_ with
          | none => .fatal w
          | some f => .ok () rest (w.log (.callback f))).untag := by
    intro o o2 h
    cases o with
    | fatal a =>
      cases o2 with
      | fatal b => simpa [Outcome.untag] using h
      | ok v r b => simp [Outcome.untag] at h
    | ok v r a =>
      cases o2 with
      | fatal b => simp [Outcome.untag] at h
      | ok v2 r2 b =>
        simp only [Outcome.untag, Outcome.ok.injEq] at h
        obtain ⟨_, hr, hw⟩ := h
        have hc : a.cs.interceptor_methods_ = b.cs.interceptor_methods_ := by
          have := congrArg (fun x : World => x.cs.interceptor_methods_) hw
          exact this
        simp only [hc, hr]
        cases b.cs.interceptor_methods_.callback_ with
        | none => simp [Outcome.untag, hw]
        | some f =>
          simp only [Outcome.untag, Outcome.ok.injEq, true_and]
          rw [World.untag_log, hw, ← World.untag_log]
  apply key
  split
  · exact ContinueFinalizeResult_untag env rest w
  · simp [Outcome.untag, World.untag_stable]

theorem ProceedServer_untag (env : Env) (rest : List InterceptorAction)
    (run : Int → World → Outcome Unit)
    (hrun : ∀ c w, (run c w).untag = (run c w.untag).untag) (w : World) :
    (ProceedServer env rest run w).untag = (ProceedServer env rest run w.untag).untag := by
  unfold ProceedServer
  have e1 : w.untag.cs.call_ = w.cs.call_ := rfl
  have e2 : w.untag.cs.interceptor_methods_ = w.cs.interceptor_methods_ := rfl
  rw [e1, e2]
  cases w.cs.call_.server_rpc_info with
  | none => simp [Outcome.untag, World.untag_stable]
  | some rpc_info =>
    simp only
    split
    · split
      · exact hrun _ _
      · exact ProceedServerDone_untag env rest _
    · split
      · exact hrun _ _
      · exact ProceedServerDone_untag env rest _

theorem Proceed_untag (env : Env) (rest : List InterceptorAction)
    (run : Int → World → Outcome Unit)
    (hrun : ∀ c w, (run c w).untag = (run c w.untag).untag) (w : World) :
    (Proceed env rest run w).untag = (Proceed env rest run w.untag).untag := by
  unfold Proceed
  have e1 : w.untag.cs.call_ = w.cs.call_ := rfl
  have e2 : w.untag.cs.interceptor_methods_ = w.cs.interceptor_methods_ := rfl
  rw [e1, e2]
  split
  · simp [Outcome.untag, World.untag_stable]
  · split
    · exact ProceedClient_untag env rest run hrun w
    · split
      · simp [Outcome.untag, World.untag_stable]
      · exact ProceedServer_untag env rest run hrun w

theorem Hijack_untag (run : Int → World → Outcome Unit)
    (hrun : ∀ c w, (run c w).untag = (run c w.untag).untag) (w : World) :
    (Hijack run w).untag = (Hijack run w.untag).untag := by
  unfold Hijack
  have e1 : w.untag.cs.call_ = w.cs.call_ := rfl
  have e2 : w.untag.cs.interceptor_methods_ = w.cs.interceptor_methods_ := rfl
  rw [e1, e2]
  simp only
  split
  · simp [Outcome.untag, World.untag_stable]
  · split
    · simp [Outcome.untag, World.untag_stable]
    · split
      · simp [Outcome.untag, World.untag_stable]
      · cases w.cs.call_.client_rpc_info with
        | none => simp [Outcome.untag, World.untag_stable]
        | some rpc_info => exact hrun _ _

theorem RunInterceptor_untag (env : Env) (script : List InterceptorAction) :
    ∀ (pos : Int) (w : World),
      (RunInterceptor env script pos w).untag = (RunInterceptor env script pos w.untag).untag := by
  induction script with
  | nil =>
    intro pos w
    simp only [RunInterceptor, Outcome.untag, Outcome.ok.injEq, true_and]
    exact World.untag_log w _
  | cons a rest ih =>
    intro pos w
    cases a with
    | Proceed =>
      simp only [RunInterceptor]
      rw [Proceed_untag env rest _ ih, World.untag_log, ← Proceed_untag env rest _ ih]
    | Hijack =>
      simp only [RunInterceptor]
      rw [Hijack_untag _ ih, World.untag_log, ← Hijack_untag _ ih]
    | Return =>
      simp only [RunInterceptor, Outcome.untag, Outcome.ok.injEq, true_and]
      exact World.untag_log w _

theorem RunClientInterceptors_untag (env : Env) (script : List InterceptorAction) (w : World) :
    (RunClientInterceptors env script w).untag =
      (RunClientInterceptors env script w.untag).untag := by
  unfold RunClientInterceptors
  have e1 : w.untag.cs.call_ = w.cs.call_ := rfl
  have e2 : w.untag.cs.interceptor_methods_ = w.cs.interceptor_methods_ := rfl
  rw [e1, e2]
  cases w.cs.call_.client_rpc_info with
  | none => simp [Outcome.untag, World.untag_stable]
  | some rpc_info => exact RunInterceptor_untag env script _ _

theorem RunInterceptors_untag (env : Env) (script : List InterceptorAction) (w : World) :
    (InterceptorBatchMethodsImpl.RunInterceptors env script w).untag =
      (InterceptorBatchMethodsImpl.RunInterceptors env script w.untag).untag := by
  unfold InterceptorBatchMethodsImpl.RunInterceptors
  have e1 : w.untag.cs.call_ = w.cs.call_ := rfl
  have e2 : w.untag.cs.interceptor_methods_ = w.cs.interceptor_methods_ := rfl
  rw [e1, e2]
  split
  · simp [Outcome.untag, World.untag_stable]
  · cases w.cs.call_.client_rpc_info with
    | none => simp [Outcome.untag, World.untag_stable]
    | some rpc_info =>
      simp only
      split
      · simp [Outcome.untag, World.untag_stable]
      · rw [Outcome.untag_withVal, Outcome.untag_withVal, RunClientInterceptors_untag]

theorem RunInterceptorsPostRecv_untag (env : Env) (script : List InterceptorAction)
    (w : World) :
    (CallOpSet.RunInterceptorsPostRecv env script w).untag =
      (CallOpSet.RunInterceptorsPostRecv env script w.untag).untag := by
  unfold CallOpSet.RunInterceptorsPostRecv
  exact RunInterceptors_untag env script _

theorem FinalizeResult_untag (env : Env) (script : List InterceptorAction) (status : Bool)
    (w : World) :
    (CallOpSet.FinalizeResult env script status w).untag =
      (CallOpSet.FinalizeResult env script status w.untag).untag := by
  unfold CallOpSet.FinalizeResult
  have e1 : w.untag.cs.done_intercepting_ = w.cs.done_intercepting_ := rfl
  rw [e1]
  split
  · simp only [Outcome.untag, Outcome.ok.injEq, true_and]
    refine ⟨rfl, ?_⟩
    exact World.untag_log w _
  · have hf : (CallOpSet.FinishOps env w.untag.cs status).2 =
        (CallOpSet.FinishOps env w.cs status).2 := rfl
    have h := RunInterceptorsPostRecv_untag env script
      { w with cs := (CallOpSet.FinishOps env w.cs status).1 }
    have hw : ({ w with cs := (CallOpSet.FinishOps env w.cs status).1 } : World).untag =
        ({ w.untag with cs := (CallOpSet.FinishOps env w.untag.cs status).1 } : World).untag := by
      apply World.untag_congr
      · rfl
      · simp [World.untag, List.map_map, Function.comp_def, Event.untag_idem]
    have h2 := RunInterceptorsPostRecv_untag env script
      { w.untag with cs := (CallOpSet.FinishOps env w.untag.cs status).1 }
    have h3 : (CallOpSet.RunInterceptorsPostRecv env script
          { w with cs := (CallOpSet.FinishOps env w.cs status).1 }).untag =
        (CallOpSet.RunInterceptorsPostRecv env script
          { w.untag with cs := (CallOpSet.FinishOps env w.untag.cs status).1 }).untag := by
      rw [h, h2, hw]
    have key : ∀ (st : Bool) (o o2 : Outcome Bool), o.untag = o2.untag →
        (match o with
          | .fatal w => (Outcome.fatal w : Outcome FinalizeReturn)
          | .ok true rest w =>
            .ok { ret := true, tag := some w.cs.return_tag_, status := st } rest
              (w.log (.grpc_call_unref w.cs.call_.call))
          | .ok false rest w => .ok { ret := false, tag := none, status := st } rest w).untag =
        (match o2 with
          | .fatal w => (Outcome.fatal w : Outcome FinalizeReturn)
          | .ok true rest w =>
            .ok { ret := true, tag := some w.cs.return_tag_, status := st } rest
              (w.log (.grpc_call_unref w.cs.call_.call))
          | .ok false rest w => .ok { ret := false, tag := none, status := st } rest w).untag := by
      intro st o o2 h
      cases o with
      | fatal a =>
        cases o2 with
        | fatal b => simpa [Outcome.untag] using h
        | ok v r b => simp [Outcome.untag] at h
      | ok v r a =>
        cases o2 with
        | fatal b => simp [Outcome.untag] at h
        | ok v2 r2 b =>
          simp only [Outcome.untag, Outcome.ok.injEq] at h
          obtain ⟨hv, hr, hw⟩ := h
          subst hv hr
          have hc : a.cs.call_ = b.cs.call_ := by
            have := congrArg (fun x : World => x.cs.call_) hw
            exact this
          have ht : a.cs.return_tag_ = b.cs.return_tag_ := by
            have := congrArg (fun x : World => x.cs.return_tag_) hw
            exact this
          cases v with
          | false => simp [Outcome.untag, hw]
          | true =>
            simp only [Outcome.untag, Outcome.ok.injEq, hc, ht, true_and]
            rw [World.untag_log, hw, ← World.untag_log]
    simp only [hf]
    exact key _ _ _ h3

theorem RunInterceptors_true (env : Env) (script : List InterceptorAction) (w : World)
    (rest : List InterceptorAction) (w2 : World)
    (h : InterceptorBatchMethodsImpl.RunInterceptors env script w = .ok true rest w2) :
    w2 = w ∧ rest = script := by
  unfold InterceptorBatchMethodsImpl.RunInterceptors at h
  split at h
  · cases h
  · cases hc : w.cs.call_.client_rpc_info with
    | none =>
      simp only [hc, Outcome.ok.injEq, true_and] at h
      exact ⟨h.2.symm, h.1.symm⟩
    | some rpc =>
      simp only [hc] at h
      split at h
      · simp only [Outcome.ok.injEq, true_and] at h
        exact ⟨h.2.symm, h.1.symm⟩
      · cases hr : RunClientInterceptors env script w with
        | fatal a => rw [hr] at h; cases h
        | ok v r a => rw [hr] at h; simp [Outcome.withVal] at h

theorem FinalizeResult_true_tag (env : Env) (script : List InterceptorAction) (status : Bool)
    (w : World) (r : FinalizeReturn) (rest : List InterceptorAction) (w2 : World)
    (h : CallOpSet.FinalizeResult env script status w = .ok r rest w2) (hr : r.ret = true) :
    r.tag = some w.cs.return_tag_ := by
  cases hdone : w.cs.done_intercepting_ with
  | true =>
    unfold CallOpSet.FinalizeResult at h
    simp only [hdone, ↓reduceIte, Outcome.ok.injEq] at h
    rw [← h.1]
  | false =>
    obtain ⟨W, hW, -, -, -, -, -, -, -, htag⟩ := FinalizeResult_prelude env script status w hdone
    rw [hW] at h
    cases hR : InterceptorBatchMethodsImpl.RunInterceptors env script W with
    | fatal a => rw [hR] at h; cases h
    | ok v r2 a =>
      rw [hR] at h
      cases v with
      | false =>
        simp only [Outcome.ok.injEq] at h
        rw [← h.1] at hr
        cases hr
      | true =>
        simp only [Outcome.ok.injEq] at h
        obtain ⟨ha, -⟩ := RunInterceptors_true env script W r2 a hR
        rw [← h.1, ha, htag]

/-! ### Arming the hook points leaves the slots alone -/

theorem Slot.SetInterceptionHookPoint_slot (slot : Slot) (im : InterceptorBatchMethodsImpl) :
    (slot.SetInterceptionHookPoint im).1 = slot := by
  cases slot <;>
    simp only [Slot.SetInterceptionHookPoint, CallNoOp.SetInterceptionHookPoint,
      CallOpSendInitialMetadata.SetInterceptionHookPoint,
      CallOpSendMessage.SetInterceptionHookPoint, CallOpRecvMessage.SetInterceptionHookPoint,
      CallOpGenericRecvMessage.SetInterceptionHookPoint,
      CallOpClientSendClose.SetInterceptionHookPoint,
      CallOpServerSendStatus.SetInterceptionHookPoint,
      CallOpRecvInitialMetadata.SetInterceptionHookPoint,
      CallOpClientRecvStatus.SetInterceptionHookPoint] <;>
    (try split) <;> rfl

theorem CallOpSet.AddOps_of_slots (a b : CallOpSet)
    (h1 : a.op1 = b.op1) (h2 : a.op2 = b.op2) (h3 : a.op3 = b.op3)
    (h4 : a.op4 = b.op4) (h5 : a.op5 = b.op5) (h6 : a.op6 = b.op6) :
    (CallOpSet.AddOps a).2 = (CallOpSet.AddOps b).2 := by
  simp only [CallOpSet.AddOps, h1, h2, h3, h4, h5, h6]

theorem CallOpSet.SetInterceptionHookPoints_ops (cs : CallOpSet) :
    (CallOpSet.AddOps cs.SetInterceptionHookPoints).2 = (CallOpSet.AddOps cs).2 := by
  apply CallOpSet.AddOps_of_slots <;>
    simp only [CallOpSet.SetInterceptionHookPoints, Slot.SetInterceptionHookPoint_slot]

/-- The entry of `FillOps`, with what the array built from the six slots is at the
point where the tracker decides whether interceptors run. -/
theorem FillOps_prelude_ops (env : Env) (script : List InterceptorAction) (call : Call)
    (w0 : World) :
    ∃ W : World,
      CallOpSet.FillOps env script call w0 =
        (match RunInterceptors env script W with
          | .fatal w => .fatal w
          | .ok true rest w => CallOpSet.ContinueFillOpsAfterInterception env rest w
          | .ok false rest w => .ok () rest w) ∧
      W.cs.call_ = call ∧ W.trace = w0.trace ++ [.grpc_call_ref call.call] ∧
      W.cs.interceptor_methods_.call_ = true ∧ W.cs.interceptor_methods_.ops_ = true ∧
      W.cs.interceptor_methods_.reverse_ = w0.cs.interceptor_methods_.reverse_ ∧
      W.cs.cq_tag_ = w0.cs.cq_tag_ ∧
      (CallOpSet.AddOps W.cs).2 = (CallOpSet.AddOps w0.cs).2 := by
  let wa : World := { w0 with cs := { w0.cs with done_intercepting_ := false } }
  let wb : World := wa.log (.grpc_call_ref call.call)
  let wc : World := { wb with cs := { wb.cs with call_ := call } }
  obtain ⟨-, c2, -, -, -, -⟩ := CallOpSet.SetInterceptionHookPoints_control wc.cs
  refine ⟨_, rfl, rfl, rfl, rfl, rfl, c2, rfl, ?_⟩
  exact (CallOpSet.AddOps_of_slots _ _ rfl rfl rfl rfl rfl rfl).trans
    ((CallOpSet.SetInterceptionHookPoints_ops wc.cs).trans
      (CallOpSet.AddOps_of_slots _ _ rfl rfl rfl rfl rfl rfl))

/-! ### The flag bits of the write options -/

theorem GetBit_testBit (f k : Nat) : ((f &&& 2 ^ k) != 0) = f.testBit k := by
  cases h : f.testBit k with
  | true =>
    have hne : f &&& 2 ^ k ≠ 0 := by
      intro h0
      have := congrArg (fun x => Nat.testBit x k) h0
      simp [Nat.testBit_two_pow_self, h] at this
    simpa using hne
  | false =>
    have h0 : f &&& 2 ^ k = 0 := by
      apply Nat.eq_of_testBit_eq
      intro i
      by_cases hik : k = i
      · subst hik; simp [h]
      · simp [Nat.testBit_two_pow_of_ne hik]
    simp [h0]

theorem WriteOptions.GetBit_SetBit (w : WriteOptions) (j k : Nat) (hk : k < 32) :
    (w.SetBit (2 ^ j)).GetBit (2 ^ k) = (w.flags_.testBit k || decide (j = k)) := by
  simp only [WriteOptions.SetBit, WriteOptions.GetBit, GetBit_testBit,
    Nat.testBit_mod_two_pow, Nat.testBit_or, Nat.testBit_two_pow, hk, decide_True,
    Bool.true_and]

theorem WriteOptions.GetBit_ClearBit (w : WriteOptions) (j k : Nat) (hj : j < 32)
    (hk : k < 32) :
    (w.ClearBit (2 ^ j)).GetBit (2 ^ k) = (w.flags_.testBit k && !decide (j = k)) := by
  have hmod : 2 ^ j % 2 ^ 32 = 2 ^ j :=
    Nat.mod_eq_of_lt (Nat.pow_lt_pow_right (by decide) hj)
  simp only [WriteOptions.ClearBit, WriteOptions.GetBit, GetBit_testBit, hmod,
    Nat.testBit_and, Nat.testBit_xor, Nat.testBit_two_pow_sub_one, Nat.testBit_two_pow, hk,
    decide_True, Bool.true_xor]

theorem WriteOptions.GetBit_flags (w : WriteOptions) (k : Nat) :
    w.GetBit (2 ^ k) = w.flags_.testBit k := by
  simp only [WriteOptions.GetBit, GetBit_testBit]

/-! ### What one slot contributes to the array -/

theorem Slot.AddOp_contribution (slot : Slot) (ops : List grpc_op) :
    (slot.AddOp ops).2 = ops ++ (slot.AddOp []).2 := by
  cases slot <;>
    simp only [Slot.AddOp, CallNoOp.AddOp, CallOpSendInitialMetadata.AddOp,
      CallOpSendMessage.AddOp, CallOpRecvMessage.AddOp, CallOpGenericRecvMessage.AddOp,
      CallOpClientSendClose.AddOp, CallOpServerSendStatus.AddOp,
      CallOpRecvInitialMetadata.AddOp, CallOpClientRecvStatus.AddOp] <;>
    (try split) <;> simp

theorem Slot.AddOp_pending (slot : Slot) (ops : List grpc_op)
    (hp : slot.hasPendingWork = true) (hh : slot.hijacked_ ≠ some true) :
    ∃ op, (slot.AddOp ops).2 = ops ++ [op] ∧ slot.ownsOp op = true := by
  cases slot <;>
    simp only [Slot.AddOp, CallNoOp.AddOp, CallOpSendInitialMetadata.AddOp,
      CallOpSendMessage.AddOp, CallOpRecvMessage.AddOp, CallOpGenericRecvMessage.AddOp,
      CallOpClientSendClose.AddOp, CallOpServerSendStatus.AddOp,
      CallOpRecvInitialMetadata.AddOp, CallOpClientRecvStatus.AddOp] <;>
    (try split) <;>
    first
      | exact ⟨_, rfl, rfl⟩
      | (exfalso; simp_all [Slot.hasPendingWork, Slot.hijacked_])

theorem Slot.AddOp_idle (slot : Slot) (ops : List grpc_op)
    (h : slot.hasPendingWork = false ∨ slot.hijacked_ = some true) :
    (slot.AddOp ops).2 = ops := by
  cases slot <;>
    simp only [Slot.AddOp, CallNoOp.AddOp, CallOpSendInitialMetadata.AddOp,
      CallOpSendMessage.AddOp, CallOpRecvMessage.AddOp, CallOpGenericRecvMessage.AddOp,
      CallOpClientSendClose.AddOp, CallOpServerSendStatus.AddOp,
      CallOpRecvInitialMetadata.AddOp, CallOpClientRecvStatus.AddOp] <;>
    (try split) <;>
    first
      | rfl
      | (exfalso; rcases h with h | h <;> simp_all [Slot.hasPendingWork, Slot.hijacked_])

theorem Slot.AddOp_at_most_one (slot : Slot) : (slot.AddOp []).2.length ≤ 1 := by
  by_cases h : slot.hasPendingWork = true ∧ slot.hijacked_ ≠ some true
  · obtain ⟨op, hop, -⟩ := Slot.AddOp_pending slot [] h.1 h.2
    simp [hop]
  · have h2 : slot.hasPendingWork = false ∨ slot.hijacked_ = some true := by
      by_cases hp : slot.hasPendingWork = true
      · right
        by_contra hh
        exact h ⟨hp, hh⟩
      · left
        simpa using hp
    simp [Slot.AddOp_idle slot [] h2]

theorem Slot.SetHijackingState_idle (slot : Slot) (im : InterceptorBatchMethodsImpl)
    (ops : List grpc_op) : ((slot.SetHijackingState im).1.AddOp ops).2 = ops := by
  apply Slot.AddOp_idle
  cases slot with
  | NoOp s => left; rfl
  | SendInitialMetadata s => right; rfl
  | SendMessage s => right; rfl
  | RecvMessage s =>
    right
    simp only [Slot.SetHijackingState, CallOpRecvMessage.SetHijackingState, Slot.hijacked_]
    split <;> rfl
  | GenericRecvMessage s =>
    right
    simp only [Slot.SetHijackingState, CallOpGenericRecvMessage.SetHijackingState,
      Slot.hijacked_]
    split <;> rfl
  | ClientSendClose s => right; rfl
  | ServerSendStatus s => right; rfl
  | RecvInitialMetadata s =>
    right
    simp only [Slot.SetHijackingState, CallOpRecvInitialMetadata.SetHijackingState,
      Slot.hijacked_]
    split <;> rfl
  | ClientRecvStatus s =>
    right
    simp only [Slot.SetHijackingState, CallOpClientRecvStatus.SetHijackingState,
      Slot.hijacked_]
    split <;> rfl

theorem CallOpSet.AddOps_contributions (cs : CallOpSet) :
    (CallOpSet.AddOps cs).2 =
      (cs.op1.AddOp []).2 ++ (cs.op2.AddOp []).2 ++ (cs.op3.AddOp []).2 ++
        (cs.op4.AddOp []).2 ++ (cs.op5.AddOp []).2 ++ (cs.op6.AddOp []).2 := by
  simp only [CallOpSet.AddOps]
  rw [Slot.AddOp_contribution cs.op6, Slot.AddOp_contribution cs.op5,
    Slot.AddOp_contribution cs.op4, Slot.AddOp_contribution cs.op3,
    Slot.AddOp_contribution cs.op2]

theorem CallOpSet.hijacking_empties_array (cs : CallOpSet) :
    (CallOpSet.AddOps cs.SetHijackingState).2 = [] := by
  rw [CallOpSet.AddOps_contributions]
  simp only [CallOpSet.SetHijackingState, Slot.SetHijackingState_idle, List.append_nil]

/-! ### Which hook points the slots arm before each pass -/

theorem Slot.SetFinishInterceptionHookPoint_tracker (slot : Slot)
    (im : InterceptorBatchMethodsImpl) :
    (slot.SetFinishInterceptionHookPoint im).2 =
      match slot.finishHook with
      | none => im
      | some hp => im.AddInterceptionHookPoint hp := by
  cases slot <;>
    simp only [Slot.SetFinishInterceptionHookPoint, CallNoOp.SetFinishInterceptionHookPoint,
      CallOpSendInitialMetadata.SetFinishInterceptionHookPoint,
      CallOpSendMessage.SetFinishInterceptionHookPoint,
      CallOpRecvMessage.SetFinishInterceptionHookPoint,
      CallOpGenericRecvMessage.SetFinishInterceptionHookPoint,
      CallOpClientSendClose.SetFinishInterceptionHookPoint,
      CallOpServerSendStatus.SetFinishInterceptionHookPoint,
      CallOpRecvInitialMetadata.SetFinishInterceptionHookPoint,
      CallOpClientRecvStatus.SetFinishInterceptionHookPoint, Slot.finishHook] <;>
    (try split) <;> simp_all

theorem Slot.SetFinishInterceptionHookPoint_hooks (slot : Slot)
    (im : InterceptorBatchMethodsImpl)
    (hlen : im.hooks_.length = NUM_INTERCEPTION_HOOKS) :
    (slot.SetFinishInterceptionHookPoint im).2.hooks_.length = NUM_INTERCEPTION_HOOKS ∧
    ∀ hp, (slot.SetFinishInterceptionHookPoint im).2.QueryInterceptionHookPoint hp = true ↔
      (im.QueryInterceptionHookPoint hp = true ∨ slot.finishHook = some hp) := by
  rw [Slot.SetFinishInterceptionHookPoint_tracker]
  cases hh : slot.finishHook with
  | none => simp [hlen]
  | some h =>
    refine ⟨by simpa [AddInterceptionHookPoint] using hlen, fun hp => ?_⟩
    simp [Query_AddInterceptionHookPoint im h hp hlen]

theorem Slot.finishHook_post_recv (slot : Slot) (hp : InterceptionHookPoints)
    (h : slot.finishHook = some hp) :
    hp = .POST_RECV_INITIAL_METADATA ∨ hp = .POST_RECV_MESSAGE ∨ hp = .POST_RECV_STATUS := by
  cases slot <;> simp only [Slot.finishHook] at h <;> (try split at h) <;> simp_all

theorem CallOpSet.finish_hooks_armed (cs : CallOpSet)
    (hlen : cs.interceptor_methods_.hooks_.length = NUM_INTERCEPTION_HOOKS)
    (hclear : ∀ hp, cs.interceptor_methods_.QueryInterceptionHookPoint hp = false) :
    ∀ hp, cs.SetFinishInterceptionHookPoints.interceptor_methods_.QueryInterceptionHookPoint
        hp = true ↔
      (cs.op1.finishHook = some hp ∨ cs.op2.finishHook = some hp ∨
        cs.op3.finishHook = some hp ∨ cs.op4.finishHook = some hp ∨
        cs.op5.finishHook = some hp ∨ cs.op6.finishHook = some hp) := by
  intro hp
  have h1 := Slot.SetFinishInterceptionHookPoint_hooks cs.op1 cs.interceptor_methods_ hlen
  have h2 := Slot.SetFinishInterceptionHookPoint_hooks cs.op2 _ h1.1
  have h3 := Slot.SetFinishInterceptionHookPoint_hooks cs.op3 _ h2.1
  have h4 := Slot.SetFinishInterceptionHookPoint_hooks cs.op4 _ h3.1
  have h5 := Slot.SetFinishInterceptionHookPoint_hooks cs.op5 _ h4.1
  have h6 := Slot.SetFinishInterceptionHookPoint_hooks cs.op6 _ h5.1
  show (cs.op6.SetFinishInterceptionHookPoint _).2.QueryInterceptionHookPoint hp = true ↔ _
  rw [h6.2 hp, h5.2 hp, h4.2 hp, h3.2 hp, h2.2 hp, h1.2 hp, hclear hp]
  simp only [Bool.false_eq_true, false_or, or_assoc]

theorem Slot.SetInterceptionHookPoint_hooks (slot : Slot) (im : InterceptorBatchMethodsImpl)
    (hlen : im.hooks_.length = NUM_INTERCEPTION_HOOKS) :
    (slot.SetInterceptionHookPoint im).2.hooks_.length = NUM_INTERCEPTION_HOOKS ∧
    ∀ hp, (slot.SetInterceptionHookPoint im).2.QueryInterceptionHookPoint hp = true ↔
      (im.QueryInterceptionHookPoint hp = true ∨ slot.fillHook = some hp) := by
  have key : (slot.SetInterceptionHookPoint im).2.hooks_ =
      (match slot.fillHook with
        | none => im
        | some hp => im.AddInterceptionHookPoint hp).hooks_ := by
    cases slot <;>
      simp only [Slot.SetInterceptionHookPoint, CallNoOp.SetInterceptionHookPoint,
        CallOpSendInitialMetadata.SetInterceptionHookPoint,
        CallOpSendMessage.SetInterceptionHookPoint,
        CallOpRecvMessage.SetInterceptionHookPoint,
        CallOpGenericRecvMessage.SetInterceptionHookPoint,
        CallOpClientSendClose.SetInterceptionHookPoint,
        CallOpServerSendStatus.SetInterceptionHookPoint,
        CallOpRecvInitialMetadata.SetInterceptionHookPoint,
        CallOpClientRecvStatus.SetInterceptionHookPoint, Slot.fillHook] <;>
      (try split) <;> first | rfl | (simp_all <;> rfl)
  have hq : ∀ hp, (slot.SetInterceptionHookPoint im).2.QueryInterceptionHookPoint hp =
      (match slot.fillHook with
        | none => im
        | some h => im.AddInterceptionHookPoint h).QueryInterceptionHookPoint hp := by
    intro hp
    simp only [QueryInterceptionHookPoint, key]
  refine ⟨?_, fun hp => ?_⟩
  · rw [key]
    cases slot.fillHook with
    | none => exact hlen
    | some h => simpa [AddInterceptionHookPoint] using hlen
  · rw [hq]
    cases hh : slot.fillHook with
    | none => simp
    | some h => simp [Query_AddInterceptionHookPoint im h hp hlen]

theorem CallOpSet.fill_hooks_armed (cs : CallOpSet)
    (hlen : cs.interceptor_methods_.hooks_.length = NUM_INTERCEPTION_HOOKS) :
    ∀ hp, cs.SetInterceptionHookPoints.interceptor_methods_.QueryInterceptionHookPoint
        hp = true ↔
      (cs.interceptor_methods_.QueryInterceptionHookPoint hp = true ∨
        cs.op1.fillHook = some hp ∨ cs.op2.fillHook = some hp ∨
        cs.op3.fillHook = some hp ∨ cs.op4.fillHook = some hp ∨
        cs.op5.fillHook = some hp ∨ cs.op6.fillHook = some hp) := by
  intro hp
  have h1 := Slot.SetInterceptionHookPoint_hooks cs.op1 cs.interceptor_methods_ hlen
  have h2 := Slot.SetInterceptionHookPoint_hooks cs.op2 _ h1.1
  have h3 := Slot.SetInterceptionHookPoint_hooks cs.op3 _ h2.1
  have h4 := Slot.SetInterceptionHookPoint_hooks cs.op4 _ h3.1
  have h5 := Slot.SetInterceptionHookPoint_hooks cs.op5 _ h4.1
  have h6 := Slot.SetInterceptionHookPoint_hooks cs.op6 _ h5.1
  show (cs.op6.SetInterceptionHookPoint _).2.QueryInterceptionHookPoint hp = true ↔ _
  rw [h6.2 hp, h5.2 hp, h4.2 hp, h3.2 hp, h2.2 hp, h1.2 hp]
  simp only [or_assoc]

/-! ### References to the call handle -/

theorem World.refcount_log (w : World) (e : Event) (c : Nat) :
    (w.log e).refcount c = w.refcount c + e.refDelta c := by
  simp [World.refcount, World.log]

theorem World.sameRefs_refl (w : World) : w.sameRefs w := ⟨rfl, fun _ => rfl⟩

theorem World.sameRefs_trans {a b c : World} (h1 : a.sameRefs b) (h2 : b.sameRefs c) :
    a.sameRefs c :=
  ⟨h2.1.trans h1.1, fun x => (h2.2 x).trans (h1.2 x)⟩

theorem World.sameRefs_step (a b : World) (hcall : b.cs.call_.call = a.cs.call_.call)
    (htr : b.trace = a.trace) : a.sameRefs b :=
  ⟨hcall, fun c => by simp [World.refcount, htr]⟩

theorem World.sameRefs_events (a b : World) (es : List Event)
    (hcall : b.cs.call_.call = a.cs.call_.call) (htr : b.trace = a.trace ++ es)
    (hes : ∀ e ∈ es, ∀ c, e.refDelta c = 0) : a.sameRefs b := by
  refine ⟨hcall, fun c => ?_⟩
  have hz : (es.map (Event.refDelta c)).sum = 0 := by
    apply List.sum_eq_zero
    intro x hx
    obtain ⟨e, he, rfl⟩ := List.mem_map.1 hx
    exact hes e he c
  simp [World.refcount, htr, hz]

theorem World.sameRefs_log (w : World) (e : Event) (he : ∀ c, e.refDelta c = 0) :
    w.sameRefs (w.log e) :=
  ⟨rfl, fun c => by rw [World.refcount_log, he c, add_zero]⟩

theorem ContinueFillOps_refs (env : Env) (rest : List InterceptorAction) (w : World) :
    w.sameRefs (CallOpSet.ContinueFillOpsAfterInterception env rest w).world := by
  have h1 : w.sameRefs (w.log .ContinueFillOpsAfterInterception) :=
    World.sameRefs_log w _ (fun _ => rfl)
  unfold CallOpSet.ContinueFillOpsAfterInterception
  simp only
  split
  · refine World.sameRefs_trans h1 (World.sameRefs_trans
      (World.sameRefs_step _ _ rfl rfl) (World.sameRefs_log _ _ (fun _ => rfl)))
  · exact World.sameRefs_trans h1 (World.sameRefs_step _ _ rfl rfl)

theorem ContinueFinalizeResult_refs (env : Env) (rest : List InterceptorAction) (w : World) :
    w.sameRefs (CallOpSet.ContinueFinalizeResultAfterInterception env rest w).world := by
  have h1 : w.sameRefs (w.log .ContinueFinalizeResultAfterInterception) :=
    World.sameRefs_log w _ (fun _ => rfl)
  unfold CallOpSet.ContinueFinalizeResultAfterInterception
  simp only
  split
  · refine World.sameRefs_trans h1 (World.sameRefs_trans
      (World.sameRefs_step _ _ rfl rfl) (World.sameRefs_log _ _ (fun _ => rfl)))
  · exact World.sameRefs_trans h1 (World.sameRefs_step _ _ rfl rfl)

theorem ProceedClient_refs (env : Env) (rest : List InterceptorAction)
    (run : Int → World → Outcome Unit)
    (hrun : ∀ (c : Int) (w : World), w.sameRefs (run c w).world) (w : World) :
    w.sameRefs (ProceedClient env rest run w).world := by
  unfold ProceedClient
  cases w.cs.call_.client_rpc_info with
  | none => exact World.sameRefs_refl w
  | some rpc_info =>
    simp only
    split
    · split
      · exact World.sameRefs_step _ _ rfl rfl
      · exact World.sameRefs_trans (World.sameRefs_step _ _ rfl rfl) (hrun _ _)
    · split
      · split
        · split
          · split
            · exact World.sameRefs_step _ _ rfl rfl
            · exact World.sameRefs_trans (World.sameRefs_step _ _ rfl rfl)
                (ContinueFillOps_refs env rest _)
          · exact World.sameRefs_trans (World.sameRefs_step _ _ rfl rfl) (hrun _ _)
        · split
          · exact World.sameRefs_step _ _ rfl rfl
          · exact World.sameRefs_trans (World.sameRefs_step _ _ rfl rfl)
              (ContinueFillOps_refs env rest _)
      · split
        · exact World.sameRefs_trans (World.sameRefs_step _ _ rfl rfl) (hrun _ _)
        · split
          · exact World.sameRefs_step _ _ rfl rfl
          · exact World.sameRefs_trans (World.sameRefs_step _ _ rfl rfl)
              (ContinueFinalizeResult_refs env rest _)

theorem ProceedServerDone_refs (env : Env) (rest : List InterceptorAction) (w : World) :
    w.sameRefs (ProceedServerDone env rest w).world := by
  unfold ProceedServerDone
  have key : ∀ o : Outcome Unit, w.sameRefs o.world →
      w.sameRefs (match o with
        | .fatal w => Outcome.fatal w
        | .ok _ rest w =>
          match w.cs.interceptor_methods_.callback_ with
          | none => .fatal w
          | some f => .ok () rest (w.log (.callback f))).world := by
    intro o ho
    cases o with
    | fatal a => exact ho
    | ok v r a =>
      simp only
      cases a.cs.interceptor_methods_.callback_ with
      | none => exact ho
      | some f =>
        refine World.sameRefs_trans ho ?_
        exact World.sameRefs_log _ _ (fun _ => rfl)
  apply key
  split
  · exact ContinueFinalizeResult_refs env rest w
  · exact World.sameRefs_refl w

theorem ProceedServer_refs (env : Env) (rest : List InterceptorAction)
    (run : Int → World → Outcome Unit)
    (hrun : ∀ (c : Int) (w : World), w.sameRefs (run c w).world) (w : World) :
    w.sameRefs (ProceedServer env rest run w).world := by
  unfold ProceedServer
  cases w.cs.call_.server_rpc_info with
  | none => exact World.sameRefs_refl w
  | some rpc_info =>
    simp only
    split
    · split
      · exact World.sameRefs_trans (World.sameRefs_step _ _ rfl rfl) (hrun _ _)
      · exact World.sameRefs_trans (World.sameRefs_step _ _ rfl rfl)
          (ProceedServerDone_refs env rest _)
    · split
      · exact World.sameRefs_trans (World.sameRefs_step _ _ rfl rfl) (hrun _ _)
      · exact World.sameRefs_trans (World.sameRefs_step _ _ rfl rfl)
          (ProceedServerDone_refs env rest _)

theorem Proceed_refs (env : Env) (rest : List InterceptorAction)
    (run : Int → World → Outcome Unit)
    (hrun : ∀ (c : Int) (w : World), w.sameRefs (run c w).world) (w : World) :
    w.sameRefs (Proceed env rest run w).world := by
  unfold Proceed
  split
  · exact World.sameRefs_refl w
  · split
    · exact ProceedClient_refs env rest run hrun w
    · split
      · exact World.sameRefs_refl w
      · exact ProceedServer_refs env rest run hrun w

theorem Hijack_refs (run : Int → World → Outcome Unit)
    (hrun : ∀ (c : Int) (w : World), w.sameRefs (run c w).world) (w : World) :
    w.sameRefs (Hijack run w).world := by
  unfold Hijack
  simp only
  split
  · exact World.sameRefs_refl w
  · split
    · exact World.sameRefs_refl w
    · split
      · exact World.sameRefs_refl w
      · cases w.cs.call_.client_rpc_info with
        | none => exact World.sameRefs_refl w
        | some rpc_info =>
          exact World.sameRefs_trans (World.sameRefs_step _ _ rfl rfl) (hrun _ _)

theorem RunInterceptor_refs (env : Env) (script : List InterceptorAction) :
    ∀ (pos : Int) (w : World), w.sameRefs (RunInterceptor env script pos w).world := by
  have hlog : ∀ (w : World) (pos : Int), w.sameRefs (w.log (.Intercept pos)) := fun w pos =>
    World.sameRefs_log w _ (fun _ => rfl)
  induction script with
  | nil => intro pos w; exact hlog w pos
  | cons a rest ih =>
    intro pos w
    cases a with
    | Proceed =>
      simp only [RunInterceptor]
      exact World.sameRefs_trans (hlog w pos) (Proceed_refs env rest _ ih _)
    | Hijack =>
      simp only [RunInterceptor]
      exact World.sameRefs_trans (hlog w pos) (Hijack_refs _ ih _)
    | Return => exact hlog w pos

theorem RunInterceptors_refs (env : Env) (script : List InterceptorAction) (w : World) :
    w.sameRefs (InterceptorBatchMethodsImpl.RunInterceptors env script w).world := by
  unfold InterceptorBatchMethodsImpl.RunInterceptors
  split
  · exact World.sameRefs_refl w
  · cases hc : w.cs.call_.client_rpc_info with
    | none => exact World.sameRefs_refl w
    | some rpc_info =>
      simp only
      split
      · exact World.sameRefs_refl w
      · have : (Outcome.withVal false (RunClientInterceptors env script w)).world =
            (RunClientInterceptors env script w).world := by
          cases RunClientInterceptors env script w <;> rfl
        rw [this]
        unfold RunClientInterceptors
        simp only [hc]
        exact World.sameRefs_trans (World.sameRefs_step _ _ rfl rfl)
          (RunInterceptor_refs env script _ _)

theorem FillOps_refs (env : Env) (script : List InterceptorAction) (call : Call) (w : World)
    (c : Nat) :
    (CallOpSet.FillOps env script call w).world.cs.call_.call = call.call ∧
    (CallOpSet.FillOps env script call w).world.refcount c =
      w.refcount c + (if c = call.call then 1 else 0) := by
  obtain ⟨W, hF, hcallW, htr, -⟩ := FillOps_prelude env script call w
  have hW : W.refcount c = w.refcount c + (if c = call.call then 1 else 0) := by
    simp only [World.refcount, htr, List.map_append, List.sum_append, List.map_cons,
      List.map_nil, List.sum_cons, List.sum_nil, Event.refDelta, add_zero]
    by_cases h : c = call.call
    · simp [h]
    · have h2 : ¬ call.call = c := fun h3 => h h3.symm
      simp [h, h2]
  have hR := RunInterceptors_refs env script W
  rw [hF]
  cases hr : InterceptorBatchMethodsImpl.RunInterceptors env script W with
  | fatal a =>
    rw [hr] at hR
    exact ⟨hR.1.trans (congrArg Call.call hcallW), (hR.2 c).trans hW⟩
  | ok v rest a =>
    rw [hr] at hR
    cases v with
    | false => exact ⟨hR.1.trans (congrArg Call.call hcallW), (hR.2 c).trans hW⟩
    | true =>
      have h2 := World.sameRefs_trans hR (ContinueFillOps_refs env rest a)
      exact ⟨h2.1.trans (congrArg Call.call hcallW), (h2.2 c).trans hW⟩

theorem FinalizeResult_refs (env : Env) (script : List InterceptorAction) (status : Bool)
    (w : World) (c : Nat) :
    (CallOpSet.FinalizeResult env script status w).world.cs.call_.call = w.cs.call_.call ∧
    (CallOpSet.FinalizeResult env script status w).world.refcount c =
      w.refcount c -
        (if (CallOpSet.FinalizeResult env script status w).returnedTrue = true ∧
          c = w.cs.call_.call then 1 else 0) := by
  have hun : ∀ a : World, (a.log (.grpc_call_unref a.cs.call_.call)).refcount c =
      a.refcount c - (if c = a.cs.call_.call then 1 else 0) := by
    intro a
    rw [World.refcount_log]
    simp only [Event.refDelta]
    split_ifs <;> omega
  cases hdone : w.cs.done_intercepting_ with
  | true =>
    rw [FinalizeResult_done env script status w hdone]
    exact ⟨rfl, by simpa [Outcome.world, Outcome.returnedTrue] using hun w⟩
  | false =>
    obtain ⟨W, hF, hcallW, htr, -⟩ := FinalizeResult_prelude env script status w hdone
    have hW : w.sameRefs W :=
      World.sameRefs_step _ _ (congrArg Call.call hcallW) htr
    have hR := World.sameRefs_trans hW (RunInterceptors_refs env script W)
    rw [hF]
    cases hr : InterceptorBatchMethodsImpl.RunInterceptors env script W with
    | fatal a =>
      rw [hr] at hR
      exact ⟨hR.1, by simpa [Outcome.world, Outcome.returnedTrue] using hR.2 c⟩
    | ok v rest a =>
      rw [hr] at hR
      cases v with
      | false => exact ⟨hR.1, by simpa [Outcome.world, Outcome.returnedTrue] using hR.2 c⟩
      | true =>
        refine ⟨hR.1, ?_⟩
        have h1 : a.refcount c = w.refcount c := hR.2 c
        have h2 : a.cs.call_.call = w.cs.call_.call := hR.1
        simp only [Outcome.world, Outcome.returnedTrue, true_and]
        rw [hun a, h1, h2]

/-! ### Every invocation index lies in the registry -/

theorem Slot.AddOp_hijacked (slot : Slot) (ops : List grpc_op) :
    (slot.AddOp ops).1.hijacked_ = slot.hijacked_ := by
  cases slot <;>
    simp only [Slot.AddOp, CallNoOp.AddOp, CallOpSendInitialMetadata.AddOp,
      CallOpSendMessage.AddOp, CallOpRecvMessage.AddOp, CallOpGenericRecvMessage.AddOp,
      CallOpClientSendClose.AddOp, CallOpServerSendStatus.AddOp,
      CallOpRecvInitialMetadata.AddOp, CallOpClientRecvStatus.AddOp, Slot.hijacked_] <;>
    (try split) <;> rfl

theorem Slot.FinishOp_hijacked (env : Env) (slot : Slot) (status : Bool) :
    (slot.FinishOp env status).1.hijacked_ = slot.hijacked_ := by
  cases slot <;>
    simp only [Slot.FinishOp, CallNoOp.FinishOp, CallOpSendInitialMetadata.FinishOp,
      CallOpSendMessage.FinishOp, CallOpRecvMessage.FinishOp,
      CallOpGenericRecvMessage.FinishOp, CallOpClientSendClose.FinishOp,
      CallOpServerSendStatus.FinishOp, CallOpRecvInitialMetadata.FinishOp,
      CallOpClientRecvStatus.FinishOp, Slot.hijacked_] <;>
    (repeat' split) <;> rfl

theorem Slot.SetFinishInterceptionHookPoint_hijacked (slot : Slot)
    (im : InterceptorBatchMethodsImpl) :
    (slot.SetFinishInterceptionHookPoint im).1.hijacked_ = slot.hijacked_ := by
  cases slot <;>
    simp only [Slot.SetFinishInterceptionHookPoint, CallNoOp.SetFinishInterceptionHookPoint,
      CallOpSendInitialMetadata.SetFinishInterceptionHookPoint,
      CallOpSendMessage.SetFinishInterceptionHookPoint,
      CallOpRecvMessage.SetFinishInterceptionHookPoint,
      CallOpGenericRecvMessage.SetFinishInterceptionHookPoint,
      CallOpClientSendClose.SetFinishInterceptionHookPoint,
      CallOpServerSendStatus.SetFinishInterceptionHookPoint,
      CallOpRecvInitialMetadata.SetFinishInterceptionHookPoint,
      CallOpClientRecvStatus.SetFinishInterceptionHookPoint, Slot.hijacked_] <;>
    (try split) <;> rfl

theorem Slot.SetHijackingState_hijacked (slot : Slot) (im : InterceptorBatchMethodsImpl) :
    (slot.SetHijackingState im).1.hijacked_ = slot.hijacked_.map (fun _ => true) := by
  cases slot <;>
    simp only [Slot.SetHijackingState, CallNoOp.SetHijackingState,
      CallOpSendInitialMetadata.SetHijackingState, CallOpSendMessage.SetHijackingState,
      CallOpRecvMessage.SetHijackingState, CallOpGenericRecvMessage.SetHijackingState,
      CallOpClientSendClose.SetHijackingState, CallOpServerSendStatus.SetHijackingState,
      CallOpRecvInitialMetadata.SetHijackingState, CallOpClientRecvStatus.SetHijackingState,
      Slot.hijacked_, Option.map] <;>
    (try split) <;> rfl

/-- Every call on a slot other than `SetHijackingState` leaves `hijacked_` as it
is; `SetHijackingState` sets it where the slot has the member. -/
theorem Slot.perform_hijacked (env : Env) (slot : Slot) (call : SlotCall) :
    (slot.perform env call).hijacked_ = slot.hijacked_ ∨
      (slot.perform env call).hijacked_ = some true := by
  cases call with
  | AddOp ops => left; cases slot <;> exact Slot.AddOp_hijacked _ ops
  | FinishOp status => left; cases slot <;> exact Slot.FinishOp_hijacked env _ status
  | SetInterceptionHookPoint im =>
    left
    have h := Slot.SetInterceptionHookPoint_slot slot im
    cases slot <;> exact congrArg Slot.hijacked_ h
  | SetFinishInterceptionHookPoint im =>
    left; cases slot <;> exact Slot.SetFinishInterceptionHookPoint_hijacked _ im
  | SetHijackingState im =>
    have h := Slot.SetHijackingState_hijacked slot im
    cases slot with
    | NoOp s => left; exact h
    | _ => right; exact h
  | SendInitialMetadata _ _ => left; cases slot <;> rfl
  | set_compression_level _ => left; cases slot <;> rfl
  | SendMessage message options =>
    left
    cases slot <;> try rfl
    simp only [Slot.perform, Slot.hijacked_, CallOpSendMessage.SendMessage]
    split <;> split <;> rfl
  | SendMessageDefault message =>
    left
    cases slot <;> try rfl
    simp only [Slot.perform, Slot.hijacked_, CallOpSendMessage.SendMessageDefault,
      CallOpSendMessage.SendMessage]
    split <;> split <;> rfl
  | RecvMessage _ _ => left; cases slot <;> rfl
  | AllowNoMessage => left; cases slot <;> rfl
  | ClientSendClose => left; cases slot <;> rfl
  | ServerSendStatus _ _ => left; cases slot <;> rfl
  | RecvInitialMetadata _ => left; cases slot <;> rfl
  | ClientRecvStatus _ _ _ => left; cases slot <;> rfl

theorem Slot.perform_isHijacked (env : Env) (slot : Slot) (call : SlotCall)
    (h : slot.isHijacked) : (slot.perform env call).isHijacked := by
  unfold Slot.isHijacked at h ⊢
  rcases Slot.perform_hijacked env slot call with h1 | h1
  · rw [h1]; exact h
  · rw [h1]; simp

theorem Slot.performAll_isHijacked (env : Env) (calls : List SlotCall) :
    ∀ slot : Slot, slot.isHijacked → (slot.performAll env calls).isHijacked := by
  induction calls with
  | nil => intro slot h; exact h
  | cons c cs ih =>
    intro slot h
    exact ih _ (Slot.perform_isHijacked env slot c h)

theorem Slot.performAll_hijacked (env : Env) (calls : List SlotCall) :
    ∀ slot : Slot, slot.hijacked_ = some true →
      (slot.performAll env calls).hijacked_ = some true := by
  induction calls with
  | nil => intro slot h; exact h
  | cons c cs ih =>
    intro slot h
    refine ih _ ?_
    rcases Slot.perform_hijacked env slot c with h1 | h1
    · rw [h1]; exact h
    · exact h1

theorem Slot.isHijacked_idle (slot : Slot) (ops : List grpc_op) (h : slot.isHijacked) :
    (slot.AddOp ops).2 = ops := by
  apply Slot.AddOp_idle
  unfold Slot.isHijacked at h
  cases slot with
  | NoOp s => left; rfl
  | SendInitialMetadata s => right; cases hb : s.hijacked_ <;> simp_all [Slot.hijacked_]
  | SendMessage s => right; cases hb : s.hijacked_ <;> simp_all [Slot.hijacked_]
  | RecvMessage s => right; cases hb : s.hijacked_ <;> simp_all [Slot.hijacked_]
  | GenericRecvMessage s => right; cases hb : s.hijacked_ <;> simp_all [Slot.hijacked_]
  | ClientSendClose s => right; cases hb : s.hijacked_ <;> simp_all [Slot.hijacked_]
  | ServerSendStatus s => right; cases hb : s.hijacked_ <;> simp_all [Slot.hijacked_]
  | RecvInitialMetadata s => right; cases hb : s.hijacked_ <;> simp_all [Slot.hijacked_]
  | ClientRecvStatus s => right; cases hb : s.hijacked_ <;> simp_all [Slot.hijacked_]

/-! ### The last-message bit of the stored write options -/

theorem Slot.perform_last_message (env : Env) (slot : Slot) (call : SlotCall) :
    (slot.perform env call).write_options_.map WriteOptions.is_last_message =
      slot.write_options_.map WriteOptions.is_last_message := by
  cases slot with
  | SendMessage s =>
    cases call with
    | AddOp ops =>
      simp only [Slot.perform, Slot.AddOp, CallOpSendMessage.AddOp, Slot.write_options_]
      split <;> rfl
    | SendMessage message options =>
      simp only [Slot.perform, Slot.write_options_, CallOpSendMessage.SendMessage]
      split <;> split <;> rfl
    | SendMessageDefault message =>
      simp only [Slot.perform, Slot.write_options_, CallOpSendMessage.SendMessageDefault,
        CallOpSendMessage.SendMessage]
      split <;> split <;> rfl
    | SetInterceptionHookPoint im =>
      simp only [Slot.perform, Slot.SetInterceptionHookPoint_slot]
    | _ => rfl
  | NoOp s =>
    cases call <;> rfl
  | SendInitialMetadata s =>
    cases call <;>
      simp only [Slot.perform, Slot.AddOp, Slot.FinishOp, Slot.SetInterceptionHookPoint,
        Slot.SetFinishInterceptionHookPoint, Slot.SetHijackingState, Slot.write_options_]
  | RecvMessage s =>
    cases call <;>
      simp only [Slot.perform, Slot.AddOp, Slot.FinishOp, Slot.SetInterceptionHookPoint,
        Slot.SetFinishInterceptionHookPoint, Slot.SetHijackingState, Slot.write_options_]
  | GenericRecvMessage s =>
    cases call <;>
      simp only [Slot.perform, Slot.AddOp, Slot.FinishOp, Slot.SetInterceptionHookPoint,
        Slot.SetFinishInterceptionHookPoint, Slot.SetHijackingState, Slot.write_options_]
  | ClientSendClose s =>
    cases call <;>
      simp only [Slot.perform, Slot.AddOp, Slot.FinishOp, Slot.SetInterceptionHookPoint,
        Slot.SetFinishInterceptionHookPoint, Slot.SetHijackingState, Slot.write_options_]
  | ServerSendStatus s =>
    cases call <;>
      simp only [Slot.perform, Slot.AddOp, Slot.FinishOp, Slot.SetInterceptionHookPoint,
        Slot.SetFinishInterceptionHookPoint, Slot.SetHijackingState, Slot.write_options_]
  | RecvInitialMetadata s =>
    cases call <;>
      simp only [Slot.perform, Slot.AddOp, Slot.FinishOp, Slot.SetInterceptionHookPoint,
        Slot.SetFinishInterceptionHookPoint, Slot.SetHijackingState, Slot.write_options_]
  | ClientRecvStatus s =>
    cases call <;>
      simp only [Slot.perform, Slot.AddOp, Slot.FinishOp, Slot.SetInterceptionHookPoint,
        Slot.SetFinishInterceptionHookPoint, Slot.SetHijackingState, Slot.write_options_]

theorem Slot.performAll_last_message (env : Env) (calls : List SlotCall) :
    ∀ slot : Slot,
      (slot.performAll env calls).write_options_.map WriteOptions.is_last_message =
        slot.write_options_.map WriteOptions.is_last_message := by
  induction calls with
  | nil => intro slot; rfl
  | cons c cs ih =>
    intro slot
    exact (ih _).trans (Slot.perform_last_message env slot c)

/-! ### The reverse pass on a server call -/

/-- C1. On a client call with `N ≥ 1` interceptors that is not hijacked, every
interceptor resuming once per invocation: the forward pass started by
`RunInterceptors` invokes the indices `0, ..., N-1` in that order, once each, and
then is exactly one call of `ContinueFillOpsAfterInterception`; after `SetReverse`
the pass invokes `N-1, ..., 0` in that order, once each, and then is exactly one
call of `ContinueFinalizeResultAfterInterception`. With a transport that accepts
the batch, the two traces are spelled out. -/
theorem client_chain_order (env : Env) (w : World) (rpc : ClientRpcInfo)
    (extra : List InterceptorAction)
    (hc : w.cs.call_.client_rpc_info = some rpc) (hN : 1 ≤ rpc.interceptors_)
    (hnh : rpc.hijacked_ = false)
    (hfw : w.cs.interceptor_methods_.reverse_ = false)
    (hcall : w.cs.interceptor_methods_.call_ = true)
    (hops : w.cs.interceptor_methods_.ops_ = true) :
    (RunInterceptors env (List.replicate rpc.interceptors_ .Proceed ++ extra) w =
      (CallOpSet.ContinueFillOpsAfterInterception env extra
        (w.atIndex (rpc.interceptors_ : Int)
          (w.trace ++ interceptsUp rpc.interceptors_))).withVal false) ∧
    (RunInterceptors env (List.replicate rpc.interceptors_ .Proceed ++ extra)
        (w.setIM w.cs.interceptor_methods_.SetReverse) =
      (CallOpSet.ContinueFinalizeResultAfterInterception env extra
        ((w.setIM w.cs.interceptor_methods_.SetReverse).atIndex (-1)
          (w.trace ++ interceptsDown rpc.interceptors_))).withVal false) ∧
    ((∀ ops, env.start_batch_ok ops = true) →
      (RunInterceptors env (List.replicate rpc.interceptors_ .Proceed ++ extra) w).world.trace =
          w.trace ++ interceptsUp rpc.interceptors_ ++
            [Event.ContinueFillOpsAfterInterception,
              Event.grpc_call_start_batch (CallOpSet.AddOps w.cs).2 w.cs.cq_tag_] ∧
      (RunInterceptors env (List.replicate rpc.interceptors_ .Proceed ++ extra)
          (w.setIM w.cs.interceptor_methods_.SetReverse)).world.trace =
          w.trace ++ interceptsDown rpc.interceptors_ ++
            [Event.ContinueFinalizeResultAfterInterception,
              Event.grpc_call_start_batch [] w.cs.cq_tag_]) := by
  have hfwd := RunInterceptors_forward_all env w rpc extra hc hN hnh hfw hcall hops
  obtain ⟨n, hn⟩ : ∃ n, rpc.interceptors_ = n + 1 := ⟨rpc.interceptors_ - 1, by omega⟩
  have hrev := RunInterceptors_reverse_all env (w.setIM w.cs.interceptor_methods_.SetReverse)
    rpc n extra hc hN (by simp [hnh, hn]) rfl hcall hops
  rw [← hn] at hrev
  refine ⟨hfwd, hrev, fun hacc => ?_⟩
  rw [hfwd, hrev, ContinueFillOps_accepted env hacc, ContinueFinalizeResult_accepted env hacc]
  exact ⟨rfl, rfl⟩

theorem client_chain_order_witness :
    (RunInterceptors (Env.sample true true) [.Proceed, .Proceed, .Proceed]
        (World.sample { interceptors_ := 3 } { call_ := true, ops_ := true })).world.trace =
      [.Intercept 0, .Intercept 1, .Intercept 2, .ContinueFillOpsAfterInterception,
        .grpc_call_start_batch
          [.GRPC_OP_SEND_INITIAL_METADATA 0 1 (some [{ key := "k1", value := "v1" }]) none,
            .GRPC_OP_SEND_MESSAGE 0 (some [7]), .GRPC_OP_RECV_INITIAL_METADATA 0,
            .GRPC_OP_RECV_MESSAGE 0, .GRPC_OP_SEND_CLOSE_FROM_CLIENT 0,
            .GRPC_OP_RECV_STATUS_ON_CLIENT 0] 10] ∧
    (RunInterceptors (Env.sample true true) [.Proceed, .Proceed, .Proceed]
        ((World.sample { interceptors_ := 3 } { call_ := true, ops_ := true }).setIM
          (InterceptorBatchMethodsImpl.SetReverse { call_ := true, ops_ := true }))).world.trace =
      [.Intercept 2, .Intercept 1, .Intercept 0, .ContinueFinalizeResultAfterInterception,
        .grpc_call_start_batch [] 10] :=
  (client_chain_order (Env.sample true true)
    (World.sample { interceptors_ := 3 } { call_ := true, ops_ := true })
    { interceptors_ := 3 } [] rfl (by decide) rfl rfl rfl rfl).2.2 (fun _ => rfl)

/-- C2: the code evaluated at the failing input, a second attempt on an op set
that has completed one attempt. The first attempt, on the fresh op set with one
interceptor that proceeds, is as claimed: its first `FinalizeResult` returns
`false` and its second returns `true`. It leaves the tracker in the reverse
direction, which `FillOps` does not reset. So in the second attempt `FillOps`,
the interceptor proceeding, ends in `ContinueFinalizeResultAfterInterception`:
it sets `done_intercepting_` and submits an empty batch, and the pending message
and close are never submitted. The first completion of the second attempt then
returns `true` with the return tag, without a `FinishOp`: the close is still
pending in its slot. -/
theorem second_attempt_first_completion_returns_true :
    (CallOpSet.FinalizeResult (Env.sample true true) [.Proceed] true
      (CallOpSet.FillOps (Env.sample true true) [.Proceed]
        (Call.sample { interceptors_ := 1 })
        (World.sample { interceptors_ := 1 } {})).world).returnedTrue = false ∧
    (CallOpSet.FinalizeResult (Env.sample true true) [] true
      (CallOpSet.FinalizeResult (Env.sample true true) [.Proceed] true
        (CallOpSet.FillOps (Env.sample true true) [.Proceed]
          (Call.sample { interceptors_ := 1 })
          (World.sample { interceptors_ := 1 } {})).world).world).returnedTrue = true ∧
    World.sampleReused.cs.interceptor_methods_.reverse_ = true ∧
    (CallOpSet.FillOps (Env.sample true true) [.Proceed]
        (Call.sample { interceptors_ := 1 }) World.sampleReused).world.trace =
      World.sampleReused.trace ++
        [.grpc_call_ref 1, .Intercept 0, .ContinueFinalizeResultAfterInterception,
          .grpc_call_start_batch [] 10] ∧
    (CallOpSet.FillOps (Env.sample true true) [.Proceed]
        (Call.sample { interceptors_ := 1 }) World.sampleReused).world.cs.done_intercepting_ =
      true ∧
    CallOpSet.FinalizeResult (Env.sample true true) [] true
        (CallOpSet.FillOps (Env.sample true true) [.Proceed]
          (Call.sample { interceptors_ := 1 }) World.sampleReused).world =
      .ok { ret := true, tag := some 20, status := true } []
        ((CallOpSet.FillOps (Env.sample true true) [.Proceed]
          (Call.sample { interceptors_ := 1 }) World.sampleReused).world.log
            (.grpc_call_unref 1)) ∧
    (CallOpSet.FillOps (Env.sample true true) [.Proceed]
        (Call.sample { interceptors_ := 1 }) World.sampleReused).world.cs.op5 =
      .ClientSendClose { send_ := true } := by
  decide

/-- One attempt of a `CallOpSet` on a fresh tracker (the direction flag `reverse_`
is `false`, as construction and assignment leave it), with a transport that
accepts every batch and may write anything into the slots while a batch is
outstanding. `FinalizeResult` returns `true` exactly once:
* without client interceptors `FillOps` submits one batch and the completion of
  that batch returns `true`, submitting nothing more;
* with `N ≥ 1` interceptors that all proceed, `FillOps` submits one batch, the
  first `FinalizeResult` returns `false`, sets `done_intercepting_` and submits
  one empty batch, and the second `FinalizeResult` returns `true`, leaves the
  slots as they are (no `FinishOp`) and submits nothing more;
* the same holds when the interceptor at index `h` hijacks in the forward pass
  and proceeds afterwards. -/
theorem one_completion_per_attempt (env : Env) (w0 : World) (call : Call)
    (extra : List InterceptorAction) (received1 received2 : CallOpSet) (s1 s2 : Bool)
    (hacc : ∀ ops, env.start_batch_ok ops = true)
    (hfresh : w0.cs.interceptor_methods_.reverse_ = false) :
    ((∀ rpc, call.client_rpc_info = some rpc → rpc.interceptors_ = 0) →
      ∃ w1 w2 : World,
        CallOpSet.FillOps env extra call w0 = .ok () extra w1 ∧
        w1.batches = w0.batches + 1 ∧
        CallOpSet.FinalizeResult env extra s1 (w1.withSlotsOf received1) =
          .ok { ret := true, tag := some w0.cs.return_tag_,
                status := (CallOpSet.FinishOps env (w1.withSlotsOf received1).cs s1).2 }
            extra w2 ∧
        w2.batches = w1.batches) ∧
    (∀ rpc, call.client_rpc_info = some rpc → 1 ≤ rpc.interceptors_ →
      rpc.hijacked_ = false →
      ∃ w1 w2 : World,
        CallOpSet.FillOps env
            (List.replicate rpc.interceptors_ .Proceed ++
              (List.replicate rpc.interceptors_ .Proceed ++ extra)) call w0 =
          .ok () (List.replicate rpc.interceptors_ .Proceed ++ extra) w1 ∧
        w1.batches = w0.batches + 1 ∧
        CallOpSet.FinalizeResult env (List.replicate rpc.interceptors_ .Proceed ++ extra) s1
            (w1.withSlotsOf received1) =
          .ok { ret := false, tag := none,
                status := (CallOpSet.FinishOps env (w1.withSlotsOf received1).cs s1).2 }
            extra w2 ∧
        w2.cs.done_intercepting_ = true ∧
        w2.trace = w1.trace ++ interceptsDown rpc.interceptors_ ++
          [.ContinueFinalizeResultAfterInterception,
            .grpc_call_start_batch [] w0.cs.cq_tag_] ∧
        w2.batches = w1.batches + 1 ∧
        CallOpSet.FinalizeResult env extra s2 (w2.withSlotsOf received2) =
          .ok { ret := true, tag := some w0.cs.return_tag_, status := s2 } extra
            ((w2.withSlotsOf received2).log (.grpc_call_unref call.call)) ∧
        ((w2.withSlotsOf received2).log (.grpc_call_unref call.call)).batches = w2.batches) ∧
    (∀ rpc (h : Nat), call.client_rpc_info = some rpc → h < rpc.interceptors_ →
      rpc.hijacked_ = false →
      ∃ w1 w2 : World,
        CallOpSet.FillOps env
            (List.replicate h .Proceed ++ .Hijack :: .Proceed ::
              (List.replicate (h + 1) .Proceed ++ extra)) call w0 =
          .ok () (List.replicate (h + 1) .Proceed ++ extra) w1 ∧
        w1.batches = w0.batches + 1 ∧
        CallOpSet.FinalizeResult env (List.replicate (h + 1) .Proceed ++ extra) s1
            (w1.withSlotsOf received1) =
          .ok { ret := false, tag := none,
                status := (CallOpSet.FinishOps env (w1.withSlotsOf received1).cs s1).2 }
            extra w2 ∧
        w2.cs.done_intercepting_ = true ∧
        w2.trace = w1.trace ++ interceptsDown (h + 1) ++
          [.ContinueFinalizeResultAfterInterception,
            .grpc_call_start_batch [] w0.cs.cq_tag_] ∧
        w2.batches = w1.batches + 1 ∧
        CallOpSet.FinalizeResult env extra s2 (w2.withSlotsOf received2) =
          .ok { ret := true, tag := some w0.cs.return_tag_, status := s2 } extra
            ((w2.withSlotsOf received2).log (.grpc_call_unref call.call)) ∧
        ((w2.withSlotsOf received2).log (.grpc_call_unref call.call)).batches = w2.batches) := by
  refine ⟨fun hnone => ?_, fun rpc hc hN hnh => ?_, fun rpc h hc hh hnh => ?_⟩
  · obtain ⟨w1, ops, hF, htr1, hcall1, hdone1, hc1, -, -, hret1⟩ :=
      FillOps_no_interceptors env hacc extra call w0 hnone
    obtain ⟨w2, hG, htr2⟩ := FinalizeResult_no_interceptors env extra s1
      (w1.withSlotsOf received1) hdone1 hc1
      (fun rpc hrpc => hnone rpc (by rw [← hcall1]; exact hrpc))
    refine ⟨w1, w2, hF, ?_, ?_, ?_⟩
    · exact batches_after_fill w0 w1 [] _ ops _ rfl (by simpa using htr1)
    · rw [hG]; show _ = Outcome.ok { ret := true, tag := some w0.cs.return_tag_, .. } _ _
      rw [← hret1]; rfl
    · have : w2.trace = w1.trace ++ [.grpc_call_unref (w1.withSlotsOf received1).cs.call_.call] :=
        htr2
      simp [World.batches, this, List.countP_append, Event.isBatch]
  · obtain ⟨w1, ops, hF, htr1, hcall1, hdone1, hc1, hc2, hcq1, hret1⟩ :=
      FillOps_all_proceed env hacc (List.replicate rpc.interceptors_ .Proceed ++ extra) call w0
        rpc hc hN hnh hfresh
    obtain ⟨n, hn⟩ : ∃ n, rpc.interceptors_ = n + 1 := ⟨rpc.interceptors_ - 1, by omega⟩
    obtain ⟨w2, hG, htr2, hdone2, hcall2, hret2⟩ := FinalizeResult_intercepted env hacc extra s1
      (w1.withSlotsOf received1) rpc n hdone1 (by rw [← hc, ← hcall1]; rfl) hN
      (by simp [hnh, hn]) hc1 hc2
    rw [← hn] at hG htr2
    have htr2' : w2.trace = w1.trace ++ interceptsDown rpc.interceptors_ ++
        [.ContinueFinalizeResultAfterInterception, .grpc_call_start_batch [] w0.cs.cq_tag_] := by
      rw [htr2, ← hcq1]; rfl
    refine ⟨w1, w2, hF, ?_, hG, hdone2, htr2', ?_, ?_, ?_⟩
    · exact batches_after_fill w0 w1 _ _ ops _ (interceptsUp_batches _) htr1
    · exact batches_after_finalize w1 w2 _ _ (interceptsDown_batches _) htr2'
    · rw [FinalizeResult_done env extra s2 (w2.withSlotsOf received2) hdone2]
      have e1 : (w2.withSlotsOf received2).cs.return_tag_ = w0.cs.return_tag_ :=
        hret2.trans hret1
      have e2 : (w2.withSlotsOf received2).cs.call_ = call := hcall2.trans hcall1
      rw [e1, e2]
    · simp [World.batches, World.log, World.withSlotsOf, List.countP_append, Event.isBatch]
  · have hN : 1 ≤ rpc.interceptors_ := by omega
    obtain ⟨w1, ops, hF, htr1, hcall1, hdone1, hc1, hc2, hcq1, hret1⟩ :=
      FillOps_hijack env hacc (List.replicate (h + 1) .Proceed ++ extra) call w0 rpc h hc hh
        hnh hfresh
    obtain ⟨w2, hG, htr2, hdone2, hcall2, hret2⟩ := FinalizeResult_intercepted env hacc extra s1
      (w1.withSlotsOf received1)
      { interceptors_ := rpc.interceptors_, hijacked_ := true, hijacked_interceptor_ := (h : Int) }
      h hdone1 (by show w1.cs.call_.client_rpc_info = _; rw [hcall1]) hN rfl hc1 hc2
    have htr2' : w2.trace = w1.trace ++ interceptsDown (h + 1) ++
        [.ContinueFinalizeResultAfterInterception, .grpc_call_start_batch [] w0.cs.cq_tag_] := by
      rw [htr2, ← hcq1]; rfl
    refine ⟨w1, w2, hF, ?_, hG, hdone2, htr2', ?_, ?_, ?_⟩
    · refine batches_after_fill w0 w1 (interceptsUp h ++ [.Intercept h, .Intercept h])
        call.call ops w0.cs.cq_tag_ ?_ ?_
      · simp [List.countP_append, interceptsUp_batches, Event.isBatch]
      · rw [htr1]; simp
    · exact batches_after_finalize w1 w2 _ _ (interceptsDown_batches _) htr2'
    · rw [FinalizeResult_done env extra s2 (w2.withSlotsOf received2) hdone2]
      have e1 : (w2.withSlotsOf received2).cs.return_tag_ = w0.cs.return_tag_ :=
        hret2.trans hret1
      have e2 : (w2.withSlotsOf received2).cs.call_.call = call.call := by
        show w2.cs.call_.call = _
        rw [hcall2]
        show w1.cs.call_.call = _
        rw [hcall1]
      rw [e1, e2]
    · simp [World.batches, World.log, World.withSlotsOf, List.countP_append, Event.isBatch]

theorem one_completion_per_attempt_witness :
    ∃ w1 w2 : World,
      CallOpSet.FillOps (Env.sample true true) [.Proceed, .Proceed, .Proceed, .Proceed]
          (Call.sample { interceptors_ := 2 }) (World.sample { interceptors_ := 2 } {}) =
        .ok () [.Proceed, .Proceed] w1 ∧
      CallOpSet.FinalizeResult (Env.sample true true) [.Proceed, .Proceed] true
          (w1.withSlotsOf (World.sample { interceptors_ := 2 } {}).cs) =
        .ok { ret := false, tag := none, status := false } [] w2 ∧
      w2.cs.done_intercepting_ = true ∧
      CallOpSet.FinalizeResult (Env.sample true true) [] true
          (w2.withSlotsOf (World.sample { interceptors_ := 2 } {}).cs) =
        .ok { ret := true, tag := some 20, status := true } []
          ((w2.withSlotsOf (World.sample { interceptors_ := 2 } {}).cs).log
            (.grpc_call_unref 1)) := by
  obtain ⟨w1, w2, h1, -, h2, h3, -, -, h4, -⟩ :=
    (one_completion_per_attempt (Env.sample true true) (World.sample { interceptors_ := 2 } {})
      (Call.sample { interceptors_ := 2 }) [] (World.sample { interceptors_ := 2 } {}).cs
      (World.sample { interceptors_ := 2 } {}).cs true true (fun _ => rfl) rfl).2.1
      { interceptors_ := 2 } rfl (by decide) rfl
  exact ⟨w1, w2, h1, h2.trans rfl, h3, h4⟩

/-- C3. A receive-message slot, typed (`CallOpRecvMessage`) or generic
(`CallOpGenericRecvMessage`), that has a pending destination, is not hijacked and
holds a valid receive buffer, finished with incoming status `true`: `FinishOp`
leaves in `*status` exactly the decode outcome, so a decode failure turns the
transport success into a failure. Stated on the slot classes and on the slot
variants of the op set. -/
theorem recv_message_finish_status_is_decode_outcome (env : Env)
    (s : CallOpRecvMessage) (g : CallOpGenericRecvMessage) (R : Nat) (buf gbuf : Bytes)
    (hs_pending : s.message_ ≠ none) (hs_live : s.hijacked_ = false)
    (hs_buf : s.recv_buf_.buffer_ = some buf)
    (hg_pending : g.deserialize_ = some R) (hg_live : g.hijacked_ = false)
    (hg_buf : g.recv_buf_.buffer_ = some gbuf) :
    (s.FinishOp env true).2 = env.Deserialize_ok s.R buf ∧
    (g.FinishOp env true).2 = env.Deserialize_ok R gbuf ∧
    ((Slot.RecvMessage s).FinishOp env true).2 = env.Deserialize_ok s.R buf ∧
    ((Slot.GenericRecvMessage g).FinishOp env true).2 = env.Deserialize_ok R gbuf := by
  have h1 : (s.FinishOp env true).2 = env.Deserialize_ok s.R buf := by
    simp [CallOpRecvMessage.FinishOp, hs_pending, hs_live, hs_buf]
  have h2 : (g.FinishOp env true).2 = env.Deserialize_ok R gbuf := by
    simp [CallOpGenericRecvMessage.FinishOp, hg_pending, hg_live, hg_buf]
  exact ⟨h1, h2, by simpa [Slot.FinishOp] using h1, by simpa [Slot.FinishOp] using h2⟩

theorem recv_message_finish_status_is_decode_outcome_witness :
    (({ message_ := some 1, recv_buf_ := { buffer_ := some [7] } } : CallOpRecvMessage).FinishOp
        (Env.sample false true) true).2 = false ∧
    (({ deserialize_ := some 0, recv_buf_ := { buffer_ := some [7] } } :
        CallOpGenericRecvMessage).FinishOp (Env.sample false true) true).2 = false := by
  have h := recv_message_finish_status_is_decode_outcome (Env.sample false true)
    { message_ := some 1, recv_buf_ := { buffer_ := some [7] } }
    { deserialize_ := some 0, recv_buf_ := { buffer_ := some [7] } } 0 [7] [7]
    (by decide) rfl rfl rfl rfl rfl
  exact ⟨h.1, h.2.1⟩

/-- C4. A `CallOpRecvMessage` slot with a pending destination, not hijacked,
whose receive buffer is invalid, finished with incoming status `true`: with
`AllowNoMessage` the status stays `true` and `got_message` is `false`; without it
the status becomes `false` and `got_message` is `false`. -/
theorem recv_message_finish_without_message (env : Env) (s : CallOpRecvMessage)
    (h_pending : s.message_ ≠ none) (h_live : s.hijacked_ = false)
    (h_nobuf : s.recv_buf_.buffer_ = none) :
    (s.allow_not_getting_message_ = true →
      (s.FinishOp env true).2 = true ∧ (s.FinishOp env true).1.got_message = false) ∧
    (s.allow_not_getting_message_ = false →
      (s.FinishOp env true).2 = false ∧ (s.FinishOp env true).1.got_message = false) := by
  constructor <;> intro ha <;>
    simp [CallOpRecvMessage.FinishOp, h_pending, h_live, h_nobuf, ha]

theorem recv_message_finish_without_message_witness :
    ((({ message_ := some 1 } : CallOpRecvMessage).AllowNoMessage.FinishOp
        (Env.sample true true) true).2 = true ∧
      (({ message_ := some 1 } : CallOpRecvMessage).AllowNoMessage.FinishOp
        (Env.sample true true) true).1.got_message = false) ∧
    ((({ message_ := some 1 } : CallOpRecvMessage).FinishOp
        (Env.sample true true) true).2 = false ∧
      (({ message_ := some 1 } : CallOpRecvMessage).FinishOp
        (Env.sample true true) true).1.got_message = false) :=
  ⟨(recv_message_finish_without_message (Env.sample true true)
      ({ message_ := some 1 } : CallOpRecvMessage).AllowNoMessage
      (by decide) rfl rfl).1 rfl,
   (recv_message_finish_without_message (Env.sample true true)
      ({ message_ := some 1 } : CallOpRecvMessage) (by decide) rfl rfl).2 rfl⟩

/-- C5, the code at the failing input. A client call with one interceptor that
always proceeds; the transport completes the batch of `FillOps` with status `false`
and the empty follow-up batch with status `true`. The first `FinalizeResult`
leaves `*status` false but returns `false`, so nothing is delivered; the second
returns `true` and hands back status `true`: the attempt is delivered as a
success although the transport reported a failure. -/
theorem intercepted_attempt_delivers_success_after_failure :
    CallOpSet.FinalizeResult (Env.sample true true) [.Proceed] false
        (CallOpSet.FillOps (Env.sample true true) [.Proceed, .Proceed]
          (Call.sample { interceptors_ := 1 })
          (World.sample { interceptors_ := 1 } {})).world =
      .ok { ret := false, tag := none, status := false } []
        (CallOpSet.FinalizeResult (Env.sample true true) [.Proceed] false
          (CallOpSet.FillOps (Env.sample true true) [.Proceed, .Proceed]
            (Call.sample { interceptors_ := 1 })
            (World.sample { interceptors_ := 1 } {})).world).world ∧
    CallOpSet.FinalizeResult (Env.sample true true) [] true
        (CallOpSet.FinalizeResult (Env.sample true true) [.Proceed] false
          (CallOpSet.FillOps (Env.sample true true) [.Proceed, .Proceed]
            (Call.sample { interceptors_ := 1 })
            (World.sample { interceptors_ := 1 } {})).world).world =
      .ok { ret := true, tag := some 20, status := true } []
        (CallOpSet.FinalizeResult (Env.sample true true) [] true
          (CallOpSet.FinalizeResult (Env.sample true true) [.Proceed] false
            (CallOpSet.FillOps (Env.sample true true) [.Proceed, .Proceed]
              (Call.sample { interceptors_ := 1 })
              (World.sample { interceptors_ := 1 } {})).world).world).world := by
  decide

/-- C6. `Hijack` fails its assertion, and the state at the abort is the state it
was called in (registry and slots untouched), whenever the tracker is in the
reverse pass, or no op set is attached, or the call has no client registry (a
server call). This holds for every continuation, so no interceptor is invoked. -/
theorem hijack_rejected_outside_client_forward_pass (run : Int → World → Outcome Unit)
    (w : World)
    (h : w.cs.interceptor_methods_.reverse_ = true ∨ w.cs.interceptor_methods_.ops_ = false ∨
      w.cs.call_.client_rpc_info = none) :
    InterceptorBatchMethodsImpl.Hijack run w = .fatal w := by
  unfold InterceptorBatchMethodsImpl.Hijack
  rcases h with h | h | h
  · simp [h]
  · simp [h]
  · simp only [h]
    split
    · rfl
    · split
      · rfl
      · split <;> rfl

theorem hijack_rejected_outside_client_forward_pass_witness :
    (World.sample { interceptors_ := 2 }
        { call_ := true, ops_ := true, reverse_ := true }).cs.interceptor_methods_.reverse_ =
      true ∧
    Hijack (RunInterceptor (Env.sample true true) [.Proceed])
        (World.sample { interceptors_ := 2 } { call_ := true, ops_ := true, reverse_ := true }) =
      .fatal (World.sample { interceptors_ := 2 }
        { call_ := true, ops_ := true, reverse_ := true }) :=
  ⟨rfl, hijack_rejected_outside_client_forward_pass _ _ (Or.inl rfl)⟩

/-- C7, the claim as stated fails: on a client attempt with two interceptors, the
interceptor at forward index `1` calls `Hijack` and the call is accepted; the
attempt goes on to submit its (empty) batch and the registry records index `1`. -/
theorem hijack_at_index_one_is_accepted :
    (CallOpSet.FillOps (Env.sample true true) [.Proceed, .Hijack, .Proceed]
      (Call.sample { interceptors_ := 2 }) (World.sample { interceptors_ := 2 } {})).isFatal =
      false ∧
    (CallOpSet.FillOps (Env.sample true true) [.Proceed, .Hijack, .Proceed]
      (Call.sample { interceptors_ := 2 })
      (World.sample { interceptors_ := 2 } {})).world.cs.call_.client_rpc_info =
      some { interceptors_ := 2, hijacked_ := true, hijacked_interceptor_ := 1 } ∧
    (CallOpSet.FillOps (Env.sample true true) [.Proceed, .Hijack, .Proceed]
      (Call.sample { interceptors_ := 2 }) (World.sample { interceptors_ := 2 } {})).world.trace =
      [.grpc_call_ref 1, .Intercept 0, .Intercept 1, .Intercept 1,
        .ContinueFillOpsAfterInterception, .grpc_call_start_batch [] 10] := by
  decide

/-- C7, amended. On a client attempt in the forward pass with an op set attached,
`Hijack` is accepted at every current interceptor index `i`, not only at `0`: its
assertion holds, it records `hijacked = true` and `hijacked_interceptor = i`, and
it invokes interceptor `i` again. -/
theorem hijack_accepted_at_every_index (w : World) (rpc : ClientRpcInfo) (i : Int)
    (hi : w.cs.interceptor_methods_.curr_iteration_ = i)
    (hfw : w.cs.interceptor_methods_.reverse_ = false)
    (hops : w.cs.interceptor_methods_.ops_ = true)
    (hcall : w.cs.interceptor_methods_.call_ = true)
    (hc : w.cs.call_.client_rpc_info = some rpc) :
    ∃ w' : World,
      (∀ run, Hijack run w = run i w') ∧
      w'.cs.call_.client_rpc_info =
        some { interceptors_ := rpc.interceptors_, hijacked_ := true,
               hijacked_interceptor_ := i } ∧
      (∀ env, Hijack (RunInterceptor env []) w = .ok () [] (w'.log (.Intercept i))) := by
  obtain ⟨w', hrun, hcall', -⟩ := Hijack_accepted w rpc hfw hops hcall hc
  subst hi
  refine ⟨w', hrun, by rw [hcall'], fun env => ?_⟩
  rw [hrun, RunInterceptor]

theorem hijack_accepted_at_every_index_witness :
    ∃ w' : World,
      Hijack (RunInterceptor (Env.sample true true) [])
          (World.sample { interceptors_ := 3 }
            { call_ := true, ops_ := true, curr_iteration_ := 2 }) =
        .ok () [] (w'.log (.Intercept 2)) ∧
      w'.cs.call_.client_rpc_info =
        some { interceptors_ := 3, hijacked_ := true, hijacked_interceptor_ := 2 } := by
  obtain ⟨w', -, h2, h3⟩ := hijack_accepted_at_every_index
    (World.sample { interceptors_ := 3 } { call_ := true, ops_ := true, curr_iteration_ := 2 })
    { interceptors_ := 3 } 2 rfl rfl rfl rfl rfl
  exact ⟨w', h3 _, h2⟩

/-- C8, the claim as stated fails: on a client attempt with one interceptor, the
interceptor hijacks, is invoked again and hijacks a second time; the second call
is accepted too, the interceptor is invoked a third time and the attempt goes on
to submit its batch. -/
theorem second_hijack_is_accepted :
    (CallOpSet.FillOps (Env.sample true true) [.Hijack, .Hijack, .Proceed]
      (Call.sample { interceptors_ := 1 }) (World.sample { interceptors_ := 1 } {})).isFatal =
      false ∧
    (CallOpSet.FillOps (Env.sample true true) [.Hijack, .Hijack, .Proceed]
      (Call.sample { interceptors_ := 1 }) (World.sample { interceptors_ := 1 } {})).world.trace =
      [.grpc_call_ref 1, .Intercept 0, .Intercept 0, .Intercept 0,
        .ContinueFillOpsAfterInterception, .grpc_call_start_batch [] 10] := by
  decide

/-- C8, amended. A second `Hijack` in the same forward pass is accepted like the
first: on a client attempt in the forward pass with an op set attached, whose
registry already records `hijacked = true` at the current index, `Hijack` passes
its assertion, leaves `hijacked` and `hijacked_interceptor` unchanged and invokes
the interceptor again. -/
theorem second_hijack_accepted_registry_unchanged (w : World) (rpc : ClientRpcInfo)
    (hh : rpc.hijacked_ = true)
    (hidx : rpc.hijacked_interceptor_ = w.cs.interceptor_methods_.curr_iteration_)
    (hfw : w.cs.interceptor_methods_.reverse_ = false)
    (hops : w.cs.interceptor_methods_.ops_ = true)
    (hcall : w.cs.interceptor_methods_.call_ = true)
    (hc : w.cs.call_.client_rpc_info = some rpc) :
    ∃ w' : World,
      (∀ run, Hijack run w = run w.cs.interceptor_methods_.curr_iteration_ w') ∧
      w'.cs.call_.client_rpc_info = some rpc ∧
      (∀ env, Hijack (RunInterceptor env []) w =
        .ok () [] (w'.log (.Intercept w.cs.interceptor_methods_.curr_iteration_))) := by
  obtain ⟨w', hrun, hcall', -⟩ := Hijack_accepted w rpc hfw hops hcall hc
  refine ⟨w', hrun, ?_, fun env => ?_⟩
  · rw [hcall', ← hidx, ← hh]
  · rw [hrun, RunInterceptor]

theorem second_hijack_accepted_registry_unchanged_witness :
    ∃ w' : World,
      Hijack (RunInterceptor (Env.sample true true) [])
          (World.sample { interceptors_ := 2, hijacked_ := true, hijacked_interceptor_ := 1 }
            { call_ := true, ops_ := true, curr_iteration_ := 1,
              ran_hijacking_interceptor_ := true }) =
        .ok () [] (w'.log (.Intercept 1)) ∧
      w'.cs.call_.client_rpc_info =
        some { interceptors_ := 2, hijacked_ := true, hijacked_interceptor_ := 1 } := by
  obtain ⟨w', -, h2, h3⟩ := second_hijack_accepted_registry_unchanged
    (World.sample { interceptors_ := 2, hijacked_ := true, hijacked_interceptor_ := 1 }
      { call_ := true, ops_ := true, curr_iteration_ := 1, ran_hijacking_interceptor_ := true })
    { interceptors_ := 2, hijacked_ := true, hijacked_interceptor_ := 1 } rfl rfl rfl rfl rfl rfl
  exact ⟨w', h3 _, h2⟩

/-- C9. An accepted `Hijack` at forward index `i` (client call, forward pass, op
set attached): the registry gets `hijacked = true` and `hijacked_interceptor = i`;
a hook flag is set exactly when one of the six slots armed it in
`SetHijackingState`, and those are `PRE_RECV_*` flags only; every slot that has a
`hijacked_` member has it set; `ran_hijacking_interceptor_` is set; the counter
is unchanged; and the interceptor at index `i` is invoked again. -/
theorem hijack_accepted_effect (w : World) (rpc : ClientRpcInfo) (i : Int)
    (hi : w.cs.interceptor_methods_.curr_iteration_ = i)
    (hfw : w.cs.interceptor_methods_.reverse_ = false)
    (hops : w.cs.interceptor_methods_.ops_ = true)
    (hcall : w.cs.interceptor_methods_.call_ = true)
    (hc : w.cs.call_.client_rpc_info = some rpc) :
    ∃ w' : World,
      (∀ run, Hijack run w = run i w') ∧
      (∀ env, Hijack (RunInterceptor env []) w = .ok () [] (w'.log (.Intercept i))) ∧
      w'.trace = w.trace ∧
      w'.cs.call_.client_rpc_info =
        some { interceptors_ := rpc.interceptors_, hijacked_ := true,
               hijacked_interceptor_ := i } ∧
      (∀ hp, w'.cs.interceptor_methods_.QueryInterceptionHookPoint hp = true ↔
        (w.cs.op1.hijackHook = some hp ∨ w.cs.op2.hijackHook = some hp ∨
          w.cs.op3.hijackHook = some hp ∨ w.cs.op4.hijackHook = some hp ∨
          w.cs.op5.hijackHook = some hp ∨ w.cs.op6.hijackHook = some hp)) ∧
      (∀ hp, hp ≠ .PRE_RECV_INITIAL_METADATA → hp ≠ .PRE_RECV_MESSAGE →
        hp ≠ .PRE_RECV_STATUS →
        w'.cs.interceptor_methods_.QueryInterceptionHookPoint hp = false) ∧
      (w'.cs.op1.isHijacked ∧ w'.cs.op2.isHijacked ∧ w'.cs.op3.isHijacked ∧
        w'.cs.op4.isHijacked ∧ w'.cs.op5.isHijacked ∧ w'.cs.op6.isHijacked) ∧
      w'.cs.interceptor_methods_.ran_hijacking_interceptor_ = true ∧
      w'.cs.interceptor_methods_.curr_iteration_ = i ∧
      w'.cs.interceptor_methods_.reverse_ = false := by
  obtain ⟨w', hrun, hcall', hctl, htr, -, -, -, hslots, hhooks⟩ :=
    Hijack_accepted w rpc hfw hops hcall hc
  obtain ⟨c1, c2, c3, -, -, -⟩ := hctl
  subst hi
  refine ⟨w', hrun, fun env => by rw [hrun, RunInterceptor], htr, by rw [hcall'], hhooks,
    fun hp h1 h2 h3 => ?_, hslots, c3, c1, c2.trans hfw⟩
  cases hq : w'.cs.interceptor_methods_.QueryInterceptionHookPoint hp with
  | false => rfl
  | true =>
    exfalso
    have hk : ∀ slot : Slot, slot.hijackHook = some hp → False := fun slot hs => by
      rcases Slot.hijackHook_pre_recv slot hp hs with h | h | h
      · exact h1 h
      · exact h2 h
      · exact h3 h
    rcases (hhooks hp).1 hq with h | h | h | h | h | h <;> exact hk _ h

theorem hijack_accepted_effect_witness :
    ∃ w' : World,
      Hijack (RunInterceptor (Env.sample true true) [])
          (World.sample { interceptors_ := 2 }
            { call_ := true, ops_ := true, curr_iteration_ := 1 }) =
        .ok () [] (w'.log (.Intercept 1)) ∧
      w'.cs.call_.client_rpc_info =
        some { interceptors_ := 2, hijacked_ := true, hijacked_interceptor_ := 1 } ∧
      w'.cs.interceptor_methods_.QueryInterceptionHookPoint .PRE_RECV_MESSAGE = true ∧
      w'.cs.interceptor_methods_.QueryInterceptionHookPoint .PRE_SEND_MESSAGE = false ∧
      w'.cs.interceptor_methods_.ran_hijacking_interceptor_ = true ∧
      w'.cs.interceptor_methods_.curr_iteration_ = 1 := by
  obtain ⟨w', -, h2, -, h3, h4, h5, -, h7, h8, -⟩ := hijack_accepted_effect
    (World.sample { interceptors_ := 2 } { call_ := true, ops_ := true, curr_iteration_ := 1 })
    { interceptors_ := 2 } 1 rfl rfl rfl rfl rfl
  exact ⟨w', h2 _, h3, (h4 _).2 (by decide), h5 _ (by decide) (by decide) (by decide), h7, h8⟩

/-- C10, the claim as stated fails: on a client attempt with two interceptors the
interceptor at index `0` hijacks and then proceeds; although `0 + 1 < 2`, the
interceptor at index `1` is never invoked: the chain leaves to batch submission
and one script action stays unconsumed. -/
theorem interceptor_after_hijack_point_not_run :
    CallOpSet.FillOps (Env.sample true true) [.Hijack, .Proceed, .Proceed]
        (Call.sample { interceptors_ := 2 }) (World.sample { interceptors_ := 2 } {}) =
      .ok () [.Proceed]
        (CallOpSet.FillOps (Env.sample true true) [.Hijack, .Proceed, .Proceed]
          (Call.sample { interceptors_ := 2 }) (World.sample { interceptors_ := 2 } {})).world ∧
    Event.Intercept 1 ∉
      (CallOpSet.FillOps (Env.sample true true) [.Hijack, .Proceed, .Proceed]
        (Call.sample { interceptors_ := 2 })
        (World.sample { interceptors_ := 2 } {})).world.trace ∧
    (CallOpSet.FillOps (Env.sample true true) [.Hijack, .Proceed, .Proceed]
      (Call.sample { interceptors_ := 2 }) (World.sample { interceptors_ := 2 } {})).world.trace =
      [.grpc_call_ref 1, .Intercept 0, .Intercept 0,
        .ContinueFillOpsAfterInterception, .grpc_call_start_batch [] 10] := by
  decide

/-- C10, amended. In the forward pass of a hijacked client attempt with hijack
index `h`, when the hijacking interceptor (already invoked with the hijack
applied) proceeds, the chain leaves at once through
`ContinueFillOpsAfterInterception` with the counter at `h + 1`, whether or not
`h + 1 < N`: no interceptor after the hijack point is invoked in the forward
pass. -/
theorem proceed_after_hijack_leaves_chain (env : Env) (w : World) (rpc : ClientRpcInfo)
    (h : Int)
    (hc : w.cs.call_.client_rpc_info = some rpc) (hh : rpc.hijacked_ = true)
    (hidx : rpc.hijacked_interceptor_ = h)
    (hcur : w.cs.interceptor_methods_.curr_iteration_ = h)
    (hfw : w.cs.interceptor_methods_.reverse_ = false)
    (hran : w.cs.interceptor_methods_.ran_hijacking_interceptor_ = true)
    (hcall : w.cs.interceptor_methods_.call_ = true)
    (hops : w.cs.interceptor_methods_.ops_ = true) :
    (∀ rest run, Proceed env rest run w =
      CallOpSet.ContinueFillOpsAfterInterception env rest (w.atIndex (h + 1) w.trace)) ∧
    (∀ rest, RunInterceptor env (.Proceed :: rest) h w =
      CallOpSet.ContinueFillOpsAfterInterception env rest
        (w.atIndex (h + 1) (w.trace ++ [.Intercept h]))) ∧
    ((∀ ops, env.start_batch_ok ops = true) →
      ∀ rest, (RunInterceptor env (.Proceed :: rest) h w).world.trace =
        w.trace ++ [.Intercept h, .ContinueFillOpsAfterInterception,
          .grpc_call_start_batch (CallOpSet.AddOps w.cs).2 w.cs.cq_tag_]) := by
  subst hidx
  have key : ∀ rest run tr, Proceed env rest run (w.atIndex rpc.hijacked_interceptor_ tr) =
      CallOpSet.ContinueFillOpsAfterInterception env rest
        (w.atIndex (rpc.hijacked_interceptor_ + 1) tr) := fun rest run tr =>
    Proceed_client_after_hijack env rest run w rpc tr hc hh hfw hran hcall hops
  have hself : w.atIndex rpc.hijacked_interceptor_ w.trace = w := by
    rw [← hcur]; rfl
  have hlog : w.log (.Intercept rpc.hijacked_interceptor_) =
      w.atIndex rpc.hijacked_interceptor_ (w.trace ++ [.Intercept rpc.hijacked_interceptor_]) := by
    rw [← hcur]; rfl
  have h2 : ∀ rest, RunInterceptor env (.Proceed :: rest) rpc.hijacked_interceptor_ w =
      CallOpSet.ContinueFillOpsAfterInterception env rest
        (w.atIndex (rpc.hijacked_interceptor_ + 1)
          (w.trace ++ [.Intercept rpc.hijacked_interceptor_])) := fun rest => by
    rw [RunInterceptor, hlog, key]
  refine ⟨fun rest run => ?_, h2, fun hacc rest => ?_⟩
  · have := key rest run w.trace
    rwa [hself] at this
  · rw [h2, ContinueFillOps_accepted env hacc]
    simp [Outcome.world, World.atIndex, CallOpSet.AddOps]

theorem proceed_after_hijack_leaves_chain_witness :
    (RunInterceptor (Env.sample true true) [.Proceed, .Proceed] 0
        (Hijack (fun _ w => .ok () [] w)
          (World.sample { interceptors_ := 3 } { call_ := true, ops_ := true })).world).world.trace =
      [.Intercept 0, .ContinueFillOpsAfterInterception, .grpc_call_start_batch [] 10] :=
  (proceed_after_hijack_leaves_chain (Env.sample true true)
    (Hijack (fun _ w => .ok () [] w)
      (World.sample { interceptors_ := 3 } { call_ := true, ops_ := true })).world
    { interceptors_ := 3, hijacked_ := true, hijacked_interceptor_ := 0 } 0
    (by decide) rfl rfl (by decide) (by decide) (by decide) (by decide) (by decide)).2.2
    (fun _ => rfl) [.Proceed]

/-- C11, the claim as stated fails: on a client attempt with three interceptors
the interceptor at index `1` hijacks in the forward pass and proceeds; the
reverse pass started by the completion then begins at the recorded hijack index
`1`, not at `N - 1 = 2`: it invokes `1`, `0`, and the interceptor at index `2` is
invoked in neither pass. -/
theorem reverse_pass_of_hijacked_call_skips_last_interceptor :
    (CallOpSet.FinalizeResult (Env.sample true true) [.Proceed, .Proceed, .Proceed] true
      (CallOpSet.FillOps (Env.sample true true) [.Proceed, .Hijack, .Proceed]
        (Call.sample { interceptors_ := 3 })
        (World.sample { interceptors_ := 3 } {})).world).world.trace =
      [.grpc_call_ref 1, .Intercept 0, .Intercept 1, .Intercept 1,
        .ContinueFillOpsAfterInterception, .grpc_call_start_batch [] 10,
        .Intercept 1, .Intercept 0,
        .ContinueFinalizeResultAfterInterception, .grpc_call_start_batch [] 10] ∧
    Event.Intercept 2 ∉
      (CallOpSet.FinalizeResult (Env.sample true true) [.Proceed, .Proceed, .Proceed] true
        (CallOpSet.FillOps (Env.sample true true) [.Proceed, .Hijack, .Proceed]
          (Call.sample { interceptors_ := 3 })
          (World.sample { interceptors_ := 3 } {})).world).world.trace ∧
    (CallOpSet.FillOps (Env.sample true true) [.Proceed, .Hijack, .Proceed]
        (Call.sample { interceptors_ := 3 })
        (World.sample { interceptors_ := 3 } {})).world.cs.call_.client_rpc_info =
      some { interceptors_ := 3, hijacked_ := true, hijacked_interceptor_ := 1 } := by
  decide

/-- C11, amended. For a client attempt with `N ≥ 1` interceptors, the reverse pass
starts at index `N - 1` when the call was not hijacked and at the recorded hijack
index `h` when it was: whatever the interceptors do then, `RunInterceptors` sets
the counter to that index and invokes that interceptor first; when every
interceptor proceeds, the pass invokes `N-1, ..., 0`, respectively `h, ..., 0`, in
that order, once each, and then is one call of
`ContinueFinalizeResultAfterInterception`. -/
theorem reverse_pass_start_index (env : Env) (w : World) (rpc : ClientRpcInfo)
    (extra : List InterceptorAction)
    (hc : w.cs.call_.client_rpc_info = some rpc) (hN : 1 ≤ rpc.interceptors_)
    (hrev : w.cs.interceptor_methods_.reverse_ = true)
    (hcall : w.cs.interceptor_methods_.call_ = true)
    (hops : w.cs.interceptor_methods_.ops_ = true) :
    (∀ script, RunInterceptors env script w =
      (RunInterceptor env script
        (if rpc.hijacked_ then rpc.hijacked_interceptor_ else (rpc.interceptors_ : Int) - 1)
        (w.atIndex
          (if rpc.hijacked_ then rpc.hijacked_interceptor_ else (rpc.interceptors_ : Int) - 1)
          w.trace)).withVal false) ∧
    (rpc.hijacked_ = false →
      RunInterceptors env (List.replicate rpc.interceptors_ .Proceed ++ extra) w =
        (CallOpSet.ContinueFinalizeResultAfterInterception env extra
          (w.atIndex (-1) (w.trace ++ interceptsDown rpc.interceptors_))).withVal false) ∧
    (∀ h : Nat, rpc.hijacked_ = true → rpc.hijacked_interceptor_ = (h : Int) →
      RunInterceptors env (List.replicate (h + 1) .Proceed ++ extra) w =
        (CallOpSet.ContinueFinalizeResultAfterInterception env extra
          (w.atIndex (-1) (w.trace ++ interceptsDown (h + 1)))).withVal false) := by
  refine ⟨fun script => ?_, fun hnh => ?_, fun h hh hidx => ?_⟩
  · have := RunInterceptors_client env script w rpc hc hN hcall
    simpa [hrev] using this
  · obtain ⟨n, hn⟩ : ∃ n, rpc.interceptors_ = n + 1 := ⟨rpc.interceptors_ - 1, by omega⟩
    have := RunInterceptors_reverse_all env w rpc n extra hc hN (by simp [hnh, hn]) hrev
      hcall hops
    rwa [← hn] at this
  · exact RunInterceptors_reverse_all env w rpc h extra hc hN (by simp [hh, hidx]) hrev
      hcall hops

theorem reverse_pass_start_index_witness :
    (RunInterceptors (Env.sample true true) [.Proceed, .Proceed, .Proceed]
        (World.sample { interceptors_ := 3, hijacked_ := true, hijacked_interceptor_ := 1 }
          { call_ := true, ops_ := true, reverse_ := true })).world.trace =
      [.Intercept 1, .Intercept 0, .ContinueFinalizeResultAfterInterception,
        .grpc_call_start_batch [] 10] := by
  have h := (reverse_pass_start_index (Env.sample true true)
    (World.sample { interceptors_ := 3, hijacked_ := true, hijacked_interceptor_ := 1 }
      { call_ := true, ops_ := true, reverse_ := true })
    { interceptors_ := 3, hijacked_ := true, hijacked_interceptor_ := 1 } [.Proceed]
    rfl (by decide) rfl rfl rfl).2.2 1 rfl rfl
  rw [show ([.Proceed, .Proceed, .Proceed] : List InterceptorAction) =
    List.replicate (1 + 1) .Proceed ++ [.Proceed] from rfl, h]
  decide

/-- C14: the code evaluated at the failing input, `FillOps` on an op set that has
completed one attempt and has a message and a close pending again. On a call
without interceptors it submits the array of the two pending operations through
`ContinueFillOpsAfterInterception`. On a client call with one interceptor that
proceeds, without hijacking, it runs the interceptor and ends in
`ContinueFinalizeResultAfterInterception`, which submits an empty array: the
tracker is still in the reverse direction of the earlier attempt. -/
theorem fill_ops_array_differs_on_reused_op_set :
    World.sampleReused.cs.interceptor_methods_.reverse_ = true ∧
    (CallOpSet.FillOps (Env.sample true true) [] (Call.sample {})
        World.sampleReused).world.trace =
      World.sampleReused.trace ++
        [.grpc_call_ref 1, .ContinueFillOpsAfterInterception,
          .grpc_call_start_batch
            [.GRPC_OP_SEND_MESSAGE 0 (some [0]), .GRPC_OP_SEND_CLOSE_FROM_CLIENT 0] 10] ∧
    (CallOpSet.FillOps (Env.sample true true) [.Proceed]
        (Call.sample { interceptors_ := 1 }) World.sampleReused).world.trace =
      World.sampleReused.trace ++
        [.grpc_call_ref 1, .Intercept 0, .ContinueFinalizeResultAfterInterception,
          .grpc_call_start_batch [] 10] ∧
    (CallOpSet.FillOps (Env.sample true true) [.Proceed]
        (Call.sample { interceptors_ := 1 }) World.sampleReused).isFatal = false ∧
    ((CallOpSet.FillOps (Env.sample true true) [] (Call.sample {})
        World.sampleReused).world.trace.filter Event.isBatch).getLast? ≠
      ((CallOpSet.FillOps (Env.sample true true) [.Proceed]
        (Call.sample { interceptors_ := 1 }) World.sampleReused).world.trace.filter
          Event.isBatch).getLast? := by
  decide

/-- On a fresh tracker (the direction flag `reverse_` is `false`), for every
configuration of the six slots and of the rest of the op set, and a transport
that accepts the batch: `FillOps` on a call
without client interceptors and `FillOps` on a client call whose `N ≥ 1`
interceptors all proceed, without hijacking, both complete and submit exactly
one batch, with the same operation array, the one the six `AddOp` calls build
from the slots as they were handed in, under the same transport tag; the
intercepted run only adds the `N` interceptor invocations in front of it. -/
theorem fill_ops_array_same_with_proceeding_interceptors (env : Env) (w0 : World)
    (call0 call1 : Call) (rpc : ClientRpcInfo) (extra : List InterceptorAction)
    (hacc : ∀ ops, env.start_batch_ok ops = true)
    (hfresh : w0.cs.interceptor_methods_.reverse_ = false)
    (hnone : ∀ r, call0.client_rpc_info = some r → r.interceptors_ = 0)
    (hc : call1.client_rpc_info = some rpc) (hN : 1 ≤ rpc.interceptors_)
    (hnh : rpc.hijacked_ = false) :
    ∃ wa wb : World,
      CallOpSet.FillOps env extra call0 w0 = .ok () extra wa ∧
      CallOpSet.FillOps env (List.replicate rpc.interceptors_ .Proceed ++ extra) call1 w0 =
        .ok () extra wb ∧
      wa.trace = w0.trace ++ [.grpc_call_ref call0.call, .ContinueFillOpsAfterInterception,
        .grpc_call_start_batch (CallOpSet.AddOps w0.cs).2 w0.cs.cq_tag_] ∧
      wb.trace = w0.trace ++ [.grpc_call_ref call1.call] ++ interceptsUp rpc.interceptors_ ++
        [.ContinueFillOpsAfterInterception,
          .grpc_call_start_batch (CallOpSet.AddOps w0.cs).2 w0.cs.cq_tag_] ∧
      wa.trace.filter Event.isBatch = w0.trace.filter Event.isBatch ++
        [.grpc_call_start_batch (CallOpSet.AddOps w0.cs).2 w0.cs.cq_tag_] ∧
      wb.trace.filter Event.isBatch = wa.trace.filter Event.isBatch := by
  obtain ⟨Wa, hFa, hcallA, htrA, ha1, -, -, hcqA, hopsA⟩ :=
    FillOps_prelude_ops env extra call0 w0
  obtain ⟨Wb, hFb, hcallB, htrB, hb1, hb2, hrevB, hcqB, hopsB⟩ :=
    FillOps_prelude_ops env (List.replicate rpc.interceptors_ .Proceed ++ extra) call1 w0
  rw [RunInterceptors_none env extra Wa ha1 (by rw [hcallA]; exact hnone)] at hFa
  simp only [ContinueFillOps_accepted env hacc] at hFa
  obtain ⟨V, hV⟩ : ∃ V : World, V = Wb.atIndex (rpc.interceptors_ : Int)
      (Wb.trace ++ interceptsUp rpc.interceptors_) := ⟨_, rfl⟩
  have hVtr : V.trace = w0.trace ++ [.grpc_call_ref call1.call] ++
      interceptsUp rpc.interceptors_ := by rw [hV, ← htrB]; rfl
  have hVcq : V.cs.cq_tag_ = w0.cs.cq_tag_ := by rw [hV]; exact hcqB
  have hVops : (CallOpSet.AddOps V.cs).2 = (CallOpSet.AddOps w0.cs).2 := by
    rw [hV]
    exact (CallOpSet.AddOps_of_slots _ _ rfl rfl rfl rfl rfl rfl).trans hopsB
  rw [RunInterceptors_forward_all env Wb rpc extra (by rw [hcallB]; exact hc) hN hnh
    (hrevB.trans hfresh) hb1 hb2, ← hV, ContinueFillOps_accepted env hacc] at hFb
  simp only [Outcome.withVal] at hFb
  clear hV
  have hup : (interceptsUp rpc.interceptors_).filter Event.isBatch = [] := by
    rw [List.filter_eq_nil_iff]
    intro e he
    simp only [interceptsUp, List.mem_map] at he
    obtain ⟨j, -, rfl⟩ := he
    simp [Event.isBatch]
  refine ⟨_, _, hFa, hFb, ?_, ?_, ?_, ?_⟩
  · simp [htrA, hcqA, hopsA]
  · simp [hVtr, hVcq, hVops]
  · simp [htrA, hcqA, hopsA, List.filter_append, List.filter, Event.isBatch]
  · simp [htrA, hcqA, hopsA, hVtr, hVcq, hVops, List.filter_append, List.filter,
      Event.isBatch, hup]

theorem fill_ops_array_same_with_proceeding_interceptors_witness :
    ∃ wa wb : World,
      CallOpSet.FillOps (Env.sample true true) [] (Call.sample {})
        (World.sample {} {}) = .ok () [] wa ∧
      CallOpSet.FillOps (Env.sample true true) [.Proceed, .Proceed]
        (Call.sample { interceptors_ := 2 }) (World.sample {} {}) = .ok () [] wb ∧
      wa.trace.filter Event.isBatch =
        [.grpc_call_start_batch
          [.GRPC_OP_SEND_INITIAL_METADATA 0 1 (some [{ key := "k1", value := "v1" }]) none,
            .GRPC_OP_SEND_MESSAGE 0 (some [7]), .GRPC_OP_RECV_INITIAL_METADATA 0,
            .GRPC_OP_RECV_MESSAGE 0, .GRPC_OP_SEND_CLOSE_FROM_CLIENT 0,
            .GRPC_OP_RECV_STATUS_ON_CLIENT 0] 10] ∧
      wb.trace.filter Event.isBatch = wa.trace.filter Event.isBatch := by
  obtain ⟨wa, wb, h1, h2, -, -, h5, h6⟩ :=
    fill_ops_array_same_with_proceeding_interceptors (Env.sample true true)
      (World.sample {} {}) (Call.sample {}) (Call.sample { interceptors_ := 2 })
      { interceptors_ := 2 } [] (fun _ => rfl) rfl (by decide) rfl (by decide) rfl
  exact ⟨wa, wb, h1, h2, h5, h6⟩

/-- C15. For every metadata multimap `m` (read in iteration order) and every
error-detail string `d`: the count stored by `FillMetadataArray` is
`m.size() + (0 if d is empty else 1)`; the returned array is null exactly when
that count is `0`; otherwise it lists the key/value pairs of `m` in iteration
order, followed, only when `d` is non-empty, by one last pair under the reserved
binary error-details key with value `d`. On `k1 ↦ v1, k1 ↦ v2` this gives two
entries for `d = ""` and three, the third under the reserved key, for
`d = "abc"`. -/
theorem fill_metadata_array_contents (m : Metadata) (d : String) :
    (FillMetadataArray m d).2 = m.length + (if d = "" then 0 else 1) ∧
    ((FillMetadataArray m d).1 = none ↔ (FillMetadataArray m d).2 = 0) ∧
    (FillMetadataArray m d).1 =
      (if m.length + (if d = "" then 0 else 1) = 0 then none
        else some (m.map (fun kv => ({ key := kv.1, value := kv.2 } : grpc_metadata)) ++
          (if d = "" then [] else [{ key := kBinaryErrorDetailsKey, value := d }]))) ∧
    FillMetadataArray [("k1", "v1"), ("k1", "v2")] "" =
      (some [{ key := "k1", value := "v1" }, { key := "k1", value := "v2" }], 2) ∧
    FillMetadataArray [("k1", "v1"), ("k1", "v2")] "abc" =
      (some [{ key := "k1", value := "v1" }, { key := "k1", value := "v2" },
        { key := kBinaryErrorDetailsKey, value := "abc" }], 3) := by
  refine ⟨?_, ?_, ?_, by decide, by decide⟩ <;>
    by_cases hd : d = "" <;> by_cases hm : m = [] <;> simp [FillMetadataArray, hd, hm]

/-- C16, the claim as stated fails: inserting `b ↦ 1` and then `a ↦ 2` into a
metadata multimap gives an array that lists `a ↦ 2` first. -/
theorem metadata_array_not_in_insertion_order :
    FillMetadataArray (multimap_of [("b", "1"), ("a", "2")]) "" =
      (some [{ key := "a", value := "2" }, { key := "b", value := "1" }], 2) ∧
    entries (FillMetadataArray (multimap_of [("b", "1"), ("a", "2")]) "").1 ≠
      [("b", "1"), ("a", "2")] := by
  have hba : ¬ (("b" : String) ≤ "a") := by
    rw [not_le, String.lt_iff_toList_lt]; decide
  have hm : multimap_of [("b", "1"), ("a", "2")] = [("a", "2"), ("b", "1")] := by
    simp [multimap_of, multimap_insert, hba]
  rw [hm]
  exact ⟨by decide, by decide⟩

/-- C16, amended. For every sequence of insertions into a metadata multimap
(duplicate keys allowed), the array built by `FillMetadataArray` lists the
entries in ascending key order, and the entries of any one key in the order in
which they were inserted; so the array is in insertion order exactly when the
insertions arrive in non-descending key order, for instance when all keys are
equal. -/
theorem metadata_array_in_key_order (ins : List (String × String)) :
    entries (FillMetadataArray (multimap_of ins) "").1 = multimap_of ins ∧
    (entries (FillMetadataArray (multimap_of ins) "").1).Pairwise (fun a b => a.1 ≤ b.1) ∧
    (∀ k : String,
      (entries (FillMetadataArray (multimap_of ins) "").1).filter (fun e => decide (e.1 = k)) =
        ins.filter (fun e => decide (e.1 = k))) ∧
    (ins.Pairwise (fun a b => a.1 ≤ b.1) →
      entries (FillMetadataArray (multimap_of ins) "").1 = ins) ∧
    (entries (FillMetadataArray (multimap_of ins) "").1 = ins →
      ins.Pairwise (fun a b => a.1 ≤ b.1)) := by
  rw [entries_FillMetadataArray]
  refine ⟨rfl, multimap_of_sorted ins, fun k => multimap_of_filter ins k,
    multimap_of_ascending ins, fun h => ?_⟩
  rw [← h]
  exact multimap_of_sorted ins

theorem metadata_array_in_key_order_witness :
    entries (FillMetadataArray (multimap_of [("k1", "v1"), ("k1", "v2")]) "").1 =
      [("k1", "v1"), ("k1", "v2")] :=
  (metadata_array_in_key_order [("k1", "v1"), ("k1", "v2")]).2.2.2.1
    (by simp [le_refl])

/-- C17. Status round trip. For every status (code, message, binary detail) and
every trailing-metadata map that does not contain the reserved key, on slots that
are not hijacked: `ServerSendStatus` followed by `AddOp` appends exactly one op,
which carries the code, the message as status details (absent when the message is
empty) and, as trailing metadata, the entries of the map followed by the detail
under the reserved key (absent when the detail is empty); and when the transport
delivers exactly these values to a `CallOpClientRecvStatus` on which
`ClientRecvStatus` was called, its `FinishOp` stores a `Status` with the
identical code, message and binary detail, and leaves `*status` alone. -/
theorem status_round_trip (st : Status) (md : Metadata) (s : CallOpServerSendStatus)
    (c : CallOpClientRecvStatus) (ops : List grpc_op) (tm : Metadata) (dbg : String)
    (target : Status) (status : Bool)
    (hmd : ∀ kv ∈ md, kv.1 ≠ kBinaryErrorDetailsKey)
    (hs : s.hijacked_ = false) (hc : c.hijacked_ = false) :
    ((s.ServerSendStatus md st).AddOp ops).2 =
      ops ++ [.GRPC_OP_SEND_STATUS_FROM_SERVER 0
        (md.length + (if st.error_details = "" then 0 else 1))
        (FillMetadataArray md st.error_details).1 st.error_code
        (if st.error_message = "" then none else some st.error_message)] ∧
    entries (FillMetadataArray md st.error_details).1 =
      md ++ (if st.error_details = "" then []
        else [(kBinaryErrorDetailsKey, st.error_details)]) ∧
    ((((c.ClientRecvStatus tm dbg target).deliver
        (.GRPC_OP_SEND_STATUS_FROM_SERVER 0
          (md.length + (if st.error_details = "" then 0 else 1))
          (FillMetadataArray md st.error_details).1 st.error_code
          (if st.error_message = "" then none else some st.error_message))).FinishOp
        status).1.recv_status_target = st) ∧
    ((((c.ClientRecvStatus tm dbg target).deliver
        (.GRPC_OP_SEND_STATUS_FROM_SERVER 0
          (md.length + (if st.error_details = "" then 0 else 1))
          (FillMetadataArray md st.error_details).1 st.error_code
          (if st.error_message = "" then none else some st.error_message))).FinishOp
        status).2 = status) := by
  have hdet := GetBinaryErrorDetails_appended md st.error_details hmd
  refine ⟨?_, ?_, ?_, ?_⟩
  · have hcount : (FillMetadataArray md st.error_details).2 =
        md.length + (if st.error_details = "" then 0 else 1) := by
      by_cases hd : st.error_details = "" <;> by_cases hm : md = [] <;>
        simp [FillMetadataArray, hd, hm]
    simp [CallOpServerSendStatus.ServerSendStatus, CallOpServerSendStatus.AddOp, hs, hcount]
  · by_cases hd : st.error_details = "" <;> by_cases hm : md = [] <;>
      simp [entries, FillMetadataArray, hd, hm, List.map_map, Function.comp_def]
  · simp only [CallOpClientRecvStatus.ClientRecvStatus, CallOpClientRecvStatus.deliver,
      CallOpClientRecvStatus.FinishOp, hc, Bool.not_true, Bool.or_self, Bool.false_eq_true,
      ↓reduceIte, hdet]
    cases st with
    | mk code msg det =>
      by_cases hmsg : msg = "" <;> simp [hmsg]
  · simp [CallOpClientRecvStatus.ClientRecvStatus, CallOpClientRecvStatus.deliver,
      CallOpClientRecvStatus.FinishOp, hc]

theorem status_round_trip_witness :
    ((CallOpServerSendStatus.ServerSendStatus {} [("a", "b")]
        { error_code := 5, error_message := "not found",
          error_details := "\x01\x02" }).AddOp []).2 =
      [.GRPC_OP_SEND_STATUS_FROM_SERVER 0 2
        (some [{ key := "a", value := "b" },
          { key := "grpc-status-details-bin", value := "\x01\x02" }]) 5
        (some "not found")] ∧
    (((CallOpClientRecvStatus.ClientRecvStatus {} [] ""
          { error_code := 0, error_message := "", error_details := "" }).deliver
        (.GRPC_OP_SEND_STATUS_FROM_SERVER 0 2
          (some [{ key := "a", value := "b" },
            { key := "grpc-status-details-bin", value := "\x01\x02" }]) 5
          (some "not found"))).FinishOp true).1.recv_status_target =
      { error_code := 5, error_message := "not found", error_details := "\x01\x02" } := by
  have h := status_round_trip
    { error_code := 5, error_message := "not found", error_details := "\x01\x02" }
    [("a", "b")] {} {} [] [] ""
    { error_code := 0, error_message := "", error_details := "" } true
    (by decide) rfl rfl
  exact ⟨by decide, h.2.2.1⟩

/-- C18, the claim as stated fails: when serialization fails and leaves no send
buffer, `AddOp` returns before it clears the write options, and after `FinishOp`
the slot still stores the flags of `options` (here `2`); no op was added. -/
theorem write_options_kept_when_serialization_leaves_no_buffer :
    (((CallOpSendMessage.SendMessage Env.sampleSerializeFails {} 1 { flags_ := 2 }).1.AddOp
        []).1.FinishOp true).1.write_options_.flags = 2 ∧
    (CallOpSendMessage.SendMessage Env.sampleSerializeFails {} 1 { flags_ := 2 }).2 = false ∧
    (CallOpSendMessage.SendMessage Env.sampleSerializeFails {} 1
      { flags_ := 2 }).1.send_buf_.Valid = false ∧
    ((CallOpSendMessage.SendMessage Env.sampleSerializeFails {} 1 { flags_ := 2 }).1.AddOp
      []).2 = [] := by
  decide

/-- C18, amended. After a `CallOpSendMessage` slot has been taken through an
attempt (`SendMessage(message, options)`, then `AddOp`, then `FinishOp`): when
`SendMessage` left a valid send buffer and the slot is not hijacked, `AddOp`
adds the send-message op with the flags of `options` and the stored flags are
`0` afterwards, for every `options`; when it left no valid buffer, or the slot
is hijacked, `AddOp` adds nothing and the stored flags are still those of
`options`. In both cases the send buffer is released. -/
theorem write_options_cleared_when_message_op_added (env : Env) (s : CallOpSendMessage)
    (message : Nat) (options : WriteOptions) (ops : List grpc_op) (status : Bool) :
    ((CallOpSendMessage.SendMessage env s message options).1.send_buf_.Valid = true ∧
        s.hijacked_ = false →
      (((CallOpSendMessage.SendMessage env s message options).1.AddOp ops).1.FinishOp
        status).1.write_options_.flags = 0 ∧
      ((CallOpSendMessage.SendMessage env s message options).1.AddOp ops).2 =
        ops ++ [.GRPC_OP_SEND_MESSAGE options.flags
          (CallOpSendMessage.SendMessage env s message options).1.send_buf_.buffer_]) ∧
    ((CallOpSendMessage.SendMessage env s message options).1.send_buf_.Valid = false ∨
        s.hijacked_ = true →
      (((CallOpSendMessage.SendMessage env s message options).1.AddOp ops).1.FinishOp
        status).1.write_options_.flags = options.flags ∧
      ((CallOpSendMessage.SendMessage env s message options).1.AddOp ops).2 = ops) ∧
    (((CallOpSendMessage.SendMessage env s message options).1.AddOp ops).1.FinishOp
      status).1.send_buf_.Valid = false := by
  have hh : (CallOpSendMessage.SendMessage env s message options).1.hijacked_ = s.hijacked_ := by
    unfold CallOpSendMessage.SendMessage
    simp only
    split <;> split <;> rfl
  have hw : (CallOpSendMessage.SendMessage env s message options).1.write_options_.flags_ =
      options.flags_ := by
    unfold CallOpSendMessage.SendMessage
    simp only
    split <;> split <;> rfl
  refine ⟨fun h => ?_, fun h => ?_, ?_⟩
  · obtain ⟨hv, hn⟩ := h
    simp [CallOpSendMessage.AddOp, CallOpSendMessage.FinishOp, hv, hh, hn, hw,
      WriteOptions.flags, WriteOptions.Clear]
  · have hg : (!(CallOpSendMessage.SendMessage env s message options).1.send_buf_.Valid ||
        (CallOpSendMessage.SendMessage env s message options).1.hijacked_) = true := by
      rcases h with h | h
      · simp [h]
      · simp [hh, h]
    simp [CallOpSendMessage.AddOp, CallOpSendMessage.FinishOp, hg, hw, WriteOptions.flags]
  · simp only [CallOpSendMessage.AddOp, CallOpSendMessage.FinishOp]
    split <;> rfl

theorem write_options_cleared_when_message_op_added_witness :
    (((CallOpSendMessage.SendMessage (Env.sample true true) {} 1 { flags_ := 2 }).1.AddOp
        []).1.FinishOp true).1.write_options_.flags = 0 ∧
    ((CallOpSendMessage.SendMessage (Env.sample true true) {} 1 { flags_ := 2 }).1.AddOp []).2 =
      [.GRPC_OP_SEND_MESSAGE 2 (some [0])] :=
  (write_options_cleared_when_message_op_added (Env.sample true true) {} 1 { flags_ := 2 } []
    true).1 ⟨by decide, rfl⟩

/-- C19. Copy-constructing a `CallOpSet` from another, or assigning another to
it, yields an object whose `cq_tag` and `return_tag` are both the destination
object itself, whatever tags the source had, whose `done_intercepting_` flag is
false whatever the source's is, whose interceptor tracker is in its initial state
(no hook point set, index `0`, forward direction, hijacking interceptor not run,
no op set or call attached), and whose call handle is the source's. -/
theorem copy_and_assignment_start_fresh (this : Nat) (raw self other : CallOpSet) :
    ((CallOpSet.copy_construct this raw other).cq_tag = this ∧
      (CallOpSet.copy_construct this raw other).return_tag_ = this ∧
      (CallOpSet.copy_construct this raw other).done_intercepting_ = false ∧
      (CallOpSet.copy_construct this raw other).interceptor_methods_ = {} ∧
      (CallOpSet.copy_construct this raw other).call_ = other.call_) ∧
    ((CallOpSet.assign this self other).cq_tag = this ∧
      (CallOpSet.assign this self other).return_tag_ = this ∧
      (CallOpSet.assign this self other).done_intercepting_ = false ∧
      (CallOpSet.assign this self other).interceptor_methods_ = {} ∧
      (CallOpSet.assign this self other).call_ = other.call_) ∧
    ((∀ hp, ({} : InterceptorBatchMethodsImpl).QueryInterceptionHookPoint hp = false) ∧
      ({} : InterceptorBatchMethodsImpl).curr_iteration_ = 0 ∧
      ({} : InterceptorBatchMethodsImpl).reverse_ = false ∧
      ({} : InterceptorBatchMethodsImpl).ran_hijacking_interceptor_ = false ∧
      ({} : InterceptorBatchMethodsImpl).ops_ = false ∧
      ({} : InterceptorBatchMethodsImpl).call_ = false) ∧
    (CallOpSet.copy_construct 7 {}
        (({ (World.sample {} { reverse_ := true, curr_iteration_ := 3 }).cs with
          done_intercepting_ := true }.set_cq_tag 10).set_output_tag 20) =
      { cq_tag_ := 7, return_tag_ := 7, call_ := Call.sample {} }) := by
  refine ⟨⟨rfl, rfl, rfl, rfl, rfl⟩, ⟨rfl, rfl, rfl, rfl, rfl⟩,
    ⟨fun hp => ?_, rfl, rfl, rfl, rfl, rfl⟩, by decide⟩
  cases hp <;> decide

/-- C20. Whenever `FinalizeResult` returns `true` it sets `*tag` to `return_tag_`:
the value last passed to `set_output_tag`, or the object itself if the tag was
never set. The transport-level tag has no part in it: `set_cq_tag` changes the
value returned by `cq_tag()` and nothing else of the op set, and with any other
transport-level tag `FinalizeResult` returns the same value, tag and status,
consumes the same part of the script, aborts or not alike, and leaves the same
state and trace up to that tag. `set_output_tag` leaves `cq_tag()` unchanged. -/
theorem finalize_result_hands_back_return_tag (env : Env) (script : List InterceptorAction)
    (status : Bool) (w : World) (t this : Nat) (raw : CallOpSet) :
    (∀ r rest w2, CallOpSet.FinalizeResult env script status w = .ok r rest w2 →
      r.ret = true → r.tag = some w.cs.return_tag_) ∧
    (w.cs.set_output_tag t).return_tag_ = t ∧
    (CallOpSet.construct this raw).return_tag_ = this ∧
    (w.cs.set_cq_tag t).cq_tag = t ∧
    w.cs.set_cq_tag t = { w.cs with cq_tag_ := t } ∧
    (w.cs.set_cq_tag t).return_tag_ = w.cs.return_tag_ ∧
    (CallOpSet.FinalizeResult env script status { w with cs := w.cs.set_cq_tag t }).untag =
      (CallOpSet.FinalizeResult env script status w).untag ∧
    (w.cs.set_output_tag t).cq_tag = w.cs.cq_tag ∧
    w.cs.set_output_tag t = { w.cs with return_tag_ := t } := by
  refine ⟨fun r rest w2 h hr => FinalizeResult_true_tag env script status w r rest w2 h hr,
    rfl, rfl, rfl, rfl, rfl, ?_, rfl, rfl⟩
  rw [FinalizeResult_untag env script status { w with cs := w.cs.set_cq_tag t },
    FinalizeResult_untag env script status w]
  rfl

theorem finalize_result_hands_back_return_tag_witness :
    (CallOpSet.FinalizeResult (Env.sample true true) [] true
        { (World.sample {} { call_ := true }) with
          cs := ((World.sample {} { call_ := true }).cs.set_output_tag 33).set_cq_tag 44 } =
      .ok { ret := true, tag := some 33, status := false } []
        (CallOpSet.FinalizeResult (Env.sample true true) [] true
          { (World.sample {} { call_ := true }) with
            cs := ((World.sample {} { call_ := true }).cs.set_output_tag
              33).set_cq_tag 44 }).world) ∧
    FinalizeReturn.tag { ret := true, tag := some 33, status := false } =
      some (((World.sample {} { call_ := true }).cs.set_output_tag 33).set_cq_tag
        44).return_tag_ :=
  ⟨by decide,
    (finalize_result_hands_back_return_tag (Env.sample true true) [] true
      { (World.sample {} { call_ := true }) with
        cs := ((World.sample {} { call_ := true }).cs.set_output_tag 33).set_cq_tag 44 }
      0 0 {}).1 { ret := true, tag := some 33, status := false } []
      (CallOpSet.FinalizeResult (Env.sample true true) [] true
        { (World.sample {} { call_ := true }) with
          cs := ((World.sample {} { call_ := true }).cs.set_output_tag
            33).set_cq_tag 44 }).world (by decide) rfl⟩

/-- C21. Call-handle reference balance, for every interceptor behaviour, slot
content and transport verdict. `FillOps` takes exactly one reference on the
handle of the call it is given and stores that handle; a `FinalizeResult` call
that returns `true` drops exactly one reference on the stored handle; a
`FinalizeResult` call that returns `false` (or aborts),
`ContinueFillOpsAfterInterception` and `ContinueFinalizeResultAfterInterception`
take and drop none, and none of them changes the stored handle. Hence over one
attempt the count is raised by one from `FillOps` on, stays raised across a
completion that returns `false`, and is back at its starting value once a
completion has returned `true`, after one round trip or after two. -/
theorem call_reference_balance (env : Env) (w0 : World) (call : Call)
    (s1 s2 s3 rest : List InterceptorAction) (st1 st2 : Bool) (received1 received2 : CallOpSet)
    (c : Nat) :
    ((CallOpSet.FillOps env s1 call w0).world.refcount c =
        w0.refcount c + (if c = call.call then 1 else 0) ∧
      (CallOpSet.FillOps env s1 call w0).world.cs.call_.call = call.call) ∧
    ((CallOpSet.FinalizeResult env s2 st1 w0).world.refcount c =
        w0.refcount c -
          (if (CallOpSet.FinalizeResult env s2 st1 w0).returnedTrue = true ∧
            c = w0.cs.call_.call then 1 else 0) ∧
      (CallOpSet.FinalizeResult env s2 st1 w0).world.cs.call_.call = w0.cs.call_.call) ∧
    (w0.sameRefs (CallOpSet.ContinueFillOpsAfterInterception env rest w0).world ∧
      w0.sameRefs (CallOpSet.ContinueFinalizeResultAfterInterception env rest w0).world) ∧
    ((CallOpSet.FinalizeResult env s2 st1
        ((CallOpSet.FillOps env s1 call w0).world.withSlotsOf received1)).world.refcount
          call.call =
      w0.refcount call.call + 1 -
        (if (CallOpSet.FinalizeResult env s2 st1
          ((CallOpSet.FillOps env s1 call w0).world.withSlotsOf received1)).returnedTrue
            then 1 else 0)) ∧
    ((CallOpSet.FinalizeResult env s2 st1
        ((CallOpSet.FillOps env s1 call w0).world.withSlotsOf received1)).returnedTrue =
        false →
      (CallOpSet.FinalizeResult env s3 st2
        ((CallOpSet.FinalizeResult env s2 st1
          ((CallOpSet.FillOps env s1 call w0).world.withSlotsOf
            received1)).world.withSlotsOf received2)).world.refcount call.call =
      w0.refcount call.call + 1 -
        (if (CallOpSet.FinalizeResult env s3 st2
          ((CallOpSet.FinalizeResult env s2 st1
            ((CallOpSet.FillOps env s1 call w0).world.withSlotsOf
              received1)).world.withSlotsOf received2)).returnedTrue
            then 1 else 0)) := by
  have hfill := FillOps_refs env s1 call w0
  have hfin := FinalizeResult_refs env s2 st1 w0 c
  have h2 := FinalizeResult_refs env s2 st1
    ((CallOpSet.FillOps env s1 call w0).world.withSlotsOf received1) call.call
  have hcall1 : ((CallOpSet.FillOps env s1 call w0).world.withSlotsOf received1).cs.call_.call =
      call.call := (hfill call.call).1
  have hrc1 : ((CallOpSet.FillOps env s1 call w0).world.withSlotsOf received1).refcount
      call.call = w0.refcount call.call + 1 := by
    have := (hfill call.call).2
    simpa [World.refcount, World.withSlotsOf] using this
  have e2 : (CallOpSet.FinalizeResult env s2 st1
      ((CallOpSet.FillOps env s1 call w0).world.withSlotsOf received1)).world.refcount
        call.call =
      w0.refcount call.call + 1 -
        (if (CallOpSet.FinalizeResult env s2 st1
          ((CallOpSet.FillOps env s1 call w0).world.withSlotsOf received1)).returnedTrue
            then 1 else 0) := by
    rw [h2.2, hrc1, hcall1]
    simp
  refine ⟨⟨(hfill c).2, (hfill c).1⟩, ⟨hfin.2, hfin.1⟩,
    ⟨ContinueFillOps_refs env rest w0, ContinueFinalizeResult_refs env rest w0⟩, e2,
    fun hfalse => ?_⟩
  have h3 := FinalizeResult_refs env s3 st2
    ((CallOpSet.FinalizeResult env s2 st1
      ((CallOpSet.FillOps env s1 call w0).world.withSlotsOf
        received1)).world.withSlotsOf received2) call.call
  have hcall2 : ((CallOpSet.FinalizeResult env s2 st1
      ((CallOpSet.FillOps env s1 call w0).world.withSlotsOf
        received1)).world.withSlotsOf received2).cs.call_.call = call.call :=
    h2.1.trans hcall1
  have hrc2 : ((CallOpSet.FinalizeResult env s2 st1
      ((CallOpSet.FillOps env s1 call w0).world.withSlotsOf
        received1)).world.withSlotsOf received2).refcount call.call =
      w0.refcount call.call + 1 := by
    have := e2
    rw [hfalse] at this
    simpa [World.refcount, World.withSlotsOf] using this
  rw [h3.2, hrc2, hcall2]
  simp

theorem call_reference_balance_witness :
    (CallOpSet.FinalizeResult (Env.sample true true) [] true
        ((CallOpSet.FinalizeResult (Env.sample true true) [.Proceed] true
          ((CallOpSet.FillOps (Env.sample true true) [.Proceed]
            (Call.sample { interceptors_ := 1 })
            (World.sample { interceptors_ := 1 } {})).world.withSlotsOf
              (World.sample {} {}).cs)).world.withSlotsOf
                (World.sample {} {}).cs)).world.refcount 1 =
      (World.sample { interceptors_ := 1 } {}).refcount 1 + 1 -
        (if (CallOpSet.FinalizeResult (Env.sample true true) [] true
          ((CallOpSet.FinalizeResult (Env.sample true true) [.Proceed] true
            ((CallOpSet.FillOps (Env.sample true true) [.Proceed]
              (Call.sample { interceptors_ := 1 })
              (World.sample { interceptors_ := 1 } {})).world.withSlotsOf
                (World.sample {} {}).cs)).world.withSlotsOf
                  (World.sample {} {}).cs)).returnedTrue then 1 else 0) :=
  (call_reference_balance (Env.sample true true) (World.sample { interceptors_ := 1 } {})
    (Call.sample { interceptors_ := 1 }) [.Proceed] [.Proceed] [] [] true true
    (World.sample {} {}).cs (World.sample {} {}).cs 1).2.2.2.2 (by decide)

/-- C22. For every `WriteOptions` value `w`: each of `set_no_compression`,
`set_buffer_hint`, `set_corked` and `set_write_through` makes its own getter
true, and each of `clear_no_compression`, `clear_buffer_hint` and `clear_corked`
makes its own getter false, while the getters of the other two flag bits and
`is_last_message` keep their value; `set_last_message` and `clear_last_message`
set `is_last_message` and leave `flags()` and so every flag getter unchanged;
`Clear()` makes `flags()` zero and leaves `is_last_message` unchanged; and
`is_corked()` always equals `get_buffer_hint()`, `set_corked` and `clear_corked`
being `set_buffer_hint` and `clear_buffer_hint`. -/
theorem write_options_flag_frame (w : WriteOptions) :
    (w.set_no_compression.get_no_compression = true ∧
      w.set_no_compression.get_buffer_hint = w.get_buffer_hint ∧
      w.set_no_compression.is_write_through = w.is_write_through ∧
      w.set_no_compression.is_last_message = w.is_last_message) ∧
    (w.clear_no_compression.get_no_compression = false ∧
      w.clear_no_compression.get_buffer_hint = w.get_buffer_hint ∧
      w.clear_no_compression.is_write_through = w.is_write_through ∧
      w.clear_no_compression.is_last_message = w.is_last_message) ∧
    (w.set_buffer_hint.get_buffer_hint = true ∧
      w.set_buffer_hint.get_no_compression = w.get_no_compression ∧
      w.set_buffer_hint.is_write_through = w.is_write_through ∧
      w.set_buffer_hint.is_last_message = w.is_last_message) ∧
    (w.clear_buffer_hint.get_buffer_hint = false ∧
      w.clear_buffer_hint.get_no_compression = w.get_no_compression ∧
      w.clear_buffer_hint.is_write_through = w.is_write_through ∧
      w.clear_buffer_hint.is_last_message = w.is_last_message) ∧
    (w.set_write_through.is_write_through = true ∧
      w.set_write_through.get_no_compression = w.get_no_compression ∧
      w.set_write_through.get_buffer_hint = w.get_buffer_hint ∧
      w.set_write_through.is_last_message = w.is_last_message) ∧
    (w.set_corked = w.set_buffer_hint ∧ w.clear_corked = w.clear_buffer_hint ∧
      w.is_corked = w.get_buffer_hint ∧ w.set_corked.is_corked = true ∧
      w.clear_corked.is_corked = false) ∧
    (w.set_last_message.is_last_message = true ∧
      w.clear_last_message.is_last_message = false ∧
      w.set_last_message.flags = w.flags ∧ w.clear_last_message.flags = w.flags) ∧
    (w.Clear.flags = 0 ∧ w.Clear.is_last_message = w.is_last_message ∧
      w.Clear.get_no_compression = false ∧ w.Clear.get_buffer_hint = false ∧
      w.Clear.is_write_through = false) := by
  have e0 : GRPC_WRITE_BUFFER_HINT = 2 ^ 0 := rfl
  have e1 : GRPC_WRITE_NO_COMPRESS = 2 ^ 1 := rfl
  have e2 : GRPC_WRITE_THROUGH = 2 ^ 2 := rfl
  have hclear : ∀ mask, w.Clear.GetBit mask = false := by
    intro mask
    simp [WriteOptions.Clear, WriteOptions.GetBit]
  refine ⟨⟨?_, ?_, ?_, rfl⟩, ⟨?_, ?_, ?_, rfl⟩, ⟨?_, ?_, ?_, rfl⟩, ⟨?_, ?_, ?_, rfl⟩,
    ⟨?_, ?_, ?_, rfl⟩, ⟨rfl, rfl, rfl, ?_, ?_⟩, ⟨rfl, rfl, rfl, rfl⟩,
    ⟨rfl, rfl, hclear _, hclear _, hclear _⟩⟩ <;>
  simp only [WriteOptions.set_no_compression, WriteOptions.clear_no_compression,
    WriteOptions.get_no_compression, WriteOptions.set_buffer_hint,
    WriteOptions.clear_buffer_hint, WriteOptions.get_buffer_hint,
    WriteOptions.set_write_through, WriteOptions.is_write_through,
    WriteOptions.set_corked, WriteOptions.clear_corked, WriteOptions.is_corked, e0, e1, e2] <;>
  first
    | (rw [WriteOptions.GetBit_SetBit _ _ _ (by decide)]
       try rw [WriteOptions.GetBit_flags]
       simp)
    | (rw [WriteOptions.GetBit_ClearBit _ _ _ (by decide) (by decide)]
       try rw [WriteOptions.GetBit_flags]
       simp)

/-- C23. For every slot variant, `CallNoOp` included: when the slot has pending
work and is not hijacked, `AddOp` appends exactly one op, of the slot's own kind,
at the old end of the array, so `nops` grows by one; otherwise it leaves the
array and `nops` as they are. Consequently, after `SetHijackingState` the six
`AddOp` calls build the empty array, and the batch that
`ContinueFillOpsAfterInterception` submits contains no op. -/
theorem add_op_contributes_one_op_when_pending (slot : Slot) (ops : List grpc_op)
    (cs : CallOpSet) (env : Env) (rest : List InterceptorAction) (w : World) :
    (slot.hasPendingWork = true ∧ slot.hijacked_ ≠ some true →
      ∃ op, (slot.AddOp ops).2 = ops ++ [op] ∧ slot.ownsOp op = true ∧
        (slot.AddOp ops).2.length = ops.length + 1) ∧
    (slot.hasPendingWork = false ∨ slot.hijacked_ = some true →
      (slot.AddOp ops).2 = ops) ∧
    (CallOpSet.AddOps cs.SetHijackingState).2 = [] ∧
    (env.start_batch_ok [] = true →
      (CallOpSet.ContinueFillOpsAfterInterception env rest
        { w with cs := w.cs.SetHijackingState }).world.trace =
        w.trace ++ [.ContinueFillOpsAfterInterception,
          .grpc_call_start_batch [] w.cs.cq_tag_]) := by
  refine ⟨fun h => ?_, fun h => Slot.AddOp_idle slot ops h,
    CallOpSet.hijacking_empties_array cs, fun hacc => ?_⟩
  · obtain ⟨op, hop, hown⟩ := Slot.AddOp_pending slot ops h.1 h.2
    exact ⟨op, hop, hown, by simp [hop]⟩
  · have he := CallOpSet.hijacking_empties_array w.cs
    unfold CallOpSet.ContinueFillOpsAfterInterception
    simp only [World.log]
    rw [he]
    simp only [hacc, ↓reduceIte, Outcome.world, CallOpSet.cq_tag, List.append_assoc,
      List.singleton_append]
    rfl

theorem add_op_contributes_one_op_when_pending_witness :
    (∃ op, ((Slot.SendMessage { send_buf_ := { buffer_ := some [7] } }).AddOp
        [.GRPC_OP_RECV_INITIAL_METADATA 0]).2 = [.GRPC_OP_RECV_INITIAL_METADATA 0] ++ [op] ∧
      (Slot.SendMessage { send_buf_ := { buffer_ := some [7] } }).ownsOp op = true ∧
      ((Slot.SendMessage { send_buf_ := { buffer_ := some [7] } }).AddOp
        [.GRPC_OP_RECV_INITIAL_METADATA 0]).2.length = 1 + 1) ∧
    ((Slot.SendMessage { send_buf_ := { buffer_ := some [7] }, hijacked_ := true }).AddOp
      [.GRPC_OP_RECV_INITIAL_METADATA 0]).2 = [.GRPC_OP_RECV_INITIAL_METADATA 0] :=
  ⟨(add_op_contributes_one_op_when_pending
      (.SendMessage { send_buf_ := { buffer_ := some [7] } })
      [.GRPC_OP_RECV_INITIAL_METADATA 0] {} (Env.sample true true) [] {}).1
      ⟨rfl, by decide⟩,
    (add_op_contributes_one_op_when_pending
      (.SendMessage { send_buf_ := { buffer_ := some [7] }, hijacked_ := true })
      [.GRPC_OP_RECV_INITIAL_METADATA 0] {} (Env.sample true true) [] {}).2.1
      (Or.inr rfl)⟩

/-- C24. In `ContinueFillOpsAfterInterception`, for every choice of six slots and
every slot state: each slot contributes at most one op, the array is the
contributions of `Op1`, ..., `Op6` in that order, after the first `k` slots it
holds at most `k` ops, so every write `ops[nops]` is at an index below
`MAX_OPS = 6`, and the submitted array has at most six ops. -/
theorem fill_ops_array_bounded_and_in_slot_order (cs : CallOpSet) :
    (CallOpSet.AddOps cs).2 =
      (cs.op1.AddOp []).2 ++ (cs.op2.AddOp []).2 ++ (cs.op3.AddOp []).2 ++
        (cs.op4.AddOp []).2 ++ (cs.op5.AddOp []).2 ++ (cs.op6.AddOp []).2 ∧
    ((cs.op1.AddOp []).2.length ≤ 1 ∧ (cs.op2.AddOp []).2.length ≤ 1 ∧
      (cs.op3.AddOp []).2.length ≤ 1 ∧ (cs.op4.AddOp []).2.length ≤ 1 ∧
      (cs.op5.AddOp []).2.length ≤ 1 ∧ (cs.op6.AddOp []).2.length ≤ 1) ∧
    ((cs.op1.AddOp []).2.length ≤ 1 ∧
      (cs.op2.AddOp (cs.op1.AddOp []).2).2.length ≤ 2 ∧
      (cs.op3.AddOp (cs.op2.AddOp (cs.op1.AddOp []).2).2).2.length ≤ 3 ∧
      (cs.op4.AddOp (cs.op3.AddOp (cs.op2.AddOp (cs.op1.AddOp []).2).2).2).2.length ≤ 4 ∧
      (cs.op5.AddOp (cs.op4.AddOp (cs.op3.AddOp (cs.op2.AddOp
        (cs.op1.AddOp []).2).2).2).2).2.length ≤ 5) ∧
    (CallOpSet.AddOps cs).2.length ≤ 6 := by
  have h1 := Slot.AddOp_at_most_one cs.op1
  have h2 := Slot.AddOp_at_most_one cs.op2
  have h3 := Slot.AddOp_at_most_one cs.op3
  have h4 := Slot.AddOp_at_most_one cs.op4
  have h5 := Slot.AddOp_at_most_one cs.op5
  have h6 := Slot.AddOp_at_most_one cs.op6
  refine ⟨CallOpSet.AddOps_contributions cs, ⟨h1, h2, h3, h4, h5, h6⟩, ⟨h1, ?_, ?_, ?_, ?_⟩, ?_⟩
  · rw [Slot.AddOp_contribution cs.op2]
    simp only [List.length_append]; omega
  · rw [Slot.AddOp_contribution cs.op3, Slot.AddOp_contribution cs.op2]
    simp only [List.length_append]; omega
  · rw [Slot.AddOp_contribution cs.op4, Slot.AddOp_contribution cs.op3,
      Slot.AddOp_contribution cs.op2]
    simp only [List.length_append]; omega
  · rw [Slot.AddOp_contribution cs.op5, Slot.AddOp_contribution cs.op4,
      Slot.AddOp_contribution cs.op3, Slot.AddOp_contribution cs.op2]
    simp only [List.length_append]; omega
  · rw [CallOpSet.AddOps_contributions]
    simp only [List.length_append]; omega

/-- C25, the claim as stated fails: on a call with zero interceptors `FillOps`
does arm hook points. For the unary client batch the four pre-send and no other
flags are set when the batch is submitted; no interceptor is invoked and the
batch is submitted once. -/
theorem fill_ops_without_interceptors_arms_hook_points :
    (CallOpSet.FillOps (Env.sample true true) [] (Call.sample {})
        (World.sample {} {})).world.cs.interceptor_methods_.QueryInterceptionHookPoint
      .PRE_SEND_INITIAL_METADATA = true ∧
    (CallOpSet.FillOps (Env.sample true true) [] (Call.sample {})
        (World.sample {} {})).world.cs.interceptor_methods_.hooks_ =
      [true, true, false, true, false, false, false, false, false, false] ∧
    (CallOpSet.FillOps (Env.sample true true) [] (Call.sample {})
        (World.sample {} {})).world.trace.map Event.isBatch = [false, false, true] := by
  decide

/-- C25, amended. For an attempt on a call with zero interceptors and any slot
configuration, with a transport that accepts the batch: `FillOps` invokes no
interceptor and submits the batch exactly once before returning; the hook points
are armed all the same, a hook flag being set when the batch is submitted
exactly when it was set before or a send slot with pending work arms it. -/
theorem fill_ops_without_interceptors (env : Env) (script : List InterceptorAction)
    (call : Call) (w0 : World)
    (hacc : ∀ ops, env.start_batch_ok ops = true)
    (hnone : ∀ rpc, call.client_rpc_info = some rpc → rpc.interceptors_ = 0)
    (hlen : w0.cs.interceptor_methods_.hooks_.length = NUM_INTERCEPTION_HOOKS) :
    ∃ w1 : World,
      CallOpSet.FillOps env script call w0 = .ok () script w1 ∧
      w1.trace = w0.trace ++ [.grpc_call_ref call.call, .ContinueFillOpsAfterInterception,
        .grpc_call_start_batch (CallOpSet.AddOps w0.cs).2 w0.cs.cq_tag_] ∧
      (∀ i, Event.Intercept i ∉ [Event.grpc_call_ref call.call,
        .ContinueFillOpsAfterInterception,
        .grpc_call_start_batch (CallOpSet.AddOps w0.cs).2 w0.cs.cq_tag_]) ∧
      w1.batches = w0.batches + 1 ∧
      (∀ hp, w1.cs.interceptor_methods_.QueryInterceptionHookPoint hp = true ↔
        (w0.cs.interceptor_methods_.QueryInterceptionHookPoint hp = true ∨
          w0.cs.op1.fillHook = some hp ∨ w0.cs.op2.fillHook = some hp ∨
          w0.cs.op3.fillHook = some hp ∨ w0.cs.op4.fillHook = some hp ∨
          w0.cs.op5.fillHook = some hp ∨ w0.cs.op6.fillHook = some hp)) := by
  let wc : World :=
    { cs := { w0.cs with done_intercepting_ := false, call_ := call }
      trace := w0.trace ++ [.grpc_call_ref call.call] }
  let W : World :=
    ({ wc with cs := wc.cs.SetInterceptionHookPoints } : World)
  let W2 : World := W.setIM W.cs.interceptor_methods_.SetCallOpSetInterface
  let W3 : World := W2.setIM W2.cs.interceptor_methods_.SetCall
  have hF : CallOpSet.FillOps env script call w0 =
      (match RunInterceptors env script W3 with
        | .fatal w => .fatal w
        | .ok true rest w => CallOpSet.ContinueFillOpsAfterInterception env rest w
        | .ok false rest w => .ok () rest w) := rfl
  have hR : RunInterceptors env script W3 = .ok true script W3 :=
    RunInterceptors_none env script W3 rfl hnone
  rw [hR] at hF
  simp only [ContinueFillOps_accepted env hacc] at hF
  have hops : (CallOpSet.AddOps W3.cs).2 = (CallOpSet.AddOps w0.cs).2 :=
    (CallOpSet.AddOps_of_slots _ _ rfl rfl rfl rfl rfl rfl).trans
      ((CallOpSet.SetInterceptionHookPoints_ops wc.cs).trans
        (CallOpSet.AddOps_of_slots _ _ rfl rfl rfl rfl rfl rfl))
  have htr : W3.trace = w0.trace ++ [.grpc_call_ref call.call] := rfl
  have hcq : W3.cs.cq_tag_ = w0.cs.cq_tag_ := rfl
  have hhooks := CallOpSet.fill_hooks_armed wc.cs hlen
  refine ⟨_, hF, ?_, ?_, ?_, ?_⟩
  · simp [htr, hcq, hops]
  · intro i hi
    simp at hi
  · simp [World.batches, htr, hcq, hops, List.countP_append, List.countP_cons,
      Event.isBatch]
  · intro hp
    exact hhooks hp

theorem fill_ops_without_interceptors_witness :
    ∃ w1 : World,
      CallOpSet.FillOps (Env.sample true true) [] (Call.sampleServer { interceptors_ := 2 })
        (World.sampleServer { interceptors_ := 2 } {}) = .ok () [] w1 ∧
      w1.batches = 1 ∧
      (w1.cs.interceptor_methods_.QueryInterceptionHookPoint .PRE_SEND_STATUS = true) := by
  obtain ⟨w1, h1, -, -, h4, h5⟩ := fill_ops_without_interceptors (Env.sample true true) []
    (Call.sampleServer { interceptors_ := 2 }) (World.sampleServer { interceptors_ := 2 } {})
    (fun _ => rfl) (by decide) (by decide)
  exact ⟨w1, h1, h4, (h5 .PRE_SEND_STATUS).2 (by decide)⟩

/-- C26. Whenever the call has no client registry, or a client registry without
interceptors, `RunInterceptors()` returns `true`, invokes no interceptor and
leaves the state as it is, also when the call has a server registry with `N ≥ 1`
interceptors; so from an op-set batch on such a call `FillOps` submits at once
and the completion is handed back at once, with no interceptor invoked. -/
theorem run_interceptors_skips_server_registry (env : Env) (script : List InterceptorAction)
    (w : World) (call : Call) (status : Bool)
    (hnone : ∀ rpc, w.cs.call_.client_rpc_info = some rpc → rpc.interceptors_ = 0)
    (hnone2 : ∀ rpc, call.client_rpc_info = some rpc → rpc.interceptors_ = 0) :
    (w.cs.interceptor_methods_.call_ = true →
      RunInterceptors env script w = .ok true script w) ∧
    ((∀ ops, env.start_batch_ok ops = true) →
      ∃ (w1 : World) (ops : List grpc_op),
        CallOpSet.FillOps env script call w = .ok () script w1 ∧
        w1.trace = w.trace ++ [.grpc_call_ref call.call, .ContinueFillOpsAfterInterception,
          .grpc_call_start_batch ops w.cs.cq_tag_]) ∧
    (w.cs.done_intercepting_ = false → w.cs.interceptor_methods_.call_ = true →
      ∃ w2 : World,
        CallOpSet.FinalizeResult env script status w =
          .ok { ret := true, tag := some w.cs.return_tag_,
                status := (CallOpSet.FinishOps env w.cs status).2 } script w2 ∧
        w2.trace = w.trace ++ [.grpc_call_unref w.cs.call_.call]) := by
  refine ⟨fun hcall => RunInterceptors_none env script w hcall hnone, fun hacc => ?_,
    fun hdone hcall => FinalizeResult_no_interceptors env script status w hdone hcall hnone⟩
  obtain ⟨w1, ops, h1, h2, -⟩ := FillOps_no_interceptors env hacc script call w hnone2
  exact ⟨w1, ops, h1, h2⟩

theorem run_interceptors_skips_server_registry_witness :
    RunInterceptors (Env.sample true true) [.Proceed, .Proceed]
        (World.sampleServer { interceptors_ := 2 } { call_ := true, ops_ := true }) =
      .ok true [.Proceed, .Proceed]
        (World.sampleServer { interceptors_ := 2 } { call_ := true, ops_ := true }) :=
  (run_interceptors_skips_server_registry (Env.sample true true) [.Proceed, .Proceed]
    (World.sampleServer { interceptors_ := 2 } { call_ := true, ops_ := true })
    (Call.sampleServer { interceptors_ := 2 }) true (by decide) (by decide)).1 rfl

/-- C27: the code evaluated at the failing input. `SetHijackingState` on a generic
receive-message slot with a pending destination arms `PRE_RECV_MESSAGE` but
leaves `got_message` false, so the slot's `SetFinishInterceptionHookPoint` arms
no `POST_RECV_MESSAGE` afterwards; the typed slot in the same state sets
`got_message` and has `POST_RECV_MESSAGE` armed. -/
theorem generic_recv_slot_hijack_leaves_got_message_unset :
    ((CallOpGenericRecvMessage.SetHijackingState
        { deserialize_ := some 1, message_ := some 1 } {}).1.got_message = false) ∧
    ((CallOpGenericRecvMessage.SetHijackingState
        { deserialize_ := some 1, message_ := some 1 }
        {}).2.QueryInterceptionHookPoint .PRE_RECV_MESSAGE = true) ∧
    ((CallOpGenericRecvMessage.SetFinishInterceptionHookPoint
        (CallOpGenericRecvMessage.SetHijackingState
          { deserialize_ := some 1, message_ := some 1 } {}).1
        {}).2.QueryInterceptionHookPoint .POST_RECV_MESSAGE = false) ∧
    ((CallOpRecvMessage.SetHijackingState { message_ := some 1 } {}).1.got_message = true) ∧
    ((CallOpRecvMessage.SetHijackingState { message_ := some 1 }
        {}).2.QueryInterceptionHookPoint .PRE_RECV_MESSAGE = true) ∧
    ((CallOpRecvMessage.SetFinishInterceptionHookPoint
        (CallOpRecvMessage.SetHijackingState { message_ := some 1 } {}).1
        {}).2.QueryInterceptionHookPoint .POST_RECV_MESSAGE = true) ∧
    ((CallOpGenericRecvMessage.SetHijackingState {} {}).1.got_message = false ∧
      (CallOpGenericRecvMessage.SetHijackingState {} {}).2 = {} ∧
      (CallOpRecvMessage.SetHijackingState {} {}).1.got_message = false ∧
      (CallOpRecvMessage.SetHijackingState {} {}).2 = {}) := by
  decide

/-- C28, the claim as stated fails: the unary client batch on a call with one
interceptor is completed by the transport with status false; `FinalizeResult`
leaves the status false and still arms `POST_RECV_INITIAL_METADATA` and
`POST_RECV_STATUS` before the reverse pass. -/
theorem post_recv_hooks_armed_after_failed_batch :
    (CallOpSet.FinalizeResult (Env.sample true true) [.Return] false
        (World.sample { interceptors_ := 1 }
          { call_ := true, ops_ := true })).world.cs.interceptor_methods_.hooks_ =
      [false, false, false, false, false, false, false, true, false, true] ∧
    (CallOpSet.FinalizeResult (Env.sample true true) [.Return] false
        (World.sample { interceptors_ := 1 }
          { call_ := true, ops_ := true })).world.cs.interceptor_methods_.QueryInterceptionHookPoint
      .POST_RECV_STATUS = true ∧
    (CallOpSet.FinalizeResult (Env.sample true true) [.Return] false
        (World.sample { interceptors_ := 1 }
          { call_ := true, ops_ := true })).world.cs.interceptor_methods_.QueryInterceptionHookPoint
      .POST_RECV_INITIAL_METADATA = true ∧
    CallOpSet.FinalizeResult (Env.sample true true) [.Return] false
        (World.sample { interceptors_ := 1 } { call_ := true, ops_ := true }) =
      .ok { ret := false, tag := none, status := false } []
        (CallOpSet.FinalizeResult (Env.sample true true) [.Return] false
          (World.sample { interceptors_ := 1 } { call_ := true, ops_ := true })).world := by
  decide

/-- C28, amended. After `RunInterceptorsPostRecv` has reset the tracker and
called the six `SetFinishInterceptionHookPoint` methods, a hook flag is set
exactly when one of the six slots arms it: `POST_RECV_MESSAGE` if and only if a
receive-message slot has `got_message` true, `POST_RECV_INITIAL_METADATA` and
`POST_RECV_STATUS` if and only if the corresponding receive was requested (the
slot's destination pointer is set), whatever status the transport completed
with; no pre-* hook is armed, and send slots arm nothing. -/
theorem finish_hook_points_armed (cs : CallOpSet) (hp : InterceptionHookPoints) :
    ((CallOpSet.SetFinishInterceptionHookPoints
        { cs with interceptor_methods_ := cs.interceptor_methods_.SetReverse
          }).interceptor_methods_.QueryInterceptionHookPoint hp = true ↔
      (cs.op1.finishHook = some hp ∨ cs.op2.finishHook = some hp ∨
        cs.op3.finishHook = some hp ∨ cs.op4.finishHook = some hp ∨
        cs.op5.finishHook = some hp ∨ cs.op6.finishHook = some hp)) ∧
    ((CallOpSet.SetFinishInterceptionHookPoints
        { cs with interceptor_methods_ := cs.interceptor_methods_.SetReverse
          }).interceptor_methods_.QueryInterceptionHookPoint hp = true →
      hp = .POST_RECV_INITIAL_METADATA ∨ hp = .POST_RECV_MESSAGE ∨ hp = .POST_RECV_STATUS) ∧
    (∀ s : CallOpRecvMessage,
      (Slot.RecvMessage s).finishHook = some .POST_RECV_MESSAGE ↔ s.got_message = true) ∧
    (∀ s : CallOpGenericRecvMessage,
      (Slot.GenericRecvMessage s).finishHook = some .POST_RECV_MESSAGE ↔
        s.got_message = true) ∧
    (∀ s : CallOpRecvInitialMetadata,
      (Slot.RecvInitialMetadata s).finishHook = some .POST_RECV_INITIAL_METADATA ↔
        s.metadata_map_ ≠ none) ∧
    (∀ s : CallOpClientRecvStatus,
      (Slot.ClientRecvStatus s).finishHook = some .POST_RECV_STATUS ↔
        s.recv_status_ = true) ∧
    (∀ slot : Slot, (∀ s, slot ≠ .RecvMessage s) → (∀ s, slot ≠ .GenericRecvMessage s) →
      (∀ s, slot ≠ .RecvInitialMetadata s) → (∀ s, slot ≠ .ClientRecvStatus s) →
      slot.finishHook = none) := by
  have hlen : ({ cs with interceptor_methods_ := cs.interceptor_methods_.SetReverse
      } : CallOpSet).interceptor_methods_.hooks_.length = NUM_INTERCEPTION_HOOKS := by
    simp [SetReverse, ClearHookPoints]
  have hclear : ∀ h, ({ cs with interceptor_methods_ := cs.interceptor_methods_.SetReverse
      } : CallOpSet).interceptor_methods_.QueryInterceptionHookPoint h = false := by
    intro h
    exact Query_ClearHookPoints _ h
  have key := CallOpSet.finish_hooks_armed _ hlen hclear hp
  refine ⟨key, fun h => ?_, ?_, ?_, ?_, ?_, ?_⟩
  · rcases key.1 h with h1 | h1 | h1 | h1 | h1 | h1 <;>
      exact Slot.finishHook_post_recv _ hp h1
  · intro s; simp [Slot.finishHook]
  · intro s; simp [Slot.finishHook]
  · intro s; simp [Slot.finishHook]
  · intro s; simp [Slot.finishHook]
  · intro slot h1 h2 h3 h4
    cases slot with
    | RecvMessage s => exact absurd rfl (h1 s)
    | GenericRecvMessage s => exact absurd rfl (h2 s)
    | RecvInitialMetadata s => exact absurd rfl (h3 s)
    | ClientRecvStatus s => exact absurd rfl (h4 s)
    | _ => rfl

theorem finish_hook_points_armed_witness :
    (CallOpSet.SetFinishInterceptionHookPoints
        { (World.sample {} {}).cs with
          interceptor_methods_ := (World.sample {} {}).cs.interceptor_methods_.SetReverse
          }).interceptor_methods_.QueryInterceptionHookPoint .POST_RECV_STATUS = true ∧
    (InterceptionHookPoints.POST_RECV_STATUS = .POST_RECV_INITIAL_METADATA ∨
      InterceptionHookPoints.POST_RECV_STATUS = .POST_RECV_MESSAGE ∨
      InterceptionHookPoints.POST_RECV_STATUS = .POST_RECV_STATUS) :=
  ⟨by decide,
    (finish_hook_points_armed (World.sample {} {}).cs .POST_RECV_STATUS).2.1 (by decide)⟩

/-- C30. A typed and a generic receive-message slot in the same situation. With a
pending destination, not hijacked, a valid receive buffer and incoming status
true, both leave as status the decode outcome, the generic slot sets
`got_message = true` whatever that outcome and the typed slot sets `got_message`
to the outcome; so in that situation they differ exactly when decoding fails. In
every other situation the two slot kinds leave the same status and the same
`got_message`. -/
theorem generic_recv_finish_differs_only_on_decode_failure (env : Env)
    (t : CallOpRecvMessage) (g : CallOpGenericRecvMessage) (status : Bool)
    (hsame : sameSituation t g) :
    (∀ buf, t.message_.isSome = true → t.hijacked_ = false →
        t.recv_buf_.buffer_ = some buf → status = true →
      (g.FinishOp env status).1.got_message = true ∧
      (g.FinishOp env status).2 = env.Deserialize_ok t.R buf ∧
      (t.FinishOp env status).1.got_message = env.Deserialize_ok t.R buf ∧
      (t.FinishOp env status).2 = env.Deserialize_ok t.R buf) ∧
    (¬ (t.message_.isSome = true ∧ t.hijacked_ = false ∧ t.recv_buf_.Valid = true ∧
        status = true) →
      (g.FinishOp env status).2 = (t.FinishOp env status).2 ∧
      (g.FinishOp env status).1.got_message = (t.FinishOp env status).1.got_message) ∧
    ((g.FinishOp env status).2 = (t.FinishOp env status).2) := by
  obtain ⟨hgot, hbuf, hallow, hhij, hpend, hR⟩ := hsame
  cases hd : g.deserialize_ with
  | none =>
    have hm : t.message_ = none := by
      rw [hd] at hpend
      simpa using hpend
    refine ⟨fun buf h1 => ?_, fun _ => ?_, ?_⟩
    · simp [hm] at h1
    · simp [CallOpGenericRecvMessage.FinishOp, CallOpRecvMessage.FinishOp, hd, hm, hgot]
    · simp [CallOpGenericRecvMessage.FinishOp, CallOpRecvMessage.FinishOp, hd, hm]
  | some R =>
    have hRt : R = t.R := hR R hd
    subst hRt
    have hm : t.message_ ≠ none := by
      rw [hd] at hpend
      intro h0
      simp [h0] at hpend
    have hmb : (t.message_ == none) = false := by simpa using hm
    cases hh : t.hijacked_ with
    | true =>
      have hgh : g.hijacked_ = true := by rw [← hhij, hh]
      refine ⟨fun buf _ h2 => ?_, fun _ => ?_, ?_⟩
      · cases h2
      · simp [CallOpGenericRecvMessage.FinishOp, CallOpRecvMessage.FinishOp, hd, hh, hgh,
          hgot]
      · simp [CallOpGenericRecvMessage.FinishOp, CallOpRecvMessage.FinishOp, hd, hh, hgh]
    | false =>
      have hgh : g.hijacked_ = false := by rw [← hhij, hh]
      cases hb : t.recv_buf_.buffer_ with
      | none =>
        have hgb : g.recv_buf_.buffer_ = none := by rw [← hbuf, hb]
        refine ⟨fun buf _ _ h3 => ?_, fun _ => ?_, ?_⟩
        · cases h3
        · simp only [CallOpGenericRecvMessage.FinishOp, CallOpRecvMessage.FinishOp, hd, hh,
            hgh, hb, hgb, hmb, hallow, Bool.or_self, Bool.false_eq_true, ↓reduceIte]
          constructor
          · split <;> rfl
          · split <;> rfl
        · simp only [CallOpGenericRecvMessage.FinishOp, CallOpRecvMessage.FinishOp, hd, hh,
            hgh, hb, hgb, hmb, hallow, Bool.or_self, Bool.false_eq_true, ↓reduceIte]
          split <;> rfl
      | some b =>
        have hgb : g.recv_buf_.buffer_ = some b := by rw [← hbuf, hb]
        cases status with
        | false =>
          refine ⟨fun buf _ _ _ h4 => ?_, fun _ => ?_, ?_⟩
          · cases h4
          · simp [CallOpGenericRecvMessage.FinishOp, CallOpRecvMessage.FinishOp, hd, hh, hgh,
              hb, hgb, hmb]
          · simp [CallOpGenericRecvMessage.FinishOp, CallOpRecvMessage.FinishOp, hd, hh, hgh,
              hb, hgb, hmb]
        | true =>
          refine ⟨fun buf _ _ h3 _ => ?_, fun hn => ?_, ?_⟩
          · cases h3
            simp [CallOpGenericRecvMessage.FinishOp, CallOpRecvMessage.FinishOp, hd, hh, hgh,
              hb, hgb, hmb]
          · exfalso
            apply hn
            refine ⟨by simpa [Option.isSome_iff_ne_none] using hm, rfl, ?_, rfl⟩
            simp [ByteBuffer.Valid, hb]
          · simp [CallOpGenericRecvMessage.FinishOp, CallOpRecvMessage.FinishOp, hd, hh, hgh,
              hb, hgb, hmb]

theorem generic_recv_finish_differs_only_on_decode_failure_witness :
    (CallOpGenericRecvMessage.FinishOp (Env.sample false true)
        { deserialize_ := some 0, recv_buf_ := { buffer_ := some [1] } } true).1.got_message =
      true ∧
    (CallOpGenericRecvMessage.FinishOp (Env.sample false true)
        { deserialize_ := some 0, recv_buf_ := { buffer_ := some [1] } } true).2 = false ∧
    (CallOpRecvMessage.FinishOp (Env.sample false true)
        { message_ := some 1, recv_buf_ := { buffer_ := some [1] } } true).1.got_message =
      false ∧
    (CallOpRecvMessage.FinishOp (Env.sample false true)
        { message_ := some 1, recv_buf_ := { buffer_ := some [1] } } true).2 = false :=
  (generic_recv_finish_differs_only_on_decode_failure (Env.sample false true)
    { message_ := some 1, recv_buf_ := { buffer_ := some [1] } }
    { deserialize_ := some 0, recv_buf_ := { buffer_ := some [1] } } true
    ⟨rfl, rfl, rfl, rfl, rfl, fun R h => by cases h; rfl⟩).1 [1] rfl rfl rfl rfl

/-- C31. Hijacked is monotone per slot. For every slot variant and every sequence
of calls on the slot (`AddOp`, `FinishOp`, `SetInterceptionHookPoint`,
`SetFinishInterceptionHookPoint`, `SetHijackingState` and the configuration
calls of its class, with any arguments): a slot whose `hijacked_` is set still
has it set afterwards, and its `AddOp` then contributes no op. So after
`SetHijackingState` on a slot, and on the op set, whatever calls the slots
receive later, the array built for the next batch is empty; the assignment
operator of the op set does not reset the slots either. -/
theorem hijacked_is_monotone (env : Env) (slot : Slot) (calls : List SlotCall)
    (ops : List grpc_op) (im : InterceptorBatchMethodsImpl) (cs other : CallOpSet)
    (this : Nat) (c1 c2 c3 c4 c5 c6 : List SlotCall) :
    (slot.hijacked_ = some true →
      (slot.performAll env calls).hijacked_ = some true ∧
      ((slot.performAll env calls).AddOp ops).2 = ops) ∧
    (∀ call : SlotCall, (slot.perform env call).hijacked_ = slot.hijacked_ ∨
      (slot.perform env call).hijacked_ = some true) ∧
    ((slot.SetHijackingState im).1.hijacked_ ≠ some false ∧
      ((slot.SetHijackingState im).1.performAll env calls).hijacked_ ≠ some false ∧
      (((slot.SetHijackingState im).1.performAll env calls).AddOp ops).2 = ops) ∧
    (CallOpSet.AddOps
      { cs.SetHijackingState with
        op1 := cs.SetHijackingState.op1.performAll env c1
        op2 := cs.SetHijackingState.op2.performAll env c2
        op3 := cs.SetHijackingState.op3.performAll env c3
        op4 := cs.SetHijackingState.op4.performAll env c4
        op5 := cs.SetHijackingState.op5.performAll env c5
        op6 := cs.SetHijackingState.op6.performAll env c6 }).2 = [] ∧
    (CallOpSet.AddOps (CallOpSet.assign this cs.SetHijackingState other)).2 = [] := by
  have hs : ∀ s : Slot, (s.SetHijackingState im).1.isHijacked := fun s =>
    Slot.SetHijackingState_isHijacked s im
  have hm := CallOpSet.hijacking_marks_slots cs
  obtain ⟨m1, m2, m3, m4, m5, m6⟩ := hm
  refine ⟨fun h => ?_, fun call => Slot.perform_hijacked env slot call, ⟨hs slot, ?_, ?_⟩,
    ?_, ?_⟩
  · have h2 := Slot.performAll_hijacked env calls slot h
    exact ⟨h2, Slot.AddOp_idle _ ops (Or.inr h2)⟩
  · exact Slot.performAll_isHijacked env calls _ (hs slot)
  · exact Slot.isHijacked_idle _ ops (Slot.performAll_isHijacked env calls _ (hs slot))
  · rw [CallOpSet.AddOps_contributions]
    simp only [Slot.isHijacked_idle _ _ (Slot.performAll_isHijacked env c1 _ m1),
      Slot.isHijacked_idle _ _ (Slot.performAll_isHijacked env c2 _ m2),
      Slot.isHijacked_idle _ _ (Slot.performAll_isHijacked env c3 _ m3),
      Slot.isHijacked_idle _ _ (Slot.performAll_isHijacked env c4 _ m4),
      Slot.isHijacked_idle _ _ (Slot.performAll_isHijacked env c5 _ m5),
      Slot.isHijacked_idle _ _ (Slot.performAll_isHijacked env c6 _ m6), List.append_nil]
  · rw [CallOpSet.AddOps_contributions]
    simp only [CallOpSet.assign, Slot.isHijacked_idle _ _ m1, Slot.isHijacked_idle _ _ m2,
      Slot.isHijacked_idle _ _ m3, Slot.isHijacked_idle _ _ m4, Slot.isHijacked_idle _ _ m5,
      Slot.isHijacked_idle _ _ m6, List.append_nil]

theorem hijacked_is_monotone_witness :
    ((Slot.SendMessage { hijacked_ := true }).performAll (Env.sample true true)
        [.SendMessage 1 {}, .AddOp [], .FinishOp true, .SendMessage 2 {}]).hijacked_ =
      some true ∧
    (((Slot.SendMessage { hijacked_ := true }).performAll (Env.sample true true)
        [.SendMessage 1 {}, .AddOp [], .FinishOp true, .SendMessage 2 {}]).AddOp []).2 = [] :=
  (hijacked_is_monotone (Env.sample true true) (.SendMessage { hijacked_ := true })
    [.SendMessage 1 {}, .AddOp [], .FinishOp true, .SendMessage 2 {}] [] {} {} {} 0
    [] [] [] [] [] []).1 rfl

/-- C32. `WriteOptions` assignment copies only the flag bits: after `a = b`,
`a.flags()` is `b.flags()` and `a.is_last_message()` is what it was, whereas copy
construction copies both members. Hence the write options a `CallOpSendMessage`
slot stores after `SendMessage(message, options)` have the flags of `options`
and the last-message bit the slot had before, never that of `options`; no call
on a slot changes that bit, so on a slot that was default-constructed it is
false after every sequence of calls. -/
theorem write_options_assignment_copies_flags_only (a b : WriteOptions) (env : Env)
    (s raw : CallOpSendMessage) (message : Nat) (options : WriteOptions)
    (calls : List SlotCall) :
    ((a.assign b).flags = b.flags ∧ (a.assign b).is_last_message = a.is_last_message) ∧
    ((WriteOptions.copy b).flags = b.flags ∧
      (WriteOptions.copy b).is_last_message = b.is_last_message) ∧
    ((CallOpSendMessage.SendMessage env s message options).1.write_options_.flags =
        options.flags ∧
      (CallOpSendMessage.SendMessage env s message options).1.write_options_.is_last_message =
        s.write_options_.is_last_message) ∧
    ((Slot.SendMessage s).performAll env calls).write_options_.map
        WriteOptions.is_last_message = some s.write_options_.is_last_message ∧
    ((Slot.SendMessage raw.construct).performAll env calls).write_options_.map
        WriteOptions.is_last_message = some false ∧
    (CallOpSendMessage.SendMessage (Env.sample true true) {} 1
        { flags_ := 2, last_message_ := true }).1.write_options_ =
      { flags_ := 2, last_message_ := false } := by
  refine ⟨⟨rfl, rfl⟩, ⟨rfl, rfl⟩, ⟨?_, ?_⟩, ?_, ?_, by decide⟩
  · simp only [CallOpSendMessage.SendMessage]
    split <;> split <;> rfl
  · simp only [CallOpSendMessage.SendMessage]
    split <;> split <;> rfl
  · exact Slot.performAll_last_message env calls (.SendMessage s)
  · exact Slot.performAll_last_message env calls (.SendMessage raw.construct)

end grpc
